import Mathlib

/-! # Motion-capture metrics client: data model, calculators, frame buffer, takes, replay

A shallow embedding of the C++ sources under `src/sports-data-metric-client`.

Conventions of the embedding.

* `float`, `double` and `qreal` values are elements of a linearly ordered field `K`
  (exact arithmetic, no rounding). The definitions are generic in `K`, so they run on `ℚ`
  and can be stated about `ℝ`. The one computation whose result is truncated to an `int`,
  the replay interval of a play speed, rounds each `double` operation (`roundToDouble`).
* The library functions of Qt and of `<cmath>` that the sources call (`std::sqrt`, `qAcos`,
  `QQuaternion::toEulerAngles`, the constant pi) are parameters, bundled in `QtMath`.
* C++ `int` values (ids, frame numbers, indices read from the configuration) are `Int`.
* Undefined behaviour of the C++ program (indexing a `std::vector` out of range, leaving a
  value-returning function without `return`, converting a floating-point value without
  `int` value to `int`) is an explicit `Fault`.
* A take file is the JSON document Qt reads from it; the text form of JSON is not modelled.
  `std::string` and `QString` are both `String`.
* `qDebug()` output is not modelled.
-/

namespace MetricsClient

/-! ## Qt value types -/

/-- Qt `QVector3D`: three components. -/
structure QVector3D (K : Type) where
  x : K
  y : K
  z : K
deriving DecidableEq

/-- Qt `QQuaternion`, constructed as `QQuaternion(scalar, x, y, z)`. -/
structure QQuaternion (K : Type) where
  scalar : K
  x : K
  y : K
  z : K
deriving DecidableEq

/-- Library functions the sources take from Qt and `<cmath>`. -/
structure QtMath (K : Type) where
  /-- Function `std::sqrt`. -/
  sqrt : K → K
  /-- Function `qAcos`. -/
  acos : K → K
  /-- Constant `M_PI` used by `qRadiansToDegrees`. -/
  pi : K
  /-- Method `QQuaternion::toEulerAngles`: the vector (pitch, yaw, roll). -/
  toEulerAngles : QQuaternion K → QVector3D K

section Field

variable {K : Type} [LinearOrderedField K]

/-- Qt `operator-(QVector3D, QVector3D)`. -/
def QVector3D.sub (a b : QVector3D K) : QVector3D K :=
  ⟨a.x - b.x, a.y - b.y, a.z - b.z⟩

/-- Qt `QVector3D::length()`: the Euclidean length. -/
def QVector3D.length (sqrt : K → K) (v : QVector3D K) : K :=
  sqrt (v.x * v.x + v.y * v.y + v.z * v.z)

/-- Qt `QVector3D::operator[](int)` for the indices 0, 1, 2 the sources use. -/
def QVector3D.component (v : QVector3D K) (j : Nat) : K :=
  match j with
  | 0 => v.x
  | 1 => v.y
  | _ => v.z

/-- Qt `QQuaternion::conjugated()`. -/
def QQuaternion.conjugated (q : QQuaternion K) : QQuaternion K :=
  ⟨q.scalar, -q.x, -q.y, -q.z⟩

/-- Qt `operator*(QQuaternion, QQuaternion)`: the Hamilton product. -/
def QQuaternion.mul (a b : QQuaternion K) : QQuaternion K :=
  ⟨a.scalar * b.scalar - a.x * b.x - a.y * b.y - a.z * b.z,
   a.scalar * b.x + a.x * b.scalar + a.y * b.z - a.z * b.y,
   a.scalar * b.y - a.x * b.z + a.y * b.scalar + a.z * b.x,
   a.scalar * b.z + a.x * b.y - a.y * b.x + a.z * b.scalar⟩

/-- Qt `QQuaternion::normalize()`: a quaternion of squared length 1 or 0 is left as it is,
any other one is divided by its length. -/
def QQuaternion.normalize (sqrt : K → K) (q : QQuaternion K) : QQuaternion K :=
  let len := q.x * q.x + q.y * q.y + q.z * q.z + q.scalar * q.scalar
  if len = 1 then q
  else if len = 0 then q
  else ⟨q.scalar / sqrt len, q.x / sqrt len, q.y / sqrt len, q.z / sqrt len⟩

/-- Qt `qRadiansToDegrees`. -/
def qRadiansToDegrees (pi : K) (radians : K) : K :=
  radians * (180 / pi)

end Field

/-! ## frame_data.h, metrics_data.h -/

/-- Struct `RigidBodyData` of `frame_data.h`. -/
structure RigidBodyData (K : Type) where
  id : Int := -1
  parentId : Int := -1
  position : QVector3D K
  orientation : QQuaternion K
deriving DecidableEq

/-- Struct `SkeletonData` of `frame_data.h`. -/
structure SkeletonData (K : Type) where
  id : Int := -1
  bones : List (RigidBodyData K) := []
deriving DecidableEq

/-- Struct `FrameData` of `frame_data.h`. -/
structure FrameData (K : Type) where
  frameNumber : Int
  timestamp : K
  rigidBodies : List (RigidBodyData K) := []
  skeletons : List (SkeletonData K) := []
deriving DecidableEq

/-- Qt `QHash<QString, qreal>` as a list of entries with pairwise distinct keys. -/
structure QHash (K : Type) where
  entries : List (String × K) := []
deriving DecidableEq

/-- Qt `QHash::insert`: the value of an existing key is replaced. -/
def QHash.insert {K : Type} (h : QHash K) (key : String) (value : K) : QHash K :=
  ⟨(key, value) :: h.entries.filter (fun p => p.1 != key)⟩

/-- Qt `QHash::isEmpty`. -/
def QHash.isEmpty {K : Type} (h : QHash K) : Bool :=
  h.entries.isEmpty

/-- Value stored under a key, if any. -/
def QHash.find? {K : Type} (h : QHash K) (key : String) : Option K :=
  h.entries.lookup key

/-- Struct `MetricsData` of `metrics_data.h`. -/
structure MetricsData (K : Type) where
  id : Int := -1
  metrics : QHash K := {}
deriving DecidableEq

/-- One entry of the metric settings array as the calculators read it:
`cls` is `metricObj["class"].toString()`, `ids` are the `toInt()` values of
`metricObj["ids"].toArray()`, `labels` the `toString()` values of
`metricObj["labels"].toArray()`. -/
structure MetricDefinition where
  cls : String
  ids : List Int := []
  labels : List String := []
deriving DecidableEq

/-- Undefined behaviour reached by the C++ code. -/
inductive Fault where
  /-- Index outside `[0, size)` passed to `std::vector::operator[]`. -/
  | outOfRange
  /-- End of a value-returning function reached without a `return` statement. -/
  | missingReturn
  /-- Conversion of a floating-point value that has no `int` value with `static_cast<int>`. -/
  | castOutOfRange
deriving DecidableEq

/-- Qt `QMap<QString, int>` as an association list. -/
abbrev NameToId := List (String × Int)

/-- Qt `QMap::contains`. -/
def NameToId.contains (m : NameToId) (name : String) : Bool :=
  (m.lookup name).isSome

/-- Qt `QMap::value`: the stored id, or a default-constructed `int` (0). -/
def NameToId.value (m : NameToId) (name : String) : Int :=
  (m.lookup name).getD 0

/-! ## rigid_body_metrics.cpp -/

/-- Data members of class `RigidBodyMetrics`; `m_rigidBodies` is the
`std::unordered_map<int, std::string>` of rigid-body names as the list of its entries. -/
structure RigidBodyMetrics where
  selectedAsset : Int := 0
  m_metricSettings : List MetricDefinition := []
  m_rigidBodies : List (Int × String) := []
  m_rigidBodyNameToId : NameToId := []
deriving DecidableEq

section Field

variable {K : Type} [LinearOrderedField K]

/-- Method `RigidBodyMetrics::computeVelocity`. -/
def RigidBodyMetrics.computeVelocity (sqrt : K → K)
    (currentPosition previousPosition : QVector3D K) (deltaTime : K) : K :=
  if deltaTime ≤ 0 then 0
  else
    let distance := currentPosition.sub previousPosition
    distance.length sqrt / deltaTime

/-- Method `RigidBodyMetrics::computeAcceleration`. -/
def RigidBodyMetrics.computeAcceleration (sqrt : K → K)
    (currentPosition previousPosition secondPreviousPosition : QVector3D K)
    (currDeltaTime prevDeltaTime : K) : K :=
  if currDeltaTime ≤ 0 then 0
  else
    let curr_speed := computeVelocity sqrt currentPosition previousPosition currDeltaTime
    let prev_speed := computeVelocity sqrt previousPosition secondPreviousPosition prevDeltaTime
    let delta_speed := curr_speed - prev_speed
    delta_speed / currDeltaTime

/-- Method `RigidBodyMetrics::computeTilt`; the argument holds (pitch, yaw, roll). -/
def RigidBodyMetrics.computeTilt (sqrt : K → K) (eulerAngles : QVector3D K) : K :=
  let pitch := eulerAngles.x
  let roll := eulerAngles.z
  sqrt (pitch * pitch + roll * roll)

/-- Loop `for (int j = 0; j < labels.size() && j < 3; ++j) data.metrics.insert(labels[j], v[j])`
of `RigidBodyMetrics::computeMetricsForFrame`, started at index `j`. -/
def RigidBodyMetrics.insertComponents (v : QVector3D K) :
    Nat → List String → QHash K → QHash K
  | _, [], metrics => metrics
  | j, label :: rest, metrics =>
    if j < 3 then insertComponents v (j + 1) rest (metrics.insert label (v.component j))
    else metrics

/-- Body of the loop over `m_metricSettings` in `RigidBodyMetrics::computeMetricsForFrame`:
the effect of one metric definition on `data.metrics`. -/
def RigidBodyMetrics.applyMetric (m : QtMath K)
    (current previous secondPrevious : FrameData K)
    (curr_rigid prev_rigid sec_prev_rigid : RigidBodyData K) (orientation : QVector3D K)
    (metrics : QHash K) (metricObj : MetricDefinition) : QHash K :=
  if metricObj.cls = "tilt" then
    let tilt := computeTilt m.sqrt orientation
    match metricObj.labels with
    | [] => metrics
    | label :: _ => metrics.insert label tilt
  else if metricObj.cls = "velocity" then
    let velocity := computeVelocity m.sqrt curr_rigid.position prev_rigid.position
      (current.timestamp - previous.timestamp)
    match metricObj.labels with
    | [] => metrics
    | label :: _ => metrics.insert label velocity
  else if metricObj.cls = "acceleration" then
    let acceleration := computeAcceleration m.sqrt curr_rigid.position prev_rigid.position
      sec_prev_rigid.position (current.timestamp - previous.timestamp)
      (previous.timestamp - secondPrevious.timestamp)
    match metricObj.labels with
    | [] => metrics
    | label :: _ => metrics.insert label acceleration
  else if metricObj.cls = "position" then
    insertComponents curr_rigid.position 0 metricObj.labels metrics
  else if metricObj.cls = "orientation" then
    insertComponents orientation 0 metricObj.labels metrics
  else metrics

/-- Loop `for (size_t i = 0; i < current.rigidBodies.size(); ++i)` of
`RigidBodyMetrics::computeMetricsForFrame`, at index `i` with the rigid bodies of `current`
from index `i` on still to visit. Each iteration indexes `previous.rigidBodies` and
`secondPrevious.rigidBodies` at `i` before it looks at the id; the first rigid body with the
selected id ends the function; the loop has no `return` after it. -/
def RigidBodyMetrics.scan (m : QtMath K)
    (self : RigidBodyMetrics) (current previous secondPrevious : FrameData K) :
    Nat → List (RigidBodyData K) → Except Fault (MetricsData K)
  | _, [] => .error .missingReturn
  | i, curr_rigid :: rest =>
    match previous.rigidBodies[i]?, secondPrevious.rigidBodies[i]? with
    | some prev_rigid, some sec_prev_rigid =>
      if curr_rigid.id ≠ self.selectedAsset then
        scan m self current previous secondPrevious (i + 1) rest
      else
        let orientation := m.toEulerAngles curr_rigid.orientation
        .ok { id := current.frameNumber
              metrics := self.m_metricSettings.foldl
                (applyMetric m current previous secondPrevious
                  curr_rigid prev_rigid sec_prev_rigid orientation) {} }
    | _, _ => .error .outOfRange

/-- Method `RigidBodyMetrics::computeMetricsForFrame`. -/
def RigidBodyMetrics.computeMetricsForFrame (m : QtMath K) (self : RigidBodyMetrics)
    (current previous secondPrevious : FrameData K) : Except Fault (MetricsData K) :=
  if self.selectedAsset = -1 then .ok {}
  else scan m self current previous secondPrevious 0 current.rigidBodies

end Field

/-- Method `RigidBodyMetrics::setAsset`; `NULL` is the integer 0. -/
def RigidBodyMetrics.setAsset (self : RigidBodyMetrics) (rigidBodyAsset : String) :
    RigidBodyMetrics :=
  if self.m_rigidBodyNameToId.contains rigidBodyAsset then
    { self with selectedAsset := self.m_rigidBodyNameToId.value rigidBodyAsset }
  else
    { self with selectedAsset := 0 }

/-- Method `RigidBodyMetrics::setMetricSettings`. -/
def RigidBodyMetrics.setMetricSettings (self : RigidBodyMetrics)
    (rigidMetricsSettings : List MetricDefinition) : RigidBodyMetrics :=
  { self with m_metricSettings := rigidMetricsSettings }

/-! ## skeleton_metrics.cpp -/

/-- Data members of class `SkeletonMetrics`; `m_skeletons` and `m_bones` are the
`std::unordered_map` members as the lists of their entries, `m_boneNameToId` is the
`QMap<int, QMap<QString, int>>`. -/
structure SkeletonMetrics where
  selectedAsset : Int := 0
  m_metricSettings : List MetricDefinition := []
  m_skeletons : List (Int × String) := []
  m_bones : List (Int × List (Int × String)) := []
  m_skeletonNameToId : NameToId := []
  m_boneNameToId : List (Int × NameToId) := []
deriving DecidableEq

/-- Method `SkeletonMetrics::setAsset`. -/
def SkeletonMetrics.setAsset (self : SkeletonMetrics) (skeletonAsset : String) :
    SkeletonMetrics :=
  if self.m_skeletonNameToId.contains skeletonAsset then
    { self with selectedAsset := self.m_skeletonNameToId.value skeletonAsset }
  else
    { self with selectedAsset := -1 }

/-- Method `SkeletonMetrics::setMetricSettings`. -/
def SkeletonMetrics.setMetricSettings (self : SkeletonMetrics)
    (skeletonMetricsSettings : List MetricDefinition) : SkeletonMetrics :=
  { self with m_metricSettings := skeletonMetricsSettings }

section Field

variable {K : Type} [LinearOrderedField K]

/-- Expression `skeleton.bones[boneId]` with an `int` index: the index is converted to
`size_t`, so a negative one is out of range like one that is too large. -/
def SkeletonData.boneAt (skeleton : SkeletonData K) (boneId : Int) :
    Except Fault (RigidBodyData K) :=
  if boneId < 0 then .error .outOfRange
  else
    match skeleton.bones[boneId.toNat]? with
    | some bone => .ok bone
    | none => .error .outOfRange

/-- Method `SkeletonMetrics::computeJointAngle`. -/
def SkeletonMetrics.computeJointAngle (m : QtMath K)
    (bone1Orientation bone2Orientation : QQuaternion K) : K :=
  let relativeRotation := (bone1Orientation.conjugated.mul bone2Orientation).normalize m.sqrt
  let angleRadians := 2 * m.acos relativeRotation.scalar
  qRadiansToDegrees m.pi angleRadians

/-- Method `SkeletonMetrics::getJointAngle`. -/
def SkeletonMetrics.getJointAngle (m : QtMath K) (bone1Id bone2Id : Int)
    (skeleton : SkeletonData K) : Except Fault K := do
  let bone1 ← skeleton.boneAt bone1Id
  let bone2 ← skeleton.boneAt bone2Id
  pure (computeJointAngle m bone1.orientation bone2.orientation)

/-- Method `SkeletonMetrics::computeForwardTilt`. -/
def SkeletonMetrics.computeForwardTilt (m : QtMath K) (bone1Id bone2Id : Int)
    (skeleton : SkeletonData K) : Except Fault K := do
  let bone1 ← skeleton.boneAt bone1Id
  let bone2 ← skeleton.boneAt bone2Id
  let pos1 := bone1.position
  let pos2 := bone2.position
  let dx := pos2.x - pos1.x
  let dz := pos2.z - pos1.z
  pure (m.sqrt (dx * dx + dz * dz) * 100)

/-- Body of the loop over `m_metricSettings` in `SkeletonMetrics::computeMetricsForFrame`:
the effect of one metric definition on `data.metrics`, for the skeleton being processed. -/
def SkeletonMetrics.applyMetric (m : QtMath K) (skeleton : SkeletonData K)
    (metrics : QHash K) (metricObj : MetricDefinition) : Except Fault (QHash K) :=
  match metricObj.ids, metricObj.labels with
  | id1 :: id2 :: _, label :: _ =>
    if metricObj.cls = "angle" then do
      let angle ← getJointAngle m id1 id2 skeleton
      pure (metrics.insert label angle)
    else if metricObj.cls = "distance" then do
      let distance ← computeForwardTilt m id1 id2 skeleton
      pure (metrics.insert label distance)
    else pure metrics
  | _, _ => pure metrics

/-- Method `SkeletonMetrics::computeMetricsForFrame`. The loop over `current.skeletons`
returns at the end of its first iteration, so only `current.skeletons[0]` is visited; with no
skeleton in the frame the end of the function is reached without a `return`. The id of the
skeleton is not read. -/
def SkeletonMetrics.computeMetricsForFrame (m : QtMath K) (self : SkeletonMetrics)
    (current : FrameData K) : Except Fault (MetricsData K) :=
  if self.selectedAsset = -1 then .ok {}
  else
    match current.skeletons with
    | [] => .error .missingReturn
    | skeleton :: _ => do
      let metrics ← self.m_metricSettings.foldlM (applyMetric m skeleton) {}
      pure { id := current.frameNumber, metrics := metrics }

end Field

/-! ## natnet_connection.cpp -/

/-- NatNet SDK struct `sRigidBodyData`, the fields the client reads. -/
structure sRigidBodyData (K : Type) where
  ID : Int
  x : K
  y : K
  z : K
  qx : K
  qy : K
  qz : K
  qw : K
deriving DecidableEq

/-- NatNet SDK struct `sSkeletonData`; `nRigidBodies` is the length of `RigidBodyData`. -/
structure sSkeletonData (K : Type) where
  skeletonID : Int
  RigidBodyData : List (sRigidBodyData K) := []
deriving DecidableEq

/-- NatNet SDK struct `sFrameOfMocapData`; `nRigidBodies` and `nSkeletons` are the lengths
of the two lists. -/
structure sFrameOfMocapData (K : Type) where
  iFrame : Int
  fTimestamp : K
  RigidBodies : List (sRigidBodyData K) := []
  Skeletons : List (sSkeletonData K) := []
deriving DecidableEq

/-- Data members of class `NatNetConnection` used by the frame path; `frameCallback` tells
whether a frame callback is set. -/
structure NatNetConnection (K : Type) where
  connected : Bool := false
  frames : List (FrameData K) := []
  frameCallback : Bool := false
deriving DecidableEq

/-- Conversion of one SDK rigid body in `NatNetConnection::processFrameData`
(`parentId` keeps its default). -/
def sRigidBodyData.toRigidBodyData {K : Type} (rb : sRigidBodyData K) : RigidBodyData K :=
  { id := rb.ID
    position := ⟨rb.x, rb.y, rb.z⟩
    orientation := ⟨rb.qw, rb.qx, rb.qy, rb.qz⟩ }

/-- Conversion of one SDK skeleton in `NatNetConnection::processFrameData`. -/
def sSkeletonData.toSkeletonData {K : Type} (skel : sSkeletonData K) : SkeletonData K :=
  { id := skel.skeletonID
    bones := skel.RigidBodyData.map sRigidBodyData.toRigidBodyData }

/-- The `FrameData` that `NatNetConnection::processFrameData` builds from the SDK frame. -/
def sFrameOfMocapData.toFrameData {K : Type} (data : sFrameOfMocapData K) : FrameData K :=
  { frameNumber := data.iFrame
    timestamp := data.fTimestamp
    rigidBodies := data.RigidBodies.map sRigidBodyData.toRigidBodyData
    skeletons := data.Skeletons.map sSkeletonData.toSkeletonData }

/-- Condition `frames.size() > 0 && data->iFrame == frames[frames.size() - 1].frameNumber`
of `NatNetConnection::processFrameData`. -/
def NatNetConnection.isDuplicate {K : Type} (self : NatNetConnection K)
    (data : sFrameOfMocapData K) : Bool :=
  decide (self.frames.length > 0) &&
    (match self.frames[self.frames.length - 1]? with
     | some last => decide (data.iFrame = last.frameNumber)
     | none => false)

/-- Method `NatNetConnection::processFrameData`: the new state, and whether the frame
callback was invoked. -/
def NatNetConnection.processFrameData {K : Type} (self : NatNetConnection K)
    (data : sFrameOfMocapData K) : NatNetConnection K × Bool :=
  if self.isDuplicate data then (self, false)
  else ({ self with frames := self.frames ++ [data.toFrameData] }, self.frameCallback)

/-- The SDK delivering a sequence of frames, one `processFrameData` call each. -/
def NatNetConnection.processAll {K : Type} (self : NatNetConnection K)
    (datas : List (sFrameOfMocapData K)) : NatNetConnection K :=
  datas.foldl (fun c data => (c.processFrameData data).1) self

/-! ## connection_controller.cpp -/

/-- Data members of class `DataProcessor`. -/
structure DataProcessor (K : Type) where
  skeletonMetrics : SkeletonMetrics := {}
  rigidBodyMetrics : RigidBodyMetrics := {}
  m_previousFrame : Option (FrameData K) := none
  m_secondPreviousFrame : Option (FrameData K) := none
deriving DecidableEq

section Field

variable {K : Type} [LinearOrderedField K]

/-- Method `DataProcessor::onFramesUpdated`: the new state and the arguments of the
`metricsComputed` signal, when it is emitted. -/
def DataProcessor.onFramesUpdated (m : QtMath K) (self : DataProcessor K)
    (signalFrame : FrameData K) :
    Except Fault (DataProcessor K × Option (MetricsData K × MetricsData K)) :=
  match self.m_previousFrame, self.m_secondPreviousFrame with
  | some previous, some secondPrevious => do
    let rbMetrics ←
      self.rigidBodyMetrics.computeMetricsForFrame m signalFrame previous secondPrevious
    let skelMetrics ← self.skeletonMetrics.computeMetricsForFrame m signalFrame
    pure ({ self with
              m_secondPreviousFrame := self.m_previousFrame
              m_previousFrame := some signalFrame },
          some (rbMetrics, skelMetrics))
  | _, _ =>
    pure ({ self with
              m_secondPreviousFrame := self.m_previousFrame
              m_previousFrame := some signalFrame },
          none)

/-- A sequence of `framesUpdated` signals delivered in order to
`DataProcessor::onFramesUpdated`: the final state and the ordered list of emitted
`metricsComputed` arguments. -/
def DataProcessor.deliver (m : QtMath K) (self : DataProcessor K) :
    List (FrameData K) → Except Fault (DataProcessor K × List (MetricsData K × MetricsData K))
  | [] => pure (self, [])
  | frame :: rest => do
    let (next, emitted) ← self.onFramesUpdated m frame
    let (last, later) ← deliver m next rest
    pure (last, emitted.toList ++ later)

end Field

/-- Method `DataProcessor::receiveAssets`. -/
def DataProcessor.receiveAssets {K : Type} (self : DataProcessor K)
    (skeletonAsset rigidBodyAsset : String) : DataProcessor K :=
  { self with
      skeletonMetrics := self.skeletonMetrics.setAsset skeletonAsset
      rigidBodyMetrics := self.rigidBodyMetrics.setAsset rigidBodyAsset }

/-- Method `DataProcessor::receiveMetricSettings`. -/
def DataProcessor.receiveMetricSettings {K : Type} (self : DataProcessor K)
    (rigidMetricsSettings bodyMetricsSettings : List MetricDefinition) : DataProcessor K :=
  { self with
      rigidBodyMetrics := self.rigidBodyMetrics.setMetricSettings rigidMetricsSettings
      skeletonMetrics := self.skeletonMetrics.setMetricSettings bodyMetricsSettings }

/-! ## replay_controller.cpp -/

/-- Data members of class `ReplayController` used by recording and replay. The index is
never negative in the sources (set to 0 or to a size, then incremented). -/
structure ReplayController (K : Type) where
  m_savedFrames : List (FrameData K) := []
  m_currentIndex : Nat := 0
  m_isReplaying : Bool := false
  m_intervalMs : Int := 1
  m_isRecording : Bool := false
deriving DecidableEq

/-- Conversion `static_cast<int>` of a 64-bit count: reduction to the 32-bit signed range. -/
def toInt32 (v : Int) : Int :=
  (v + 2 ^ 31) % 2 ^ 32 - 2 ^ 31

/-- What one call of `ReplayController::emitNextFrame` or `startReplay` does besides the
state change: the frame passed to the `replayFrame` signal, and the delay of the
`QTimer::singleShot` it sets up for the next `emitNextFrame`, if any. -/
structure Tick (K : Type) where
  state : ReplayController K
  emitted : Option (FrameData K) := none
  scheduled : Option Int := none
deriving DecidableEq

namespace ReplayController

variable {K : Type}

/-- Method `ReplayController::stopReplay`. -/
def stopReplay (self : ReplayController K) : ReplayController K :=
  { self with m_isReplaying := false }

/-- Method `ReplayController::startReplay`. -/
def startReplay (self : ReplayController K) : Tick K :=
  if self.m_savedFrames.isEmpty then { state := self }
  else
    { state := { self with m_currentIndex := 0, m_isReplaying := true }
      scheduled := some 0 }

/-- Method `ReplayController::emitNextFrame`; `elapsed` is the value of
`m_lastFrameTime.elapsed()`. -/
def emitNextFrame (self : ReplayController K) (elapsed : Int) : Tick K :=
  if h : self.m_isReplaying = false ∨ self.m_savedFrames.length ≤ self.m_currentIndex then
    { state := self.stopReplay }
  else
    let frame := self.m_savedFrames.get ⟨self.m_currentIndex, Nat.lt_of_not_le (not_or.mp h).2⟩
    let next : ReplayController K := { self with m_currentIndex := self.m_currentIndex + 1 }
    let delay := max 0 (toInt32 (self.m_intervalMs - toInt32 elapsed))
    { state := next
      emitted := some frame
      scheduled := if next.m_isReplaying then some delay else none }

/-- The event loop firing the scheduled `emitNextFrame` ticks one after the other, with no
other slot running in between, until no tick is scheduled; `elapsed n` is the elapsed time
read by tick `n`. The result is the ordered list of replayed frames and the final state;
`none` when the fuel is used up while a tick is still scheduled. -/
def fireTicks (elapsed : Nat → Int) :
    Nat → Nat → ReplayController K → Option (List (FrameData K) × ReplayController K)
  | 0, _, _ => none
  | fuel + 1, n, self =>
    let tick := self.emitNextFrame (elapsed n)
    match tick.scheduled with
    | none => some (tick.emitted.toList, tick.state)
    | some _ =>
      (fireTicks elapsed fuel (n + 1) tick.state).map
        (fun later => (tick.emitted.toList ++ later.1, later.2))

/-- One replay: `startReplay`, then the ticks it sets off. -/
def replay (self : ReplayController K) (elapsed : Nat → Int) (fuel : Nat) :
    Option (List (FrameData K) × ReplayController K) :=
  let start := self.startReplay
  match start.scheduled with
  | none => some ([], start.state)
  | some _ => start.state.fireTicks elapsed fuel 0

/-- Method `ReplayController::recordStream`. -/
def recordStream (self : ReplayController K) (isRecording : Bool) : ReplayController K :=
  { self with m_isRecording := isRecording }

/-- Method `ReplayController::saveTake`, frame part: the new state and the frames written
to the `frames` array of the take (the loop `i < m_currentIndex && i < m_savedFrames.size()`).
The JSON encoding of the frames is not part of this definition. -/
def saveTake (self : ReplayController K) : ReplayController K × List (FrameData K) :=
  ({ self with m_isRecording := false }, self.m_savedFrames.take self.m_currentIndex)

/-- Method `ReplayController::saveStream`; `buffer` is `m_dataProcessor->getFrames()`, the
frame buffer of the connection. The result holds the frames of the written take, if one is
written. -/
def saveStream (self : ReplayController K) (buffer : List (FrameData K)) :
    ReplayController K × Option (List (FrameData K)) :=
  if self.m_isRecording then
    let copied : ReplayController K :=
      { self with m_savedFrames := buffer, m_currentIndex := buffer.length }
    (copied.saveTake.1, some copied.saveTake.2)
  else (self, none)

/-- Method `ReplayController::parseFrames` on the decoded `frames` array of a take:
`m_savedFrames` is cleared and filled with the frames in order. -/
def parseFrames (self : ReplayController K) (frames : List (FrameData K)) :
    ReplayController K :=
  { self with m_savedFrames := frames }

end ReplayController

/-! ## Evaluation on rational numbers -/

/-- Library functions on `ℚ` for running the model on concrete inputs: the square root is
exact on squares of rationals; the transcendental functions are coarse rational stand-ins
(no theorem below depends on their values). -/
def ratMath : QtMath ℚ where
  sqrt := Rat.sqrt
  acos := fun c => 2 * (1 - c)
  pi := 22 / 7
  toEulerAngles := fun q => ⟨q.x, q.y, q.z⟩

/-! ## Properties and pipelines used in the statements -/

/-- No two adjacent buffered frames carry the same frame number. -/
def AdjacentDistinct {K : Type} (frames : List (FrameData K)) : Prop :=
  List.Chain' (fun a b => a.frameNumber ≠ b.frameNumber) frames

/-! ## Concrete inputs -/

/-- A rigid body (or bone) with the identity orientation. -/
def body (id : Int) (x y z : ℚ) : RigidBodyData ℚ :=
  { id := id, position := ⟨x, y, z⟩, orientation := ⟨1, 0, 0, 0⟩ }

/-- A frame that holds rigid bodies only. -/
def rigidFrame (frameNumber : Int) (timestamp : ℚ) (bodies : List (RigidBodyData ℚ)) :
    FrameData ℚ :=
  { frameNumber := frameNumber, timestamp := timestamp, rigidBodies := bodies }

/-- A frame that holds skeletons only. -/
def skeletonFrame (frameNumber : Int) (skeletons : List (SkeletonData ℚ)) : FrameData ℚ :=
  { frameNumber := frameNumber, timestamp := 0, skeletons := skeletons }

/-- A skeleton of two bones that are 5 apart in the X-Z plane. -/
def shortSkeleton (id : Int) : SkeletonData ℚ :=
  { id := id, bones := [body 0 0 0 0, body 1 3 7 4] }

/-- A skeleton of two bones that are 10 apart in the X-Z plane. -/
def longSkeleton (id : Int) : SkeletonData ℚ :=
  { id := id, bones := [body 0 0 0 0, body 1 6 0 8] }

/-- Metric settings with one distance metric between bones 0 and 1. -/
def distanceSettings : List MetricDefinition :=
  [{ cls := "distance", ids := [0, 1], labels := ["d"] }]

/-- A rigid-body calculator with an empty name map after `setAsset("ghost")`. -/
def unresolvedRigid : RigidBodyMetrics :=
  RigidBodyMetrics.setAsset { m_metricSettings := [{ cls := "position", labels := ["px"] }] }
    "ghost"

/-- A skeleton calculator as constructed: `setAsset` has not been called. -/
def unselectedSkeleton : SkeletonMetrics :=
  { m_metricSettings := distanceSettings }

/-- A skeleton calculator after `setAsset("second")`, which resolves to id 2. -/
def secondSelected : SkeletonMetrics :=
  SkeletonMetrics.setAsset
    { m_metricSettings := distanceSettings
      m_skeletonNameToId := [("first", 1), ("second", 2)] } "second"

/-- A rigid-body calculator after `setAsset("ball")`, which resolves to id 5, with one
velocity metric. -/
def ballSelected : RigidBodyMetrics :=
  RigidBodyMetrics.setAsset
    { m_metricSettings := [{ cls := "velocity", labels := ["v"] }]
      m_rigidBodyNameToId := [("ball", 5)] } "ball"

/-- A skeleton calculator after `setAsset("player")`, which resolves to id 1, with one
angle metric between the bones `ids`. -/
def angleSelected (ids : List Int) : SkeletonMetrics :=
  SkeletonMetrics.setAsset
    { m_metricSettings := [{ cls := "angle", ids := ids, labels := ["a"] }]
      m_skeletonNameToId := [("player", 1)] } "player"

/-- An SDK frame with a frame number and no content. -/
def sdkFrame (iFrame : Int) : sFrameOfMocapData ℚ :=
  { iFrame := iFrame, fTimestamp := 0 }

/-- A connection whose buffer holds the frames numbered 1 and 2. -/
def bufferedOneTwo : NatNetConnection ℚ :=
  NatNetConnection.processAll { frameCallback := true } [sdkFrame 1, sdkFrame 2]

/-- Frame `n` of a session: rigid body 5 at `(x, 0, 0)` and skeleton 1. -/
def sessionFrame (n : Int) (x : ℚ) : FrameData ℚ :=
  { frameNumber := n
    timestamp := x / 10
    rigidBodies := [body 5 x 0 0]
    skeletons := [shortSkeleton 1] }

/-- A live session of three frames. -/
def sessionFrames : List (FrameData ℚ) :=
  [sessionFrame 1 1, sessionFrame 2 2, sessionFrame 3 3]

/-- A `DataProcessor` with no frame history, rigid body "ball" (id 5) and skeleton "player"
(id 1) selected, and one position metric. -/
def sessionProcessor : DataProcessor ℚ :=
  (({ rigidBodyMetrics := { m_rigidBodyNameToId := [("ball", 5)] }
      skeletonMetrics := { m_skeletonNameToId := [("player", 1)] } } : DataProcessor ℚ)
    |>.receiveMetricSettings [{ cls := "position", labels := ["px"] }] []
    |>.receiveAssets "player" "ball")

/-- The state of `sessionProcessor` after the live session. -/
def liveProcessor : DataProcessor ℚ :=
  { sessionProcessor with
      m_previousFrame := some (sessionFrame 3 3)
      m_secondPreviousFrame := some (sessionFrame 2 2) }

/-- The `metricsComputed` arguments for frame `n` of the session. -/
def emission (n : Int) (px : ℚ) : MetricsData ℚ × MetricsData ℚ :=
  ({ id := n, metrics := ⟨[("px", px)]⟩ }, { id := n })

/-! ## Quaternion length -/

/-- Qt `QQuaternion::lengthSquared()`. -/
def QQuaternion.lengthSquared {K : Type} [LinearOrderedField K] (q : QQuaternion K) : K :=
  q.x * q.x + q.y * q.y + q.z * q.z + q.scalar * q.scalar

/-! ## Concrete inputs: velocity scenario -/

/-- The velocity metric settings of the scenario: class `velocity`, ids `[5]`, label `vx`. -/
def velocitySettings : List MetricDefinition :=
  [{ cls := "velocity", ids := [5], labels := ["vx"] }]

/-- A `DataProcessor` with no frame history after `receiveMetricSettings` with the velocity
settings and `receiveAssets` with rigid body "ball" (id 5) and no skeleton name. -/
def velocityProcessor : DataProcessor ℚ :=
  (({ rigidBodyMetrics := { m_rigidBodyNameToId := [("ball", 5)] } } : DataProcessor ℚ)
    |>.receiveMetricSettings velocitySettings []
    |>.receiveAssets "" "ball")

/-- The three frames of the scenario: rigid body 5 at `(0,0,0)`, `(1,0,0)`, `(2,0,0)` at the
times 0, 0.1, 0.2. -/
def velocityFrames : List (FrameData ℚ) :=
  [rigidFrame 1 0 [body 5 0 0 0], rigidFrame 2 (1 / 10) [body 5 1 0 0],
   rigidFrame 3 (2 / 10) [body 5 2 0 0]]

/-! ## Scenario builders -/

/-- A frame of the velocity scenario: one rigid body, id 5, at `(x, 0, 0)`, with any frame
number, orientation and skeletons. -/
def scenarioFrame {K : Type} [LinearOrderedField K] (frameNumber : Int) (timestamp x : K)
    (orientation : QQuaternion K) (skeletons : List (SkeletonData K)) : FrameData K :=
  { frameNumber := frameNumber
    timestamp := timestamp
    rigidBodies := [{ id := 5, position := ⟨x, 0, 0⟩, orientation := orientation }]
    skeletons := skeletons }

/-- A rigid-body calculator with rigid body 5 selected and the one velocity metric of the
scenario. -/
def scenarioRigid (nameToId : NameToId) : RigidBodyMetrics :=
  { selectedAsset := 5
    m_metricSettings := [{ cls := "velocity", ids := [5], labels := ["vx"] }]
    m_rigidBodyNameToId := nameToId }

/-- A rigid-body calculator after `setAsset("ball")` (id 5) with one position metric of
four labels. -/
def positionSelected : RigidBodyMetrics :=
  RigidBodyMetrics.setAsset
    { m_metricSettings := [{ cls := "position", labels := ["px", "py", "pz", "pw"] }]
      m_rigidBodyNameToId := [("ball", 5)] } "ball"

/-! ## Qt JSON values and strings -/

/-- Qt `QJsonValue`. Integers and doubles are numbers of `K`; `Undefined`, the value of a
missing member or element, is `null` here (both give the defaults of the `toX`
conversions). -/
inductive QJsonValue (K : Type) where
  | null
  | bool (b : Bool)
  | double (d : K)
  | string (s : String)
  | array (items : List (QJsonValue K))
  | object (members : List (String × QJsonValue K))

/-- Qt `QJsonObject` as the list of its members. -/
abbrev QJsonObject (K : Type) := List (String × QJsonValue K)

/-- Qt `QJsonArray`. -/
abbrev QJsonArray (K : Type) := List (QJsonValue K)

/-- Assignment `container[key] = value` of `QJsonObject` and `std::unordered_map`: the
entry of an existing key is replaced. -/
def assocInsert {α β : Type} [DecidableEq α] (entries : List (α × β)) (key : α) (value : β) :
    List (α × β) :=
  (key, value) :: entries.filter (fun p => decide (p.1 ≠ key))

/-- The value stored under a key, if any. -/
def assocLookup {α β : Type} [DecidableEq α] (entries : List (α × β)) (key : α) : Option β :=
  (entries.find? (fun p => decide (p.1 = key))).map Prod.snd

/-- C++ `std::unordered_map<int, std::string>` as the list of its entries; the keys of a
map are pairwise distinct. -/
abbrev IdToName := List (Int × String)

/-- C++ `std::unordered_map<int, std::unordered_map<int, std::string>>`. -/
abbrev BoneIdToName := List (Int × IdToName)

/-- Range of the C++ type `int`. -/
abbrev isInt32 (n : Int) : Prop :=
  -2 ^ 31 ≤ n ∧ n < 2 ^ 31

/-- Qt `QJsonValue::toObject()`. -/
def QJsonValue.toObject {K : Type} : QJsonValue K → QJsonObject K
  | .object members => members
  | _ => []

/-- Qt `QJsonValue::toArray()`. -/
def QJsonValue.toArray {K : Type} : QJsonValue K → QJsonArray K
  | .array items => items
  | _ => []

/-- Qt `QJsonValue::toString()`. -/
def QJsonValue.toString {K : Type} : QJsonValue K → String
  | .string s => s
  | _ => ""

/-- Qt `QJsonObject::value` and `operator[] const`. -/
def QJsonObject.value {K : Type} (o : QJsonObject K) (key : String) : QJsonValue K :=
  (assocLookup o key).getD .null

/-- Qt `QJsonObject::keys()`; the order of the keys is the order of the member list. -/
def QJsonObject.keys {K : Type} (o : QJsonObject K) : List String :=
  o.map Prod.fst

/-- Qt `QJsonArray::at` and `operator[] const`. -/
def QJsonArray.at {K : Type} (a : QJsonArray K) (i : Nat) : QJsonValue K :=
  a.getD i .null

section Field

variable {K : Type} [LinearOrderedField K]

/-- Qt `QJsonValue::toDouble()`. -/
def QJsonValue.toDouble : QJsonValue K → K
  | .double d => d
  | _ => 0

/-- Qt `QJsonValue::toInt()`: the number when it is whole and in the range of `int`,
otherwise 0. -/
def QJsonValue.toInt [FloorRing K] : QJsonValue K → Int
  | .double d => if ((⌊d⌋ : Int) : K) = d ∧ isInt32 ⌊d⌋ then ⌊d⌋ else 0
  | _ => 0

end Field

/-- The decimal digits of a natural number, most significant first. -/
def QString.decimalDigits (k : Nat) : List Nat :=
  if k = 0 then [0] else (Nat.digits 10 k).reverse

/-- The character of a decimal digit. -/
def QString.digitChar (d : Nat) : Char :=
  Char.ofNat (48 + d)

/-- The value of a decimal digit character. -/
def QString.digitValue (c : Char) : Option Nat :=
  if 48 ≤ c.toNat ∧ c.toNat ≤ 57 then some (c.toNat - 48) else none

/-- Qt `QString::number(int)`: decimal digits with a leading minus sign for a negative
number. -/
def QString.number (n : Int) : String :=
  String.mk ((if n < 0 then ['-'] else [])
    ++ (QString.decimalDigits n.natAbs).map QString.digitChar)

/-- Reads decimal digits, most significant first, onto `acc`. -/
def QString.readDigits : List Char → Nat → Option Nat
  | [], acc => some acc
  | c :: rest, acc =>
    match QString.digitValue c with
    | some d => QString.readDigits rest (acc * 10 + d)
    | none => none

/-- Qt `QString::toInt()` on a string of decimal digits with an optional leading minus
sign: the number when it is in the range of `int`, otherwise 0; any other string reads
as 0. -/
def QString.toInt (s : String) : Int :=
  let parsed : Option Int :=
    match s.data with
    | [] => none
    | c :: rest =>
      if c = '-' then
        if rest = [] then none else (QString.readDigits rest 0).map (fun (v : Nat) => -(v : Int))
      else (QString.readDigits (c :: rest) 0).map (fun (v : Nat) => (v : Int))
  match parsed with
  | some v => if isInt32 v then v else 0
  | none => 0

/-! ## replay_controller.cpp: take files -/

section Field

variable {K : Type} [LinearOrderedField K]

/-- The JSON object `ReplayController::saveTake` writes for one rigid body or bone. -/
def ReplayController.rigidBodyToJson (rb : RigidBodyData K) : QJsonValue K :=
  let rbObj : QJsonObject K := []
  let rbObj := assocInsert rbObj "id" (.double (rb.id : K))
  let rbObj := assocInsert rbObj "parentId" (.double (rb.parentId : K))
  let posArray : QJsonArray K :=
    [.double rb.position.x, .double rb.position.y, .double rb.position.z]
  let rbObj := assocInsert rbObj "position" (.array posArray)
  let orientArray : QJsonArray K :=
    [.double rb.orientation.x, .double rb.orientation.y, .double rb.orientation.z,
     .double rb.orientation.scalar]
  let rbObj := assocInsert rbObj "orientation" (.array orientArray)
  .object rbObj

/-- The JSON object `ReplayController::saveTake` writes for one skeleton. -/
def ReplayController.skeletonToJson (skeleton : SkeletonData K) : QJsonValue K :=
  let skeletonObj : QJsonObject K := []
  let skeletonObj := assocInsert skeletonObj "id" (.double (skeleton.id : K))
  let bonesArray : QJsonArray K := skeleton.bones.map ReplayController.rigidBodyToJson
  let skeletonObj := assocInsert skeletonObj "bones" (.array bonesArray)
  .object skeletonObj

/-- The JSON object `ReplayController::saveTake` writes for one frame. -/
def ReplayController.frameToJson (frame : FrameData K) : QJsonValue K :=
  let frameObj : QJsonObject K := []
  let frameObj := assocInsert frameObj "frameNumber" (.double (frame.frameNumber : K))
  let frameObj := assocInsert frameObj "timestamp" (.double frame.timestamp)
  let rigidArray : QJsonArray K := frame.rigidBodies.map ReplayController.rigidBodyToJson
  let frameObj := assocInsert frameObj "rigidBodies" (.array rigidArray)
  let skeletonArray : QJsonArray K := frame.skeletons.map ReplayController.skeletonToJson
  let frameObj := assocInsert frameObj "skeletons" (.array skeletonArray)
  .object frameObj

/-- The `frames` array that `ReplayController::saveTake` writes: the JSON objects of the
frames of the take, in order. -/
def ReplayController.framesToJson (self : ReplayController K) : QJsonArray K :=
  self.saveTake.2.map ReplayController.frameToJson

/-- The JSON object `ReplayController::saveTake` writes for an id-to-name map: member
`QString::number(id)` holds the name. -/
def ReplayController.idMapToJson (map : IdToName) : QJsonObject K :=
  map.foldl (fun o entry => assocInsert o (QString.number entry.1) (.string entry.2)) []

/-- The JSON object `ReplayController::saveTake` writes for the bone maps: member
`QString::number(skeletonId)` holds the object of the bone map of that skeleton. -/
def ReplayController.boneMapToJson (bones : BoneIdToName) : QJsonObject K :=
  bones.foldl
    (fun o entry =>
      assocInsert o (QString.number entry.1)
        (.object (ReplayController.idMapToJson entry.2))) []

/-- The root object `ReplayController::saveTake` writes, without its `glAssets` member;
the three maps are those of the data processor. -/
def ReplayController.takeDocument (self : ReplayController K)
    (rigidBodies skeletons : IdToName) (bones : BoneIdToName) : QJsonObject K :=
  let root : QJsonObject K := []
  let root := assocInsert root "rigidBodies" (.object (ReplayController.idMapToJson rigidBodies))
  let root := assocInsert root "skeletons" (.object (ReplayController.idMapToJson skeletons))
  let root := assocInsert root "bones" (.object (ReplayController.boneMapToJson bones))
  let root := assocInsert root "frames" (.array self.framesToJson)
  root

variable [FloorRing K]

/-- Loop body of `ReplayController::parseFrames` for one rigid body or bone: position and
orientation keep their default values unless the arrays have 3 and 4 elements. -/
def ReplayController.rigidBodyFromJson (rbVal : QJsonValue K) : RigidBodyData K :=
  let rbObj := rbVal.toObject
  let pos := (QJsonObject.value rbObj "position").toArray
  let ori := (QJsonObject.value rbObj "orientation").toArray
  { id := (QJsonObject.value rbObj "id").toInt
    parentId := (QJsonObject.value rbObj "parentId").toInt
    position :=
      if pos.length = 3 then
        ⟨(QJsonArray.at pos 0).toDouble, (QJsonArray.at pos 1).toDouble,
         (QJsonArray.at pos 2).toDouble⟩
      else ⟨0, 0, 0⟩
    orientation :=
      if ori.length = 4 then
        ⟨(QJsonArray.at ori 3).toDouble, (QJsonArray.at ori 0).toDouble,
         (QJsonArray.at ori 1).toDouble, (QJsonArray.at ori 2).toDouble⟩
      else ⟨1, 0, 0, 0⟩ }

/-- Loop body of `ReplayController::parseFrames` for one skeleton. -/
def ReplayController.skeletonFromJson (skelVal : QJsonValue K) : SkeletonData K :=
  let skelObj := skelVal.toObject
  { id := (QJsonObject.value skelObj "id").toInt
    bones := (QJsonObject.value skelObj "bones").toArray.map
      ReplayController.rigidBodyFromJson }

/-- Loop body of `ReplayController::parseFrames` for one frame. -/
def ReplayController.frameFromJson (frameVal : QJsonValue K) : FrameData K :=
  let frameObj := frameVal.toObject
  { frameNumber := (QJsonObject.value frameObj "frameNumber").toInt
    timestamp := (QJsonObject.value frameObj "timestamp").toDouble
    rigidBodies := (QJsonObject.value frameObj "rigidBodies").toArray.map
      ReplayController.rigidBodyFromJson
    skeletons := (QJsonObject.value frameObj "skeletons").toArray.map
      ReplayController.skeletonFromJson }

/-- Method `ReplayController::parseFrames` on the `frames` array of a take: each element is
read into a frame, and the frames replace `m_savedFrames`. -/
def ReplayController.parseFramesJson (self : ReplayController K) (framesJson : QJsonArray K) :
    ReplayController K :=
  self.parseFrames (framesJson.map ReplayController.frameFromJson)

end Field

/-- Loop of `ReplayController::parseIdMaps` over the keys of one map object:
`map[key.toInt()] = value(key).toString()`. -/
def ReplayController.idMapFromJson {K : Type} (o : QJsonObject K) : IdToName :=
  (QJsonObject.keys o).foldl
    (fun map key => assocInsert map (QString.toInt key) (QJsonObject.value o key).toString) []

/-- Loop of `ReplayController::parseIdMaps` over the keys of the `bones` object. -/
def ReplayController.boneMapFromJson {K : Type} (o : QJsonObject K) : BoneIdToName :=
  (QJsonObject.keys o).foldl
    (fun map key =>
      assocInsert map (QString.toInt key)
        (ReplayController.idMapFromJson (QJsonObject.value o key).toObject)) []

/-- Arguments of the signal `ReplayController::loadReplayMaps`. -/
structure ReplayMaps where
  rigidBodyMap : IdToName
  skeletonMap : IdToName
  boneMap : BoneIdToName

/-- Method `ReplayController::parseIdMaps`: the maps it emits with `loadReplayMaps`. -/
def ReplayController.parseIdMaps {K : Type} (root : QJsonObject K) : ReplayMaps :=
  { rigidBodyMap := ReplayController.idMapFromJson (QJsonObject.value root "rigidBodies").toObject
    skeletonMap := ReplayController.idMapFromJson (QJsonObject.value root "skeletons").toObject
    boneMap := ReplayController.boneMapFromJson (QJsonObject.value root "bones").toObject }

/-! ## Well-typed integer fields -/

/-- The `int` members of a rigid body are in the range of `int`. -/
def RigidBodyData.IntFields {K : Type} (rb : RigidBodyData K) : Prop :=
  isInt32 rb.id ∧ isInt32 rb.parentId

/-- The `int` members of a skeleton and of its bones are in the range of `int`. -/
def SkeletonData.IntFields {K : Type} (skeleton : SkeletonData K) : Prop :=
  isInt32 skeleton.id ∧ ∀ bone ∈ skeleton.bones, bone.IntFields

/-- The `int` members of a frame and of everything in it are in the range of `int`. -/
def FrameData.IntFields {K : Type} (frame : FrameData K) : Prop :=
  isInt32 frame.frameNumber ∧ (∀ rb ∈ frame.rigidBodies, rb.IntFields) ∧
    ∀ skeleton ∈ frame.skeletons, skeleton.IntFields

/-- An id-to-name map of the C++ program: pairwise distinct keys in the range of `int`. -/
def IdToName.WellFormed (map : IdToName) : Prop :=
  (map.map Prod.fst).Nodup ∧ ∀ entry ∈ map, isInt32 entry.1

/-- A bone map of the C++ program: pairwise distinct skeleton ids in the range of `int`,
each with a well-formed id-to-name map. -/
def BoneIdToName.WellFormed (bones : BoneIdToName) : Prop :=
  (bones.map Prod.fst).Nodup ∧
    ∀ entry ∈ bones, isInt32 entry.1 ∧ IdToName.WellFormed entry.2

/-! ## replay_controller.cpp: loading a take -/

/-- What `ReplayController::loadJsonFile` finds at the path: a file that cannot be opened,
a text that is not JSON, or a JSON document (an array or an object). -/
inductive TakeFile (K : Type) where
  | cannotOpen
  | parseError
  | document (doc : QJsonValue K)

/-- Method `ReplayController::loadJsonFile`: the root object, or `none` for the result
`false`. -/
def ReplayController.loadJsonFile {K : Type} (file : TakeFile K) : Option (QJsonObject K) :=
  match file with
  | .cannotOpen => none
  | .parseError => none
  | .document (.object root) => some root
  | .document _ => none

/-- What one call of `loadCommonTake` or `loadSavedTake` leaves behind: the new state and
the arguments of the signals it emitted (`none` for a signal that was not emitted). -/
structure TakeLoad (K : Type) where
  state : ReplayController K
  loadReplayMaps : Option ReplayMaps := none
  commonTakeReady : Option Bool := none
  savedTakeReady : Option Bool := none

section Field

variable {K : Type} [LinearOrderedField K] [FloorRing K]

/-- Conversion `static_cast<int>` of a floating-point value: the value truncated toward
zero; undefined when the truncated value is outside the range of `int`. -/
def staticCastInt (x : K) : Except Fault Int :=
  let truncated : Int := if 0 ≤ x then ⌊x⌋ else ⌈x⌉
  if isInt32 truncated then .ok truncated else .error .castOutOfRange

/-- IEEE 754 binary64 rounding, to nearest with ties to even, of the exact value `x` of a
decimal text or of an arithmetic operation on `double`s: the `double` nearest to `x`, on
the grid of spacing `2 ^ (e - 52)` of the binade `2 ^ e ≤ |x| < 2 ^ (e + 1)` (of the
subnormal range when `e < -1022`); `none` when the rounded magnitude reaches `2 ^ 1024`,
where the result is an infinity. -/
def roundToDouble (x : K) : Option K :=
  if x = 0 then some 0
  else
    let exponent : Int := max (Int.log 2 |x|) (-1022)
    let ulp : K := 2 ^ (exponent - 52)
    let scaled : K := |x| / ulp
    let below : Int := ⌊scaled⌋
    let nearest : Int :=
      if scaled - below < 1 / 2 then below
      else if 1 / 2 < scaled - below then below + 1
      else if below % 2 = 0 then below
      else below + 1
    let magnitude : K := nearest * ulp
    if 2 ^ 1024 ≤ magnitude then none
    else some (if 0 ≤ x then magnitude else -magnitude)

/-- The statements `scaleFactor = playspeed.remove('%').toDouble() / 100.0` and
`m_intervalMs = static_cast<int>(1 / scaleFactor)` of the two load methods; `playspeed` is
the decimal value of the text before the percent sign (0 for a text that is no number).
`toDouble()` returns the nearest `double`, an infinity when the value is too large; the two
divisions are `double` divisions. With an infinite percentage or scale factor the quotient
is 0; a scale factor 0 or a quotient beyond the largest `double` makes the quotient
infinite, which has no `int` value. -/
def ReplayController.intervalFromPlaySpeed (playspeed : K) : Except Fault Int :=
  match roundToDouble playspeed with
  | none => .ok 0
  | some percent =>
    match roundToDouble (percent / 100) with
    | none => .ok 0
    | some scaleFactor =>
      if scaleFactor = 0 then .error .castOutOfRange
      else
        match roundToDouble (1 / scaleFactor) with
        | none => .error .castOutOfRange
        | some quotient => staticCastInt quotient

/-- Method `ReplayController::loadSavedTake`; `file` is what is found at the path of the
take, `playspeed` the decimal value of the play speed text. -/
def ReplayController.loadSavedTake (self : ReplayController K) (file : TakeFile K)
    (playspeed : K) : Except Fault (TakeLoad K) := do
  let interval ← ReplayController.intervalFromPlaySpeed playspeed
  let self : ReplayController K := { self with m_intervalMs := interval }
  match ReplayController.loadJsonFile file with
  | none => pure { state := self }
  | some root =>
    pure { state := self.parseFramesJson (QJsonObject.value root "frames").toArray
           loadReplayMaps := some (ReplayController.parseIdMaps root)
           savedTakeReady := some true }

/-- Method `ReplayController::loadCommonTake`; as `loadSavedTake`, with the resource path
and the signal `commonTakeReady`. -/
def ReplayController.loadCommonTake (self : ReplayController K) (file : TakeFile K)
    (playspeed : K) : Except Fault (TakeLoad K) := do
  let interval ← ReplayController.intervalFromPlaySpeed playspeed
  let self : ReplayController K := { self with m_intervalMs := interval }
  match ReplayController.loadJsonFile file with
  | none => pure { state := self }
  | some root =>
    pure { state := self.parseFramesJson (QJsonObject.value root "frames").toArray
           loadReplayMaps := some (ReplayController.parseIdMaps root)
           commonTakeReady := some true }

end Field

/-! ## natnet_connection.cpp: connection life cycle -/

/-- Results of the NatNet SDK calls made by `NatNetConnection::connect`: `Connect`,
`GetServerDescription` (with the `HostPresent` flag of the description) and
`GetDataDescriptionList` (success with a non-null list). -/
structure SdkOutcome where
  connectOk : Bool
  serverDescriptionOk : Bool
  hostPresent : Bool
  dataDescriptionsOk : Bool
deriving DecidableEq

/-- Method `NatNetConnection::connect`: the new state and the returned `bool` (`return 1`
is `true`, `return ret` with `ErrorCode_OK = 0` is `false`). The frame buffer is not
touched; the name maps that `processDataDescriptions` fills are not part of this state. -/
def NatNetConnection.connect {K : Type} (self : NatNetConnection K) (sdk : SdkOutcome) :
    NatNetConnection K × Bool :=
  if !sdk.connectOk then ({ self with connected := false }, true)
  else if !sdk.serverDescriptionOk || !sdk.hostPresent then (self, true)
  else
    let self : NatNetConnection K := { self with connected := true }
    if !sdk.dataDescriptionsOk then (self, true)
    else (self, false)

/-- Method `NatNetConnection::disconnect`: the new state and the returned `bool`
(`ErrorCode_OK`). The frame buffer is not touched. -/
def NatNetConnection.disconnect {K : Type} (self : NatNetConnection K) :
    NatNetConnection K × Bool :=
  ({ self with connected := false }, false)

/-- Method `ConnectionController::startConnection`: the frame callback is set, then
`connect` runs; the result holds the argument of the emitted `connectionStatus` signal. -/
def ConnectionController.startConnection {K : Type} (connection : NatNetConnection K)
    (sdk : SdkOutcome) : NatNetConnection K × Bool :=
  let connection : NatNetConnection K := { connection with frameCallback := true }
  let connection := (connection.connect sdk).1
  (connection, connection.connected)

/-- Method `ConnectionController::stopConnection`: `disconnect` runs; the result holds the
argument of the emitted `connectionStatus` signal. -/
def ConnectionController.stopConnection {K : Type} (connection : NatNetConnection K) :
    NatNetConnection K × Bool :=
  let connection := connection.disconnect.1
  (connection, connection.connected)

/-! ## main.cpp: streaming session -/

/-- The connection and the replay controller, as `main.cpp` wires them to the signals of
the streaming controller. -/
structure Session (K : Type) where
  connection : NatNetConnection K := {}
  recorder : ReplayController K := {}

/-- Events of a streaming session: the signal `streamingConnect(settings, isRecording)`
(with the results of the SDK calls it leads to), a frame delivered by the SDK, and the
signal `streamingDisconnect`. -/
inductive SessionEvent (K : Type) where
  | streamingConnect (isRecording : Bool) (sdk : SdkOutcome)
  | frame (data : sFrameOfMocapData K)
  | streamingDisconnect

/-- One event of a session: the new state and the frames of the take written, if one is
written. `streamingConnect` runs `ConnectionController::startConnection` and
`ReplayController::recordStream`; a frame runs `NatNetConnection::processFrameData`;
`streamingDisconnect` runs `ConnectionController::stopConnection` and then
`ReplayController::saveStream` on the frame buffer of the connection. -/
def Session.step {K : Type} (s : Session K) :
    SessionEvent K → Session K × Option (List (FrameData K))
  | .streamingConnect isRecording sdk =>
    ({ connection := (ConnectionController.startConnection s.connection sdk).1
       recorder := s.recorder.recordStream isRecording }, none)
  | .frame data =>
    ({ s with connection := (s.connection.processFrameData data).1 }, none)
  | .streamingDisconnect =>
    let connection := (ConnectionController.stopConnection s.connection).1
    let saved := s.recorder.saveStream connection.frames
    ({ connection := connection, recorder := saved.1 }, saved.2)

/-- A history of events: the final state and the takes written, in order. -/
def Session.run {K : Type} (s : Session K) :
    List (SessionEvent K) → Session K × List (List (FrameData K))
  | [] => (s, [])
  | event :: rest =>
    let stepped := s.step event
    let later := Session.run stepped.1 rest
    (later.1, stepped.2.toList ++ later.2)

/-- The SDK frames delivered in a history, in order. -/
def SessionEvent.delivered {K : Type} : List (SessionEvent K) → List (sFrameOfMocapData K)
  | [] => []
  | .frame data :: rest => data :: SessionEvent.delivered rest
  | _ :: rest => SessionEvent.delivered rest

/-! ## Concrete inputs: takes and sessions -/

/-- A controller that holds the three session frames with the index at their end. -/
def sessionTake : ReplayController ℚ :=
  { m_savedFrames := sessionFrames, m_currentIndex := 3 }

/-- A rigid-body id-to-name map with a negative id. -/
def exampleRigidBodyMap : IdToName :=
  [(5, "ball"), (-3, "bat")]

/-- A skeleton id-to-name map. -/
def exampleSkeletonMap : IdToName :=
  [(1, "player")]

/-- A bone map for skeleton 1. -/
def exampleBoneMap : BoneIdToName :=
  [(1, [(0, "hip"), (1, "spine")])]

/-- SDK calls that all succeed. -/
def sdkAllOk : SdkOutcome :=
  { connectOk := true, serverDescriptionOk := true, hostPresent := true,
    dataDescriptionsOk := true }

/-- A history: a connection without recording that delivers frame 1, then a connection with
recording that delivers frame 2. -/
def twoConnections : List (SessionEvent ℚ) :=
  [.streamingConnect false sdkAllOk, .frame (sdkFrame 1), .streamingDisconnect,
   .streamingConnect true sdkAllOk, .frame (sdkFrame 2), .streamingDisconnect]

/-! ## replay_controller.cpp: the event loop of a replay -/

/-- The state after the first `k` calls of `ReplayController::emitNextFrame` have run, one
after the other with no other slot in between; `elapsed n` is the elapsed time read by
call `n`. -/
def ReplayController.afterTicks {K : Type} (self : ReplayController K) (elapsed : Nat → Int) :
    Nat → ReplayController K
  | 0 => self
  | k + 1 => ((self.afterTicks elapsed k).emitNextFrame (elapsed k)).state

/-- A `ReplayController` on its event loop: `pending` counts the `emitNextFrame` calls set
up with `QTimer::singleShot` that have not run yet, `replayed` holds the frames passed to
the `replayFrame` signal so far. -/
structure ReplayLoop (K : Type) where
  controller : ReplayController K
  pending : Nat := 0
  replayed : List (FrameData K) := []
deriving DecidableEq

/-- What the event loop of the controller runs next: one of the two slots, or the timeout
of a single-shot timer with the elapsed time its `emitNextFrame` call reads. -/
inductive ReplayEvent where
  | startReplay
  | stopReplay
  | timeout (elapsed : Int)
deriving DecidableEq

/-- One event on the loop. `startReplay` and `emitNextFrame` add the single-shot timer they
set up; a timeout runs `emitNextFrame` when a timer is outstanding. `stopReplay` calls
`m_timer.stop()` on the member timer, which no statement starts, so the outstanding
single-shot timers stay. -/
def ReplayLoop.step {K : Type} (s : ReplayLoop K) : ReplayEvent → ReplayLoop K
  | .startReplay =>
    let tick := s.controller.startReplay
    { s with controller := tick.state, pending := s.pending + tick.scheduled.toList.length }
  | .stopReplay => { s with controller := s.controller.stopReplay }
  | .timeout elapsed =>
    if s.pending = 0 then s
    else
      let tick := s.controller.emitNextFrame elapsed
      { controller := tick.state
        pending := s.pending - 1 + tick.scheduled.toList.length
        replayed := s.replayed ++ tick.emitted.toList }

/-- A sequence of events on the loop, in order. -/
def ReplayLoop.run {K : Type} (s : ReplayLoop K) (events : List ReplayEvent) : ReplayLoop K :=
  events.foldl ReplayLoop.step s

/-! ## Name maps of the calculators -/

/-- Method `RigidBodyMetrics::setRigidBodyMap`. -/
def RigidBodyMetrics.setRigidBodyMap (self : RigidBodyMetrics) (rigidBodies : IdToName) :
    RigidBodyMetrics :=
  { self with m_rigidBodies := rigidBodies }

/-- Method `RigidBodyMetrics::createInverseMaps`: every entry of `m_rigidBodies` is
inserted, name to id, into the `m_rigidBodyNameToId` the object holds. -/
def RigidBodyMetrics.createInverseMaps (self : RigidBodyMetrics) : RigidBodyMetrics :=
  { self with
      m_rigidBodyNameToId :=
        self.m_rigidBodies.foldl (fun map entry => assocInsert map entry.2 entry.1)
          self.m_rigidBodyNameToId }

/-- Method `SkeletonMetrics::setSkeletonMap`. -/
def SkeletonMetrics.setSkeletonMap (self : SkeletonMetrics) (skeletons : IdToName) :
    SkeletonMetrics :=
  { self with m_skeletons := skeletons }

/-- Method `SkeletonMetrics::setBoneMap`. -/
def SkeletonMetrics.setBoneMap (self : SkeletonMetrics) (bones : BoneIdToName) :
    SkeletonMetrics :=
  { self with m_bones := bones }

/-- Method `SkeletonMetrics::createInverseMaps`: every entry of `m_skeletons` is inserted,
name to id, into `m_skeletonNameToId`; for every skeleton id of `m_bones` a new reversed
bone map is built and inserted under that id into `m_boneNameToId`. -/
def SkeletonMetrics.createInverseMaps (self : SkeletonMetrics) : SkeletonMetrics :=
  { self with
      m_skeletonNameToId :=
        self.m_skeletons.foldl (fun map entry => assocInsert map entry.2 entry.1)
          self.m_skeletonNameToId
      m_boneNameToId :=
        self.m_bones.foldl
          (fun map entry =>
            let reversedBoneMap : NameToId :=
              entry.2.foldl (fun reversed bone => assocInsert reversed bone.2 bone.1) []
            assocInsert map entry.1 reversedBoneMap)
          self.m_boneNameToId }

/-- Method `DataProcessor::receiveMaps`: the new state and the two arguments of the emitted
`sendAssets` signal (the skeleton and the rigid-body name-to-id maps). -/
def DataProcessor.receiveMaps {K : Type} (self : DataProcessor K)
    (rigidBodies skeletons : IdToName) (bones : BoneIdToName) :
    DataProcessor K × (NameToId × NameToId) :=
  let rigidBodyMetrics := (self.rigidBodyMetrics.setRigidBodyMap rigidBodies).createInverseMaps
  let skeletonMetrics :=
    ((self.skeletonMetrics.setSkeletonMap skeletons).setBoneMap bones).createInverseMaps
  ({ self with rigidBodyMetrics := rigidBodyMetrics, skeletonMetrics := skeletonMetrics },
   (skeletonMetrics.m_skeletonNameToId, rigidBodyMetrics.m_rigidBodyNameToId))

/-! ## The three-frame window, as the description of the processor states it -/

/-- The `metricsComputed` values a three-frame window over the delivered frames
prescribes: one value for each frame from the third on, computed by the rigid-body
calculator from the frame and the two frames before it and by the skeleton calculator
from the frame; the first calculator that faults ends the run. -/
def slidingWindowEmissions {K : Type} [LinearOrderedField K] (m : QtMath K)
    (rigid : RigidBodyMetrics) (skeleton : SkeletonMetrics) :
    List (FrameData K) → Except Fault (List (MetricsData K × MetricsData K))
  | f1 :: f2 :: f3 :: rest => do
    let rbMetrics ← rigid.computeMetricsForFrame m f3 f2 f1
    let skelMetrics ← skeleton.computeMetricsForFrame m f3
    let later ← slidingWindowEmissions m rigid skeleton (f2 :: f3 :: rest)
    pure ((rbMetrics, skelMetrics) :: later)
  | _ => pure []

/-! ## Concrete inputs: replay loop, name maps, reordered frames -/

/-- The loop of a controller that holds the three session frames, with no timer
outstanding. -/
def sessionLoop : ReplayLoop ℚ :=
  { controller := sessionTake }

/-- A processor after `receiveMaps` with rigid body 1 "ball", skeleton 7 "anna" with bone
1 "hip", and then `receiveMaps` with rigid body 2 "bat", skeleton 8 "bob" with bone 1
"hip". -/
def remappedProcessor : DataProcessor ℚ :=
  ((({} : DataProcessor ℚ).receiveMaps [(1, "ball")] [(7, "anna")]
      [(7, [(1, "hip")])]).1.receiveMaps [(2, "bat")] [(8, "bob")] [(8, [(1, "hip")])]).1

/-- A rigid-body calculator with rigid body 5 selected, one velocity metric `v` and one
acceleration metric `a`. -/
def motionSelected : RigidBodyMetrics :=
  { selectedAsset := 5
    m_metricSettings :=
      [{ cls := "velocity", labels := ["v"] }, { cls := "acceleration", labels := ["a"] }] }

/-! ## Live delivery across the threads, and the replay of the recorded take -/

section Field

variable {K : Type} [LinearOrderedField K]

/-- Method `NatNetConnection::getLatestFrame`: the last buffered frame, or a
value-initialised `FrameData` when the buffer is empty. -/
def NatNetConnection.getLatestFrame (self : NatNetConnection K) : FrameData K :=
  self.frames.getLast?.getD { frameNumber := 0, timestamp := 0 }

/-- A live session across the threads of `main.cpp`: the connection with its frame buffer,
the number of hand-off lambdas that the frame callback set in
`ConnectionController::startConnection` has queued on the controller and that have not
run yet, the data processor, and the `metricsComputed` values emitted so far. -/
structure LiveSession (K : Type) where
  connection : NatNetConnection K
  queued : Nat := 0
  processor : DataProcessor K
  emitted : List (MetricsData K × MetricsData K) := []

/-- What happens next in a live session: the SDK thread calls `processFrameData` with a
frame, or the controller runs the oldest queued hand-off lambda. -/
inductive LiveEvent (K : Type) where
  | frame (data : sFrameOfMocapData K)
  | handOff

/-- One event of a live session. A frame runs `NatNetConnection::processFrameData`; when
that invokes the frame callback, one lambda is queued with `QMetaObject::invokeMethod`. A
hand-off runs a queued lambda: `connection.getLatestFrame()` is read at that moment and
emitted with `framesUpdated`, which `DataProcessor::onFramesUpdated` receives (the signals
of one sender reach the processor in the order of their emission). -/
def LiveSession.step (m : QtMath K) (s : LiveSession K) :
    LiveEvent K → Except Fault (LiveSession K)
  | .frame data =>
    let processed := s.connection.processFrameData data
    pure { s with connection := processed.1
                  queued := if processed.2 then s.queued + 1 else s.queued }
  | .handOff =>
    if s.queued = 0 then pure s
    else do
      let latestFrame := s.connection.getLatestFrame
      let (processor, out) ← s.processor.onFramesUpdated m latestFrame
      pure { s with queued := s.queued - 1
                    processor := processor
                    emitted := s.emitted ++ out.toList }

/-- A sequence of events of a live session, in order. -/
def LiveSession.run (m : QtMath K) (s : LiveSession K) :
    List (LiveEvent K) → Except Fault (LiveSession K)
  | [] => pure s
  | event :: rest => do
    let next ← s.step m event
    LiveSession.run m next rest

/-- The live session at the first connection of the program: the frame callback is set,
the frame buffer is empty, nothing is queued, nothing is emitted. -/
def LiveSession.start (processor : DataProcessor K) : LiveSession K :=
  { connection := { frameCallback := true }, processor := processor }

variable [FloorRing K]

end Field

/-! ## Concrete inputs: live sessions -/

end MetricsClient

/-! # Theorems -/

namespace MetricsClient

/-! ## Numeric metrics -/

section Numeric

variable {K : Type} [LinearOrderedField K]

/-- C8: `computeVelocity` over the real numbers with the real square root: it is 0 when
`deltaTime <= 0`, it is the Euclidean length of `cur - prev` divided by `deltaTime` when
`deltaTime > 0`, and it is 0 for equal positions. -/
theorem computeVelocity_reference (cur prev : QVector3D ℝ) (deltaTime : ℝ) :
    (deltaTime ≤ 0 → RigidBodyMetrics.computeVelocity Real.sqrt cur prev deltaTime = 0) ∧
    (0 < deltaTime → RigidBodyMetrics.computeVelocity Real.sqrt cur prev deltaTime =
      Real.sqrt ((cur.x - prev.x) ^ 2 + (cur.y - prev.y) ^ 2 + (cur.z - prev.z) ^ 2)
        / deltaTime) ∧
    (0 < deltaTime → RigidBodyMetrics.computeVelocity Real.sqrt cur cur deltaTime = 0) := by
  refine ⟨fun h => ?_, fun h => ?_, fun h => ?_⟩
  · simp [RigidBodyMetrics.computeVelocity, h]
  · simp only [RigidBodyMetrics.computeVelocity, not_le.mpr h, if_false, QVector3D.length,
      QVector3D.sub, pow_two]
  · simp [RigidBodyMetrics.computeVelocity, not_le.mpr h, QVector3D.length, QVector3D.sub]

/-- Witness of C8: a step of length 5 in a tenth of a second is a speed of 50. -/
theorem computeVelocity_reference_witness :
    RigidBodyMetrics.computeVelocity Real.sqrt ⟨3, 4, 0⟩ ⟨0, 0, 0⟩ (1 / 10) = 50 := by
  rw [(computeVelocity_reference ⟨3, 4, 0⟩ ⟨0, 0, 0⟩ (1 / 10)).2.1 (by norm_num)]
  have h : Real.sqrt (((3 : ℝ) - 0) ^ 2 + (4 - 0) ^ 2 + (0 - 0) ^ 2) = 5 := by
    rw [show ((3 : ℝ) - 0) ^ 2 + (4 - 0) ^ 2 + (0 - 0) ^ 2 = 5 ^ 2 by norm_num]
    exact Real.sqrt_sq (by norm_num)
  rw [h]; norm_num

/-- C9: `computeAcceleration` is the difference of the two speeds divided by the current
time delta when that delta is positive, it is 0 when the delta is not positive, and it is 0
for equal step lengths and equal positive time deltas, whatever the directions of the steps;
the `acceleration` metric of `computeMetricsForFrame` is this value for the positions of the
three frames and the time deltas `current - previous` and `previous - secondPrevious`. -/
theorem computeAcceleration_speed_derivative (m : QtMath K)
    (cur prev prev2 : QVector3D K) (dtCur dtPrev : K)
    (current previous secondPrevious : FrameData K)
    (curr_rigid prev_rigid sec_prev_rigid : RigidBodyData K) (orientation : QVector3D K)
    (metrics : QHash K) (label : String) (labels : List String) :
    (0 < dtCur → RigidBodyMetrics.computeAcceleration m.sqrt cur prev prev2 dtCur dtPrev =
      (RigidBodyMetrics.computeVelocity m.sqrt cur prev dtCur
        - RigidBodyMetrics.computeVelocity m.sqrt prev prev2 dtPrev) / dtCur) ∧
    (dtCur ≤ 0 →
      RigidBodyMetrics.computeAcceleration m.sqrt cur prev prev2 dtCur dtPrev = 0) ∧
    (0 < dtCur → dtPrev = dtCur →
      (cur.sub prev).length m.sqrt = (prev.sub prev2).length m.sqrt →
      RigidBodyMetrics.computeAcceleration m.sqrt cur prev prev2 dtCur dtPrev = 0) ∧
    RigidBodyMetrics.applyMetric m current previous secondPrevious
        curr_rigid prev_rigid sec_prev_rigid orientation metrics
        { cls := "acceleration", labels := label :: labels }
      = metrics.insert label
          (RigidBodyMetrics.computeAcceleration m.sqrt curr_rigid.position prev_rigid.position
            sec_prev_rigid.position (current.timestamp - previous.timestamp)
            (previous.timestamp - secondPrevious.timestamp)) := by
  refine ⟨fun h => ?_, fun h => ?_, fun h hdt hlen => ?_, ?_⟩
  · simp [RigidBodyMetrics.computeAcceleration, not_le.mpr h]
  · simp [RigidBodyMetrics.computeAcceleration, h]
  · subst hdt
    simp [RigidBodyMetrics.computeAcceleration, RigidBodyMetrics.computeVelocity,
      not_le.mpr h, hlen]
  · simp [RigidBodyMetrics.applyMetric]

/-- Witness of C9: two unit steps per second with a right-angle turn between them. -/
theorem computeAcceleration_speed_derivative_witness :
    RigidBodyMetrics.computeAcceleration ratMath.sqrt
      (⟨1, 1, 0⟩ : QVector3D ℚ) ⟨1, 0, 0⟩ ⟨0, 0, 0⟩ 1 1 = 0 :=
  (computeAcceleration_speed_derivative ratMath ⟨1, 1, 0⟩ ⟨1, 0, 0⟩ ⟨0, 0, 0⟩ 1 1
    (rigidFrame 0 0 []) (rigidFrame 0 0 []) (rigidFrame 0 0 [])
    (body 0 0 0 0) (body 0 0 0 0) (body 0 0 0 0) ⟨0, 0, 0⟩ {} "a" []).2.2.1
    (by norm_num) rfl (by simp [QVector3D.length, QVector3D.sub])

/-- C10: `computeTilt` over the real numbers is `sqrt(pitch^2 + roll^2)`, does not depend on
yaw, and is 5 for pitch 3 and roll 4. -/
theorem computeTilt_excludes_yaw (pitch yaw yaw2 roll : ℝ) :
    RigidBodyMetrics.computeTilt Real.sqrt ⟨pitch, yaw, roll⟩
      = Real.sqrt (pitch ^ 2 + roll ^ 2) ∧
    RigidBodyMetrics.computeTilt Real.sqrt ⟨pitch, yaw2, roll⟩
      = RigidBodyMetrics.computeTilt Real.sqrt ⟨pitch, yaw, roll⟩ ∧
    RigidBodyMetrics.computeTilt Real.sqrt ⟨3, yaw, 4⟩ = 5 := by
  refine ⟨?_, rfl, ?_⟩
  · simp only [RigidBodyMetrics.computeTilt, pow_two]
  · simp only [RigidBodyMetrics.computeTilt]
    rw [show (3 : ℝ) * 3 + 4 * 4 = 5 ^ 2 by norm_num]
    exact Real.sqrt_sq (by norm_num)

end Numeric

/-! ## Duplicate-frame guard -/

section Buffer

variable {K : Type}

/-- The guard of `processFrameData` holds exactly when the buffer has a last frame with the
incoming frame number. -/
theorem NatNetConnection.isDuplicate_iff (self : NatNetConnection K)
    (data : sFrameOfMocapData K) :
    self.isDuplicate data = true ↔
      ∃ last, self.frames.getLast? = some last ∧ data.iFrame = last.frameNumber := by
  unfold NatNetConnection.isDuplicate
  rcases List.eq_nil_or_concat self.frames with h | ⟨init, last, h⟩
  · simp [h]
  · simp [h]

/-- Appending a frame whose number differs from the last one keeps adjacent frame numbers
distinct. -/
theorem AdjacentDistinct.concat {frames : List (FrameData K)} {frame : FrameData K}
    (h : AdjacentDistinct frames)
    (hlast : ∀ last, frames.getLast? = some last → last.frameNumber ≠ frame.frameNumber) :
    AdjacentDistinct (frames ++ [frame]) := by
  unfold AdjacentDistinct at *
  refine List.Chain'.append h (List.chain'_singleton _) ?_
  intro a ha b hb
  simp only [List.head?_cons, Option.mem_def, Option.some.injEq] at hb
  subst hb
  exact hlast a ha

/-- One `processFrameData` call keeps adjacent frame numbers distinct. -/
theorem NatNetConnection.processFrameData_adjacentDistinct (self : NatNetConnection K)
    (data : sFrameOfMocapData K) (h : AdjacentDistinct self.frames) :
    AdjacentDistinct (self.processFrameData data).1.frames := by
  unfold NatNetConnection.processFrameData
  by_cases hd : self.isDuplicate data = true
  · simpa [hd] using h
  · simp only [hd, Bool.false_eq_true, if_false]
    refine AdjacentDistinct.concat h ?_
    intro last hl heq
    exact hd ((NatNetConnection.isDuplicate_iff self data).mpr ⟨last, hl, heq.symm⟩)

/-- Any sequence of `processFrameData` calls keeps adjacent frame numbers distinct. -/
theorem NatNetConnection.processAll_adjacentDistinct (datas : List (sFrameOfMocapData K)) :
    ∀ self : NatNetConnection K, AdjacentDistinct self.frames →
      AdjacentDistinct (self.processAll datas).frames := by
  induction datas with
  | nil => intro self h; simpa [NatNetConnection.processAll] using h
  | cons data rest ih =>
    intro self h
    have := ih (self.processFrameData data).1
      (NatNetConnection.processFrameData_adjacentDistinct self data h)
    simpa [NatNetConnection.processAll] using this

/-- C2: `processFrameData` drops the frame (buffer unchanged, callback not invoked) exactly
when the buffer has a last frame with the incoming frame number; otherwise the buffer grows
by the converted frame at its end and the callback runs if one is set; and a buffer filled
from empty by any sequence of calls has no two adjacent frames with the same number. -/
theorem NatNetConnection.processFrameData_duplicate_guard (self : NatNetConnection K)
    (data : sFrameOfMocapData K) (datas : List (sFrameOfMocapData K)) :
    (((self.processFrameData data).1.frames = self.frames ∧
        (self.processFrameData data).2 = false) ↔
      ∃ last, self.frames.getLast? = some last ∧ data.iFrame = last.frameNumber) ∧
    ((¬ ∃ last, self.frames.getLast? = some last ∧ data.iFrame = last.frameNumber) →
      (self.processFrameData data).1.frames = self.frames ++ [data.toFrameData] ∧
      (self.processFrameData data).2 = self.frameCallback) ∧
    AdjacentDistinct (NatNetConnection.processAll { self with frames := [] } datas).frames := by
  refine ⟨?_, ?_, ?_⟩
  · rw [← NatNetConnection.isDuplicate_iff]
    unfold NatNetConnection.processFrameData
    by_cases hd : self.isDuplicate data = true
    · simp [hd]
    · simp [hd]
  · intro hn
    rw [← NatNetConnection.isDuplicate_iff] at hn
    simp [NatNetConnection.processFrameData, hn]
  · exact NatNetConnection.processAll_adjacentDistinct datas _ List.chain'_nil

/-- Witness of C2: the buffer holds frames 1 and 2; an incoming frame numbered 1 equals an
earlier entry but not the last one, so it is appended and the callback runs. -/
theorem NatNetConnection.processFrameData_duplicate_guard_witness :
    (bufferedOneTwo.processFrameData (sdkFrame 1)).1.frames
      = bufferedOneTwo.frames ++ [(sdkFrame 1).toFrameData] ∧
    (bufferedOneTwo.processFrameData (sdkFrame 1)).2 = bufferedOneTwo.frameCallback :=
  (NatNetConnection.processFrameData_duplicate_guard bufferedOneTwo (sdkFrame 1) []).2.1
    (by decide)

end Buffer

/-! ## Asset selection and calculator faults -/

section Calculators

/-- An unresolved name makes `RigidBodyMetrics::setAsset` store 0. -/
theorem RigidBodyMetrics.setAsset_absent_selects_zero (self : RigidBodyMetrics) (name : String)
    (h : self.m_rigidBodyNameToId.contains name = false) :
    (self.setAsset name).selectedAsset = 0 := by
  simp [RigidBodyMetrics.setAsset, h]

/-- An unresolved name makes `SkeletonMetrics::setAsset` store -1, and the skeleton
calculator then returns the empty `MetricsData`. -/
theorem SkeletonMetrics.setAsset_absent_returns_empty {K : Type} [LinearOrderedField K] (m : QtMath K)
    (self : SkeletonMetrics) (name : String) (current : FrameData K)
    (h : self.m_skeletonNameToId.contains name = false) :
    (self.setAsset name).selectedAsset = -1 ∧
      (self.setAsset name).computeMetricsForFrame m current = .ok {} := by
  simp [SkeletonMetrics.setAsset, SkeletonMetrics.computeMetricsForFrame, h]

/-- The rational square root is exact on squares. -/
theorem ratMath_sqrt_mul_self (q : ℚ) : ratMath.sqrt (q * q) = |q| :=
  Rat.sqrt_eq q

/-- The distance metric of `shortSkeleton` is 500. -/
theorem computeForwardTilt_shortSkeleton (id : Int) :
    SkeletonMetrics.computeForwardTilt ratMath 0 1 (shortSkeleton id) = .ok 500 := by
  have h : ratMath.sqrt (3 * 3 + 4 * 4) = 5 := by
    rw [show (3 : ℚ) * 3 + 4 * 4 = 5 * 5 by norm_num, ratMath_sqrt_mul_self]; norm_num
  simp [SkeletonMetrics.computeForwardTilt, SkeletonData.boneAt, shortSkeleton, body, h,
    bind, Except.bind, pure, Except.pure]
  norm_num

/-- The distance metric of `longSkeleton` is 1000. -/
theorem computeForwardTilt_longSkeleton (id : Int) :
    SkeletonMetrics.computeForwardTilt ratMath 0 1 (longSkeleton id) = .ok 1000 := by
  have h : ratMath.sqrt (6 * 6 + 8 * 8) = 10 := by
    rw [show (6 : ℚ) * 6 + 8 * 8 = 10 * 10 by norm_num, ratMath_sqrt_mul_self]; norm_num
  simp [SkeletonMetrics.computeForwardTilt, SkeletonData.boneAt, longSkeleton, body, h,
    bind, Except.bind, pure, Except.pure]
  norm_num

/-- The skeleton calculator with `distanceSettings` and a selection other than -1 returns
the distance metric of the first skeleton of the frame. -/
theorem SkeletonMetrics.distance_of_first (self : SkeletonMetrics)
    (hsel : self.selectedAsset ≠ -1) (hset : self.m_metricSettings = distanceSettings)
    (n : Int) (first : SkeletonData ℚ) (others : List (SkeletonData ℚ)) (d : ℚ)
    (hd : SkeletonMetrics.computeForwardTilt ratMath 0 1 first = .ok d) :
    self.computeMetricsForFrame ratMath (skeletonFrame n (first :: others))
      = .ok { id := n, metrics := ⟨[("d", d)]⟩ } := by
  simp [SkeletonMetrics.computeMetricsForFrame, hsel, hset, distanceSettings, skeletonFrame,
    SkeletonMetrics.applyMetric, hd, QHash.insert, bind, Except.bind, pure, Except.pure]

/-- C3: after `setAsset` with a name that is not in the (empty) name map the selection is 0,
and the rigid-body calculator computes the metrics of the rigid body with id 0 (label `px`
with value 3); on a frame without a rigid body 0 it runs off the end of the function. -/
theorem RigidBodyMetrics.unresolved_selection_computes_id_zero :
    unresolvedRigid.selectedAsset = 0 ∧
    unresolvedRigid.computeMetricsForFrame ratMath (rigidFrame 7 2 [body 0 3 4 0])
        (rigidFrame 6 1 [body 0 0 0 0]) (rigidFrame 5 0 [body 0 0 0 0])
      = .ok { id := 7, metrics := ⟨[("px", 3)]⟩ } ∧
    unresolvedRigid.computeMetricsForFrame ratMath (rigidFrame 7 2 [body 5 3 4 0])
        (rigidFrame 6 1 [body 5 0 0 0]) (rigidFrame 5 0 [body 5 0 0 0])
      = .error .missingReturn :=
  ⟨rfl, rfl, rfl⟩

/-- C4: a skeleton calculator on which `setAsset` was never called has selection 0, not -1,
and computes the distance metric (label `d`, value 500) of the first skeleton of the
frame. -/
theorem SkeletonMetrics.never_selected_computes_metrics :
    unselectedSkeleton.selectedAsset = 0 ∧
    unselectedSkeleton.computeMetricsForFrame ratMath (skeletonFrame 3 [shortSkeleton 9])
      = .ok { id := 3, metrics := ⟨[("d", 500)]⟩ } :=
  ⟨rfl, SkeletonMetrics.distance_of_first unselectedSkeleton (by decide) rfl 3 _ _ 500
    (computeForwardTilt_shortSkeleton 9)⟩

/-- C5: with skeleton id 2 selected and a frame that holds skeleton 1 followed by
skeleton 2, the calculator returns the distance of skeleton 1 (500); skeleton 2 alone gives
1000. -/
theorem SkeletonMetrics.selected_id_not_matched :
    secondSelected.selectedAsset = 2 ∧
    secondSelected.computeMetricsForFrame ratMath
        (skeletonFrame 4 [shortSkeleton 1, longSkeleton 2])
      = .ok { id := 4, metrics := ⟨[("d", 500)]⟩ } ∧
    secondSelected.computeMetricsForFrame ratMath (skeletonFrame 4 [longSkeleton 2])
      = .ok { id := 4, metrics := ⟨[("d", 1000)]⟩ } :=
  ⟨rfl,
   SkeletonMetrics.distance_of_first secondSelected (by decide) rfl 4 _ _ 500
    (computeForwardTilt_shortSkeleton 1),
   SkeletonMetrics.distance_of_first secondSelected (by decide) rfl 4 _ _ 1000
    (computeForwardTilt_longSkeleton 2)⟩

/-- C6: with rigid body 5 selected at index 1 of the current frame and a previous frame of
one rigid body, the rigid-body calculator indexes `previous.rigidBodies` out of range; with
no rigid body 5 in the current frame it runs off the end of the function. -/
theorem RigidBodyMetrics.rigid_calculator_faults :
    ballSelected.selectedAsset = 5 ∧
    ballSelected.computeMetricsForFrame ratMath
        (rigidFrame 3 2 [body 1 0 0 0, body 5 2 0 0])
        (rigidFrame 2 1 [body 1 0 0 0])
        (rigidFrame 1 0 [body 1 0 0 0, body 5 0 0 0])
      = .error .outOfRange ∧
    ballSelected.computeMetricsForFrame ratMath
        (rigidFrame 3 2 [body 1 0 0 0]) (rigidFrame 2 1 [body 1 0 0 0])
        (rigidFrame 1 0 [body 1 0 0 0])
      = .error .missingReturn :=
  ⟨rfl, rfl, rfl⟩

/-- C7: with skeleton 1 selected, an angle metric whose second bone id is 5, or whose first
bone id is -1, indexes the two bones of the skeleton out of range; on a frame with no
skeleton the calculator runs off the end of the function. -/
theorem SkeletonMetrics.skeleton_calculator_faults :
    (angleSelected [0, 5]).selectedAsset = 1 ∧
    (angleSelected [0, 5]).computeMetricsForFrame ratMath (skeletonFrame 3 [shortSkeleton 1])
      = .error .outOfRange ∧
    (angleSelected [-1, 0]).computeMetricsForFrame ratMath (skeletonFrame 3 [shortSkeleton 1])
      = .error .outOfRange ∧
    (angleSelected [0, 1]).computeMetricsForFrame ratMath (skeletonFrame 3 [])
      = .error .missingReturn :=
  ⟨rfl, rfl, rfl, rfl⟩

end Calculators

/-! ## Record and replay -/

section Ticks

variable {K : Type}

/-- A tick that finds the replay stopped or the take exhausted emits nothing, schedules
nothing and marks the controller not replaying. -/
theorem ReplayController.emitNextFrame_stop (self : ReplayController K) (elapsed : Int)
    (h : self.m_isReplaying = false ∨ self.m_savedFrames.length ≤ self.m_currentIndex) :
    self.emitNextFrame elapsed = { state := self.stopReplay } := by
  simp [ReplayController.emitNextFrame, h]

/-- A tick during a replay with frames left emits the frame at the current index, moves the
index by one and schedules the next tick. -/
theorem ReplayController.emitNextFrame_emit (self : ReplayController K) (elapsed : Int)
    (hrep : self.m_isReplaying = true)
    (hlt : self.m_currentIndex < self.m_savedFrames.length) :
    self.emitNextFrame elapsed =
      { state := { self with m_currentIndex := self.m_currentIndex + 1 }
        emitted := some (self.m_savedFrames.get ⟨self.m_currentIndex, hlt⟩)
        scheduled := some (max 0 (toInt32 (self.m_intervalMs - toInt32 elapsed))) } := by
  have hcond : ¬ (self.m_isReplaying = false ∨
      self.m_savedFrames.length ≤ self.m_currentIndex) := by
    simp [hrep, hlt]
  unfold ReplayController.emitNextFrame
  rw [dif_neg hcond]
  simp [hrep]

/-- While replaying, the ticks emit the saved frames from the current index to the end, in
order, and then stop the replay; `k` is the number of frames left. -/
theorem ReplayController.fireTicks_replaying (elapsed : Nat → Int) (k : Nat) :
    ∀ (self : ReplayController K) (n fuel : Nat), self.m_isReplaying = true →
      self.m_currentIndex + k = self.m_savedFrames.length → k < fuel →
      ReplayController.fireTicks elapsed fuel n self =
        some (self.m_savedFrames.drop self.m_currentIndex,
          { self with m_currentIndex := self.m_savedFrames.length, m_isReplaying := false }) := by
  induction k with
  | zero =>
    intro self n fuel hrep hidx hfuel
    obtain ⟨fuel, rfl⟩ : ∃ f, fuel = f + 1 := ⟨fuel - 1, by omega⟩
    have hle : self.m_savedFrames.length ≤ self.m_currentIndex := by omega
    have hidx2 : self.m_savedFrames.length = self.m_currentIndex := by omega
    rw [ReplayController.fireTicks, ReplayController.emitNextFrame_stop self _ (Or.inr hle),
      List.drop_eq_nil_of_le hle]
    simp [ReplayController.stopReplay, hidx2]
  | succ k ih =>
    intro self n fuel hrep hidx hfuel
    obtain ⟨fuel, rfl⟩ : ∃ f, fuel = f + 1 := ⟨fuel - 1, by omega⟩
    have hlt : self.m_currentIndex < self.m_savedFrames.length := by omega
    have hnext := ih { self with m_currentIndex := self.m_currentIndex + 1 } (n + 1) fuel
      hrep (by simp only; omega) (by omega)
    rw [ReplayController.fireTicks, ReplayController.emitNextFrame_emit self _ hrep hlt]
    simp only [hnext, Option.map_some', Option.toList]
    rw [List.drop_eq_getElem_cons hlt]
    rfl

end Ticks

section RoundTrip

variable {K : Type} [LinearOrderedField K]

/-- A delivery that does not fault keeps the two calculators and stores the delivered frame
as previous frame and the former previous frame as second previous frame. -/
theorem DataProcessor.onFramesUpdated_state (m : QtMath K) (self next : DataProcessor K)
    (frame : FrameData K) (out : Option (MetricsData K × MetricsData K))
    (h : self.onFramesUpdated m frame = .ok (next, out)) :
    next = { self with m_secondPreviousFrame := self.m_previousFrame
                       m_previousFrame := some frame } := by
  unfold DataProcessor.onFramesUpdated at h
  split at h
  · rename_i previous secondPrevious _ _
    cases hrb : self.rigidBodyMetrics.computeMetricsForFrame m frame previous
        secondPrevious with
    | error e => simp [hrb, bind, Except.bind] at h
    | ok rb =>
      cases hsk : self.skeletonMetrics.computeMetricsForFrame m frame with
      | error e => simp [hrb, hsk, bind, Except.bind] at h
      | ok sk =>
        simp only [hrb, hsk, bind, Except.bind, pure, Except.pure, Except.ok.injEq,
          Prod.mk.injEq] at h
        exact h.1.symm
  · simp only [pure, Except.pure, Except.ok.injEq, Prod.mk.injEq] at h
    exact h.1.symm

/-- A run of deliveries that does not fault keeps the two calculators. -/
theorem DataProcessor.deliver_calculators (m : QtMath K) (frames : List (FrameData K)) :
    ∀ (self final : DataProcessor K) (out : List (MetricsData K × MetricsData K)),
      self.deliver m frames = .ok (final, out) →
      final.rigidBodyMetrics = self.rigidBodyMetrics ∧
        final.skeletonMetrics = self.skeletonMetrics := by
  induction frames with
  | nil =>
    intro self final out h
    simp only [DataProcessor.deliver, pure, Except.pure, Except.ok.injEq, Prod.mk.injEq] at h
    rw [← h.1]; exact ⟨rfl, rfl⟩
  | cons frame rest ih =>
    intro self final out h
    unfold DataProcessor.deliver at h
    cases h1 : self.onFramesUpdated m frame with
    | error e => simp [h1, bind, Except.bind] at h
    | ok r1 =>
      obtain ⟨next, emitted⟩ := r1
      cases h2 : DataProcessor.deliver m next rest with
      | error e => simp [h1, h2, bind, Except.bind] at h
      | ok r2 =>
        obtain ⟨last, later⟩ := r2
        simp only [h1, h2, bind, Except.bind, pure, Except.pure, Except.ok.injEq,
          Prod.mk.injEq] at h
        have hs := DataProcessor.onFramesUpdated_state m self next frame emitted h1
        have hc := ih next last later h2
        rw [← h.1, hc.1, hc.2, hs]
        exact ⟨rfl, rfl⟩

/-- Two deliveries that do not fault, followed by further ones: the outcome is that of the
further deliveries from the state that holds the two frames as history. -/
theorem DataProcessor.deliver_two (m : QtMath K) (self s1 s2 : DataProcessor K)
    (f1 f2 : FrameData K) (rest : List (FrameData K))
    (o1 o2 : Option (MetricsData K × MetricsData K))
    (h1 : self.onFramesUpdated m f1 = .ok (s1, o1))
    (h2 : s1.onFramesUpdated m f2 = .ok (s2, o2)) :
    self.deliver m (f1 :: f2 :: rest) =
      (DataProcessor.deliver m
        { self with m_secondPreviousFrame := some f1, m_previousFrame := some f2 } rest).map
        (fun r => (r.1, o1.toList ++ (o2.toList ++ r.2))) := by
  have e1 := DataProcessor.onFramesUpdated_state m self s1 f1 o1 h1
  have e2 := DataProcessor.onFramesUpdated_state m s1 s2 f2 o2 h2
  have e3 : s2 = { self with m_secondPreviousFrame := some f1, m_previousFrame := some f2 } := by
    rw [e2, e1]
  rw [DataProcessor.deliver, h1]
  simp only [bind, Except.bind]
  rw [DataProcessor.deliver, h2]
  simp only [bind, Except.bind]
  rw [e3]
  cases DataProcessor.deliver m
      { self with m_secondPreviousFrame := some f1, m_previousFrame := some f2 } rest with
  | error e => rfl
  | ok r => rfl

/-- What the replay through the processor of the live run emits: when the live run of at
least two frames started without frame history and did not fault, and the first two
replayed frames are processed without fault, the replay emits the values `a` and `b` of
those two frames followed by the values of the live run. -/
theorem DataProcessor.deliver_again (m : QtMath K) (self final s1 s2 : DataProcessor K)
    (f1 f2 : FrameData K) (rest : List (FrameData K))
    (live : List (MetricsData K × MetricsData K)) (a b : MetricsData K × MetricsData K)
    (hprev : self.m_previousFrame = none)
    (hlive : self.deliver m (f1 :: f2 :: rest) = .ok (final, live))
    (h1 : final.onFramesUpdated m f1 = .ok (s1, some a))
    (h2 : s1.onFramesUpdated m f2 = .ok (s2, some b)) :
    final.deliver m (f1 :: f2 :: rest) = .ok (final, a :: b :: live) := by
  have g1 : self.onFramesUpdated m f1 =
      .ok ({ self with m_secondPreviousFrame := self.m_previousFrame
                       m_previousFrame := some f1 }, none) := by
    simp [DataProcessor.onFramesUpdated, hprev, pure, Except.pure]
  have g2 : DataProcessor.onFramesUpdated m
      ({ self with m_secondPreviousFrame := self.m_previousFrame
                   m_previousFrame := some f1 } : DataProcessor K) f2 =
      .ok ({ self with m_secondPreviousFrame := some f1, m_previousFrame := some f2 },
        none) := by
    simp [DataProcessor.onFramesUpdated, hprev, pure, Except.pure]
  have hl := DataProcessor.deliver_two m self _ _ f1 f2 rest none none g1 g2
  rw [hlive] at hl
  have hc := DataProcessor.deliver_calculators m _ self final live hlive
  have hsame : ({ final with m_secondPreviousFrame := some f1, m_previousFrame := some f2 }
      : DataProcessor K) =
      { self with m_secondPreviousFrame := some f1, m_previousFrame := some f2 } := by
    simp [hc.1, hc.2]
  rw [DataProcessor.deliver_two m final s1 s2 f1 f2 rest (some a) (some b) h1 h2, hsame]
  cases hd : DataProcessor.deliver m
      { self with m_secondPreviousFrame := some f1, m_previousFrame := some f2 } rest with
  | error e => rw [hd] at hl; simp [Except.map] at hl
  | ok r =>
    rw [hd] at hl
    simp only [Except.map, Option.toList, List.nil_append, Except.ok.injEq,
      Prod.mk.injEq] at hl
    simp [Except.map, hl.1, hl.2]

end RoundTrip

/-! ## Metric values -/

section Values

variable {K : Type} [LinearOrderedField K]

omit [LinearOrderedField K] in
/-- Lookup after `QHash::insert`: the inserted key has the inserted value, every other key
keeps what it had. -/
theorem QHash.find?_insert (h : QHash K) (key other : String) (value : K) :
    (h.insert key value).find? other = if other = key then some value else h.find? other := by
  unfold QHash.insert QHash.find?
  by_cases hk : other = key
  · subst hk; simp [List.lookup]
  · have hne : (other == key) = false := by simpa using hk
    simp only [List.lookup, hne, hk, if_false]
    induction h.entries with
    | nil => rfl
    | cons p rest ih =>
      obtain ⟨k, v⟩ := p
      by_cases hpk : k = key
      · subst hpk
        have : (other == k) = false := hne
        simp [List.filter, List.lookup, this, ih]
      · have hb : (k != key) = true := by simpa using hpk
        simp only [List.filter, hb, List.lookup]
        cases hok : (other == k) with
        | true => rfl
        | false => exact ih

omit [LinearOrderedField K] in
/-- The pass-through loop started at index `j`: label number `i` of pairwise distinct labels
gets component `j + i` as long as `j + i < 3`, and a label outside the first `3 - j` labels
keeps what it had. -/
theorem RigidBodyMetrics.insertComponents_find? (v : QVector3D K) (labels : List String) :
    ∀ (j : Nat) (h : QHash K), labels.Nodup →
      (∀ (i : Nat) (hi : i < labels.length), j + i < 3 →
        (RigidBodyMetrics.insertComponents v j labels h).find? (labels.get ⟨i, hi⟩)
          = some (v.component (j + i))) ∧
      (∀ other : String, other ∉ labels.take (3 - j) →
        (RigidBodyMetrics.insertComponents v j labels h).find? other = h.find? other) := by
  induction labels with
  | nil =>
    intro j h _
    exact ⟨fun i hi => absurd hi (Nat.not_lt_zero i), fun other _ => rfl⟩
  | cons label rest ih =>
    intro j h hnd
    have hnd' := List.nodup_cons.mp hnd
    by_cases hj : j < 3
    · have hrec := ih (j + 1) (h.insert label (v.component j)) hnd'.2
      simp only [RigidBodyMetrics.insertComponents, hj, if_true]
      refine ⟨?_, ?_⟩
      · intro i hi hlt
        cases i with
        | zero =>
          have hnot : label ∉ rest.take (3 - (j + 1)) :=
            fun hm => hnd'.1 (List.mem_of_mem_take hm)
          simp only [List.get_eq_getElem, List.getElem_cons_zero, Nat.add_zero]
          rw [hrec.2 label hnot, QHash.find?_insert]
          simp
        | succ i =>
          have := hrec.1 i (Nat.lt_of_succ_lt_succ hi) (by omega)
          simpa [Nat.add_assoc, Nat.add_comm 1 i] using this
      · intro other hother
        have h3 : 3 - j = (3 - (j + 1)) + 1 := by omega
        rw [h3, List.take_succ_cons, List.mem_cons, not_or] at hother
        rw [hrec.2 other hother.2, QHash.find?_insert, if_neg hother.1]
    · have e : RigidBodyMetrics.insertComponents v j (label :: rest) h = h := by
        simp [RigidBodyMetrics.insertComponents, hj]
      rw [e]
      exact ⟨fun i hi hlt => absurd (by omega : j < 3) hj, fun other _ => rfl⟩

/-- The loop of the rigid-body calculator reaches the first rigid body with the selected id:
when the rigid bodies before it have other ids and the two earlier frames have an entry at
its index, the result holds the metrics computed for it with the entries of the earlier
frames at the same index. -/
theorem RigidBodyMetrics.scan_reaches (m : QtMath K) (self : RigidBodyMetrics)
    (current previous secondPrevious : FrameData K)
    (subject prev_rigid sec_prev_rigid : RigidBodyData K)
    (before after : List (RigidBodyData K)) :
    ∀ i : Nat, (∀ b ∈ before, b.id ≠ self.selectedAsset) →
      subject.id = self.selectedAsset →
      previous.rigidBodies[i + before.length]? = some prev_rigid →
      secondPrevious.rigidBodies[i + before.length]? = some sec_prev_rigid →
      RigidBodyMetrics.scan m self current previous secondPrevious i
          (before ++ subject :: after)
        = .ok { id := current.frameNumber
                metrics := self.m_metricSettings.foldl
                  (RigidBodyMetrics.applyMetric m current previous secondPrevious
                    subject prev_rigid sec_prev_rigid
                    (m.toEulerAngles subject.orientation)) {} } := by
  induction before with
  | nil =>
    intro i _ hid hp hs
    simp only [List.length_nil, Nat.add_zero] at hp hs
    simp [RigidBodyMetrics.scan, hp, hs, hid]
  | cons b rest ih =>
    intro i hne hid hp hs
    have hb : b.id ≠ self.selectedAsset := hne b (List.mem_cons_self _ _)
    have hlen : i + (b :: rest).length = (i + 1) + rest.length := by
      simp only [List.length_cons]; omega
    rw [hlen] at hp hs
    have hpi : ∃ p, previous.rigidBodies[i]? = some p := by
      have hlt : i + 1 + rest.length < previous.rigidBodies.length := by
        rcases List.getElem?_eq_some_iff.mp hp with ⟨h, _⟩; exact h
      exact ⟨_, List.getElem?_eq_getElem (by omega)⟩
    have hsi : ∃ p, secondPrevious.rigidBodies[i]? = some p := by
      have hlt : i + 1 + rest.length < secondPrevious.rigidBodies.length := by
        rcases List.getElem?_eq_some_iff.mp hs with ⟨h, _⟩; exact h
      exact ⟨_, List.getElem?_eq_getElem (by omega)⟩
    obtain ⟨p, hp0⟩ := hpi
    obtain ⟨q, hs0⟩ := hsi
    have hrec := ih (i + 1) (fun x hx => hne x (List.mem_cons_of_mem _ hx)) hid hp hs
    simp only [List.cons_append, RigidBodyMetrics.scan, hp0, hs0, hb, ne_eq, not_false_eq_true,
      if_true]
    exact hrec

end Values
/-! ## Calculators on a present subject -/

section Subject

variable {K : Type} [LinearOrderedField K]

/-- Pass-through of position and orientation when the earlier frames are long enough: for
a selected rigid body that is the first one with the selected id in the current frame
(the two earlier frames having an entry at its index) and a single definition of
class `position` (or `orientation`) with pairwise distinct labels, the result carries the
frame number, maps label `j` to component `j` of the position (of the Euler angles) for
every `j` below 3 and below the number of labels, and has no entry for any label outside
the first three. -/
theorem RigidBodyMetrics.position_orientation_pass_through (m : QtMath K)
    (self : RigidBodyMetrics) (current previous secondPrevious : FrameData K)
    (subject prev_rigid sec_prev_rigid : RigidBodyData K)
    (before after : List (RigidBodyData K))
    (cls : String) (ids : List Int) (labels : List String)
    (hclass : cls = "position" ∨ cls = "orientation")
    (hsettings : self.m_metricSettings = [{ cls := cls, ids := ids, labels := labels }])
    (hlabels : labels.Nodup)
    (hselected : self.selectedAsset ≠ -1)
    (hcurrent : current.rigidBodies = before ++ subject :: after)
    (hbefore : ∀ b ∈ before, b.id ≠ self.selectedAsset)
    (hsubject : subject.id = self.selectedAsset)
    (hprev : previous.rigidBodies[before.length]? = some prev_rigid)
    (hsec : secondPrevious.rigidBodies[before.length]? = some sec_prev_rigid) :
    ∃ data : MetricsData K,
      self.computeMetricsForFrame m current previous secondPrevious = .ok data ∧
      data.id = current.frameNumber ∧
      (∀ (j : Nat) (hj : j < labels.length), j < 3 →
        data.metrics.find? (labels.get ⟨j, hj⟩) =
          some ((if cls = "position" then subject.position
                 else m.toEulerAngles subject.orientation).component j)) ∧
      (∀ other : String, other ∉ labels.take 3 → data.metrics.find? other = none) := by
  have hscan := RigidBodyMetrics.scan_reaches m self current previous secondPrevious
    subject prev_rigid sec_prev_rigid before after 0 hbefore hsubject
    (by simpa using hprev) (by simpa using hsec)
  have hres : self.computeMetricsForFrame m current previous secondPrevious =
      RigidBodyMetrics.scan m self current previous secondPrevious 0
        (before ++ subject :: after) := by
    simp only [RigidBodyMetrics.computeMetricsForFrame, hselected, if_false, hcurrent]
  rw [hscan] at hres
  refine ⟨_, hres, rfl, ?_, ?_⟩
  · intro j hj hj3
    rcases hclass with hc | hc
    · subst hc
      have h := (RigidBodyMetrics.insertComponents_find? subject.position labels 0 {}
        hlabels).1 j hj (by omega)
      simpa [hsettings, RigidBodyMetrics.applyMetric] using h
    · subst hc
      have h := (RigidBodyMetrics.insertComponents_find?
        (m.toEulerAngles subject.orientation) labels 0 {} hlabels).1 j hj (by omega)
      simpa [hsettings, RigidBodyMetrics.applyMetric] using h
  · intro other hother
    rcases hclass with hc | hc
    · subst hc
      have h := (RigidBodyMetrics.insertComponents_find? subject.position labels 0 {}
        hlabels).2 other (by simpa using hother)
      simpa [hsettings, RigidBodyMetrics.applyMetric, QHash.find?] using h
    · subst hc
      have h := (RigidBodyMetrics.insertComponents_find?
        (m.toEulerAngles subject.orientation) labels 0 {} hlabels).2 other
        (by simpa using hother)
      simpa [hsettings, RigidBodyMetrics.applyMetric, QHash.find?] using h

/-- C11: three frames that hold rigid body 5 at `(0,0,0)`, `(1,0,0)`, `(2,0,0)` with the
timestamps 0, 0.1, 0.2, rigid body 5 selected, metric settings `velocity` with label `vx`,
a processor without frame history, and a square root with `sqrt 1 = 1`: the rigid-body
calculator returns, for the third frame, the frame number of that frame and `vx = 10`, and
the three deliveries emit this value once, paired with the result of the skeleton
calculator on the third frame. -/
theorem DataProcessor.velocity_scenario (m : QtMath K) (hsqrt : m.sqrt 1 = 1)
    (skeletonMetrics : SkeletonMetrics) (nameToId : NameToId) (n1 n2 n3 : Int)
    (o1 o2 o3 : QQuaternion K) (s1 s2 s3 : List (SkeletonData K)) :
    (scenarioRigid nameToId).computeMetricsForFrame m
        (scenarioFrame n3 (2 / 10) 2 o3 s3) (scenarioFrame n2 (1 / 10) 1 o2 s2)
        (scenarioFrame n1 0 0 o1 s1)
      = .ok { id := n3, metrics := ⟨[("vx", 10)]⟩ } ∧
    DataProcessor.deliver m
        { skeletonMetrics := skeletonMetrics, rigidBodyMetrics := scenarioRigid nameToId }
        [scenarioFrame n1 0 0 o1 s1, scenarioFrame n2 (1 / 10) 1 o2 s2,
         scenarioFrame n3 (2 / 10) 2 o3 s3]
      = (skeletonMetrics.computeMetricsForFrame m (scenarioFrame n3 (2 / 10) 2 o3 s3)).map
          (fun skel =>
            ({ skeletonMetrics := skeletonMetrics
               rigidBodyMetrics := scenarioRigid nameToId
               m_previousFrame := some (scenarioFrame n3 (2 / 10) 2 o3 s3)
               m_secondPreviousFrame := some (scenarioFrame n2 (1 / 10) 1 o2 s2) },
             [({ id := n3, metrics := ⟨[("vx", 10)]⟩ }, skel)])) := by
  have hdt : ¬ ((2 : K) / 10 - 1 / 10 ≤ 0) := by norm_num
  have hlen : m.sqrt ((2 - 1) * (2 - 1) + (0 - 0) * (0 - 0) + (0 - 0) * (0 - 0)) = 1 := by
    rw [show ((2 : K) - 1) * (2 - 1) + (0 - 0) * (0 - 0) + (0 - 0) * (0 - 0) = 1 by norm_num]
    exact hsqrt
  have hv : RigidBodyMetrics.computeVelocity m.sqrt (⟨2, 0, 0⟩ : QVector3D K) ⟨1, 0, 0⟩
      (2 / 10 - 1 / 10) = 10 := by
    simp only [RigidBodyMetrics.computeVelocity, hdt, if_false, QVector3D.length,
      QVector3D.sub, hlen]
    norm_num
  have hrb : (scenarioRigid nameToId).computeMetricsForFrame m
      (scenarioFrame n3 (2 / 10) 2 o3 s3) (scenarioFrame n2 (1 / 10) 1 o2 s2)
      (scenarioFrame n1 0 0 o1 s1) = .ok { id := n3, metrics := ⟨[("vx", 10)]⟩ } := by
    have hv2 := hv
    simp only [one_div] at hv2
    simp [RigidBodyMetrics.computeMetricsForFrame, scenarioRigid, scenarioFrame,
      RigidBodyMetrics.scan, RigidBodyMetrics.applyMetric, hv2, QHash.insert]
  refine ⟨hrb, ?_⟩
  simp only [DataProcessor.deliver, DataProcessor.onFramesUpdated, bind, Except.bind, pure,
    Except.pure, hrb, Option.toList, List.nil_append]
  cases skeletonMetrics.computeMetricsForFrame m (scenarioFrame n3 (2 / 10) 2 o3 s3) with
  | error e => rfl
  | ok skel => rfl

end Subject

/-- Witness of C11: the scenario on rational numbers, with the processor set up through
`receiveMetricSettings` and `receiveAssets` (no skeleton selected). -/
theorem DataProcessor.velocity_scenario_witness :
    ratMath.sqrt 1 = 1 ∧
    DataProcessor.deliver ratMath velocityProcessor velocityFrames
      = .ok ({ velocityProcessor with
                m_previousFrame := some (rigidFrame 3 (2 / 10) [body 5 2 0 0])
                m_secondPreviousFrame := some (rigidFrame 2 (1 / 10) [body 5 1 0 0]) },
             [({ id := 3, metrics := ⟨[("vx", 10)]⟩ }, {})]) :=
  ⟨by simpa using ratMath_sqrt_mul_self 1,
   (DataProcessor.velocity_scenario ratMath (by simpa using ratMath_sqrt_mul_self 1)
      (SkeletonMetrics.setAsset {} "") [("ball", 5)] 1 2 3 ⟨1, 0, 0, 0⟩ ⟨1, 0, 0, 0⟩
      ⟨1, 0, 0, 0⟩ [] [] []).2⟩
/-- The pass-through on a concrete input: rigid body 5 at `(3, 4, 0)` is the second rigid
body of the current frame, the settings hold one position metric with the labels `px`,
`py`, `pz`, `pw`. -/
theorem RigidBodyMetrics.position_orientation_pass_through_witness :
    ∃ data : MetricsData ℚ,
      positionSelected.computeMetricsForFrame ratMath
          (rigidFrame 7 2 [body 1 0 0 0, body 5 3 4 0])
          (rigidFrame 6 1 [body 1 0 0 0, body 5 0 0 0])
          (rigidFrame 5 0 [body 1 0 0 0, body 5 0 0 0]) = .ok data ∧
      data.id = 7 ∧
      (∀ (j : Nat) (hj : j < ["px", "py", "pz", "pw"].length), j < 3 →
        data.metrics.find? (["px", "py", "pz", "pw"].get ⟨j, hj⟩) =
          some ((if "position" = "position" then (body 5 3 4 0).position
                 else ratMath.toEulerAngles (body 5 3 4 0).orientation).component j)) ∧
      (∀ other : String, other ∉ ["px", "py", "pz", "pw"].take 3 →
        data.metrics.find? other = none) :=
  RigidBodyMetrics.position_orientation_pass_through ratMath positionSelected
    (rigidFrame 7 2 [body 1 0 0 0, body 5 3 4 0])
    (rigidFrame 6 1 [body 1 0 0 0, body 5 0 0 0])
    (rigidFrame 5 0 [body 1 0 0 0, body 5 0 0 0])
    (body 5 3 4 0) (body 5 0 0 0) (body 5 0 0 0) [body 1 0 0 0] []
    "position" [] ["px", "py", "pz", "pw"] (Or.inl rfl) rfl (by decide) (by decide) rfl
    (by decide) rfl rfl rfl

/-- C14: rigid body 5 is selected and is the second rigid body of the current frame, at
`(3, 4, 0)`; the settings hold one position metric with the labels `px`, `py`, `pz`, `pw`.
With a previous frame (or a second previous frame) that holds one rigid body only, the
calculator indexes that frame out of range at the index of the subject and returns no
result, although a position metric reads the current frame only; with the earlier frames
as long as the current one it returns the three components under `px`, `py`, `pz`. -/
theorem RigidBodyMetrics.position_metric_needs_earlier_frames :
    positionSelected.computeMetricsForFrame ratMath
        (rigidFrame 7 2 [body 1 0 0 0, body 5 3 4 0])
        (rigidFrame 6 1 [body 1 0 0 0])
        (rigidFrame 5 0 [body 1 0 0 0, body 5 0 0 0]) = .error .outOfRange ∧
    positionSelected.computeMetricsForFrame ratMath
        (rigidFrame 7 2 [body 1 0 0 0, body 5 3 4 0])
        (rigidFrame 6 1 [body 1 0 0 0, body 5 0 0 0])
        (rigidFrame 5 0 [body 1 0 0 0]) = .error .outOfRange ∧
    positionSelected.computeMetricsForFrame ratMath
        (rigidFrame 7 2 [body 1 0 0 0, body 5 3 4 0])
        (rigidFrame 6 1 [body 1 0 0 0, body 5 0 0 0])
        (rigidFrame 5 0 [body 1 0 0 0, body 5 0 0 0])
      = .ok { id := 7, metrics := ⟨[("pz", 0), ("py", 4), ("px", 3)]⟩ } :=
  ⟨rfl, rfl, rfl⟩

/-! ## Skeleton metric values over the real numbers -/

section RealValues

/-- C13: for two valid bone indices `computeForwardTilt`, with the real square root, returns
`100 * sqrt((x2 - x1)^2 + (z2 - z1)^2)` of the two bone positions; the value is not
negative, it is the same with the two bones exchanged, and it is the same for any skeleton
whose two bones have the same X and Z coordinates (whatever their Y coordinates). -/
theorem SkeletonMetrics.computeForwardTilt_distance
    (acos : ℝ → ℝ) (pi : ℝ) (toEulerAngles : QQuaternion ℝ → QVector3D ℝ)
    (skeleton other : SkeletonData ℝ) (i j : Nat) (bone1 bone2 moved1 moved2 : RigidBodyData ℝ)
    (h1 : skeleton.bones[i]? = some bone1) (h2 : skeleton.bones[j]? = some bone2)
    (g1 : other.bones[i]? = some moved1) (g2 : other.bones[j]? = some moved2)
    (hx1 : moved1.position.x = bone1.position.x) (hz1 : moved1.position.z = bone1.position.z)
    (hx2 : moved2.position.x = bone2.position.x) (hz2 : moved2.position.z = bone2.position.z) :
    SkeletonMetrics.computeForwardTilt ⟨Real.sqrt, acos, pi, toEulerAngles⟩ i j skeleton
      = .ok (100 * Real.sqrt ((bone2.position.x - bone1.position.x) ^ 2
          + (bone2.position.z - bone1.position.z) ^ 2)) ∧
    0 ≤ 100 * Real.sqrt ((bone2.position.x - bone1.position.x) ^ 2
          + (bone2.position.z - bone1.position.z) ^ 2) ∧
    SkeletonMetrics.computeForwardTilt ⟨Real.sqrt, acos, pi, toEulerAngles⟩ j i skeleton
      = SkeletonMetrics.computeForwardTilt ⟨Real.sqrt, acos, pi, toEulerAngles⟩ i j skeleton ∧
    SkeletonMetrics.computeForwardTilt ⟨Real.sqrt, acos, pi, toEulerAngles⟩ i j other
      = SkeletonMetrics.computeForwardTilt ⟨Real.sqrt, acos, pi, toEulerAngles⟩ i j
          skeleton := by
  have hi : ¬ ((i : Int) < 0) := by omega
  have hj : ¬ ((j : Int) < 0) := by omega
  have e : ∀ (s : SkeletonData ℝ) (a b : Nat) (p q : RigidBodyData ℝ),
      s.bones[a]? = some p → s.bones[b]? = some q →
      SkeletonMetrics.computeForwardTilt ⟨Real.sqrt, acos, pi, toEulerAngles⟩ a b s
        = .ok (100 * Real.sqrt ((q.position.x - p.position.x) ^ 2
            + (q.position.z - p.position.z) ^ 2)) := by
    intro s a b p q hp hq
    have ha : ¬ ((a : Int) < 0) := by omega
    have hb : ¬ ((b : Int) < 0) := by omega
    simp only [SkeletonMetrics.computeForwardTilt, SkeletonData.boneAt, ha, hb, if_false,
      Int.toNat_ofNat, hp, hq, bind, Except.bind, pure, Except.pure, pow_two]
    rw [mul_comm]
  refine ⟨e skeleton i j bone1 bone2 h1 h2, ?_, ?_, ?_⟩
  · exact mul_nonneg (by norm_num) (Real.sqrt_nonneg _)
  · rw [e skeleton j i bone2 bone1 h2 h1, e skeleton i j bone1 bone2 h1 h2]
    congr 3
    ring
  · rw [e other i j moved1 moved2 g1 g2, e skeleton i j bone1 bone2 h1 h2, hx1, hz1, hx2, hz2]

/-- Witness of C13: bones at `(0, 0, 0)` and `(3, 7, 4)` are 500 apart, also after the
second bone is moved to `(3, -2, 4)`. -/
theorem SkeletonMetrics.computeForwardTilt_distance_witness :
    SkeletonMetrics.computeForwardTilt ⟨Real.sqrt, Real.arccos, Real.pi, fun q => ⟨q.x, q.y, q.z⟩⟩
      ((0 : Nat) : Int) ((1 : Nat) : Int)
      ({ id := 1, bones := [{ position := ⟨0, 0, 0⟩, orientation := ⟨1, 0, 0, 0⟩ },
                            { position := ⟨3, -2, 4⟩, orientation := ⟨1, 0, 0, 0⟩ }] }
        : SkeletonData ℝ)
      = .ok (100 * Real.sqrt ((3 - 0) ^ 2 + (4 - 0) ^ 2)) :=
  ((SkeletonMetrics.computeForwardTilt_distance Real.arccos Real.pi (fun q => ⟨q.x, q.y, q.z⟩)
    { id := 1, bones := [{ position := ⟨0, 0, 0⟩, orientation := ⟨1, 0, 0, 0⟩ },
                          { position := ⟨3, 7, 4⟩, orientation := ⟨1, 0, 0, 0⟩ }] }
    { id := 1, bones := [{ position := ⟨0, 0, 0⟩, orientation := ⟨1, 0, 0, 0⟩ },
                          { position := ⟨3, -2, 4⟩, orientation := ⟨1, 0, 0, 0⟩ }] }
    0 1 _ _ _ _ rfl rfl rfl rfl rfl rfl rfl rfl).2.2.2.trans
   (SkeletonMetrics.computeForwardTilt_distance Real.arccos Real.pi
    (fun q => ⟨q.x, q.y, q.z⟩)
    { id := 1, bones := [{ position := ⟨0, 0, 0⟩, orientation := ⟨1, 0, 0, 0⟩ },
                          { position := ⟨3, 7, 4⟩, orientation := ⟨1, 0, 0, 0⟩ }] }
    { id := 1, bones := [{ position := ⟨0, 0, 0⟩, orientation := ⟨1, 0, 0, 0⟩ },
                          { position := ⟨3, -2, 4⟩, orientation := ⟨1, 0, 0, 0⟩ }] }
    0 1 _ _ _ _ rfl rfl rfl rfl rfl rfl rfl rfl).1)

end RealValues
section Angles

/-- The squared length of a product of quaternions is the product of the squared lengths. -/
theorem QQuaternion.lengthSquared_mul (a b : QQuaternion ℝ) :
    (a.mul b).lengthSquared = a.lengthSquared * b.lengthSquared := by
  simp only [QQuaternion.mul, QQuaternion.lengthSquared]
  ring

/-- Conjugation keeps the squared length. -/
theorem QQuaternion.lengthSquared_conjugated (a : QQuaternion ℝ) :
    a.conjugated.lengthSquared = a.lengthSquared := by
  simp only [QQuaternion.conjugated, QQuaternion.lengthSquared]
  ring

/-- For unit quaternions `computeJointAngle` is `2 * acos` of the scalar part of
`conj(q1) * q2`, in degrees. -/
theorem SkeletonMetrics.computeJointAngle_unit
    (toEulerAngles : QQuaternion ℝ → QVector3D ℝ) (q1 q2 : QQuaternion ℝ)
    (h1 : q1.lengthSquared = 1) (h2 : q2.lengthSquared = 1) :
    SkeletonMetrics.computeJointAngle ⟨Real.sqrt, Real.arccos, Real.pi, toEulerAngles⟩ q1 q2
      = 2 * Real.arccos (q1.conjugated.mul q2).scalar * (180 / Real.pi) := by
  have hlen : (q1.conjugated.mul q2).lengthSquared = 1 := by
    rw [QQuaternion.lengthSquared_mul, QQuaternion.lengthSquared_conjugated, h1, h2, mul_one]
  have hnorm : (q1.conjugated.mul q2).normalize Real.sqrt = q1.conjugated.mul q2 := by
    unfold QQuaternion.normalize
    have : (q1.conjugated.mul q2).x * (q1.conjugated.mul q2).x
        + (q1.conjugated.mul q2).y * (q1.conjugated.mul q2).y
        + (q1.conjugated.mul q2).z * (q1.conjugated.mul q2).z
        + (q1.conjugated.mul q2).scalar * (q1.conjugated.mul q2).scalar = 1 := hlen
    simp only [this, if_true]
  simp only [SkeletonMetrics.computeJointAngle, hnorm, qRadiansToDegrees]

/-- C12: for unit quaternions `q1`, `q2`, with the real square root, arc cosine and pi, the
conjugate of `q1` is its inverse, `computeJointAngle(q1, q2)` is `2 * acos` of the scalar
part of `q1⁻¹ * q2` converted to degrees, it is 0 for `q2 = q1`, and it is 90 when `q2` is
`q1` multiplied, on either side, by the quaternion `(cos 45°, sin 45° * u)` of the rotation
by 90 degrees about a unit axis `u`. -/
theorem SkeletonMetrics.computeJointAngle_degrees
    (toEulerAngles : QQuaternion ℝ → QVector3D ℝ) (q1 q2 : QQuaternion ℝ) (ux uy uz : ℝ)
    (h1 : q1.lengthSquared = 1) (h2 : q2.lengthSquared = 1)
    (hu : ux * ux + uy * uy + uz * uz = 1) :
    q1.conjugated.mul q1 = ⟨1, 0, 0, 0⟩ ∧ q1.mul q1.conjugated = ⟨1, 0, 0, 0⟩ ∧
    SkeletonMetrics.computeJointAngle ⟨Real.sqrt, Real.arccos, Real.pi, toEulerAngles⟩ q1 q2
      = 2 * Real.arccos (q1.conjugated.mul q2).scalar * (180 / Real.pi) ∧
    SkeletonMetrics.computeJointAngle ⟨Real.sqrt, Real.arccos, Real.pi, toEulerAngles⟩ q1 q1
      = 0 ∧
    SkeletonMetrics.computeJointAngle ⟨Real.sqrt, Real.arccos, Real.pi, toEulerAngles⟩ q1
        (q1.mul ⟨Real.cos (Real.pi / 4), Real.sin (Real.pi / 4) * ux,
          Real.sin (Real.pi / 4) * uy, Real.sin (Real.pi / 4) * uz⟩) = 90 ∧
    SkeletonMetrics.computeJointAngle ⟨Real.sqrt, Real.arccos, Real.pi, toEulerAngles⟩ q1
        (QQuaternion.mul ⟨Real.cos (Real.pi / 4), Real.sin (Real.pi / 4) * ux,
          Real.sin (Real.pi / 4) * uy, Real.sin (Real.pi / 4) * uz⟩ q1) = 90 := by
  have hq : q1.x * q1.x + q1.y * q1.y + q1.z * q1.z + q1.scalar * q1.scalar = 1 := h1
  have hr : (⟨Real.cos (Real.pi / 4), Real.sin (Real.pi / 4) * ux,
      Real.sin (Real.pi / 4) * uy, Real.sin (Real.pi / 4) * uz⟩ : QQuaternion ℝ).lengthSquared
      = 1 := by
    simp only [QQuaternion.lengthSquared]
    have hsc := Real.sin_sq_add_cos_sq (Real.pi / 4)
    nlinarith [hsc, hu]
  have hquarter : Real.arccos (Real.cos (Real.pi / 4)) = Real.pi / 4 :=
    Real.arccos_cos (by positivity) (by linarith [Real.pi_pos])
  have hninety : 2 * (Real.pi / 4) * (180 / Real.pi) = 90 := by
    field_simp
    ring
  refine ⟨?_, ?_, SkeletonMetrics.computeJointAngle_unit toEulerAngles q1 q2 h1 h2, ?_, ?_, ?_⟩
  · simp only [QQuaternion.mul, QQuaternion.conjugated, QQuaternion.mk.injEq]
    refine ⟨by linarith, by ring, by ring, by ring⟩
  · simp only [QQuaternion.mul, QQuaternion.conjugated, QQuaternion.mk.injEq]
    refine ⟨by linarith, by ring, by ring, by ring⟩
  · rw [SkeletonMetrics.computeJointAngle_unit toEulerAngles q1 q1 h1 h1]
    have hs : (q1.conjugated.mul q1).scalar = 1 := by
      simp only [QQuaternion.mul, QQuaternion.conjugated]
      linarith
    rw [hs, Real.arccos_one]
    simp
  · rw [SkeletonMetrics.computeJointAngle_unit toEulerAngles q1 _ h1
      (by rw [QQuaternion.lengthSquared_mul, h1, hr, mul_one])]
    have hs : (q1.conjugated.mul (q1.mul ⟨Real.cos (Real.pi / 4),
        Real.sin (Real.pi / 4) * ux, Real.sin (Real.pi / 4) * uy,
        Real.sin (Real.pi / 4) * uz⟩)).scalar = Real.cos (Real.pi / 4) := by
      simp only [QQuaternion.mul, QQuaternion.conjugated]
      linear_combination (Real.cos (Real.pi / 4)) * hq
    rw [hs, hquarter, hninety]
  · rw [SkeletonMetrics.computeJointAngle_unit toEulerAngles q1 _ h1
      (by rw [QQuaternion.lengthSquared_mul, h1, hr, mul_one])]
    have hs : (q1.conjugated.mul (QQuaternion.mul ⟨Real.cos (Real.pi / 4),
        Real.sin (Real.pi / 4) * ux, Real.sin (Real.pi / 4) * uy,
        Real.sin (Real.pi / 4) * uz⟩ q1)).scalar = Real.cos (Real.pi / 4) := by
      simp only [QQuaternion.mul, QQuaternion.conjugated]
      linear_combination (Real.cos (Real.pi / 4)) * hq
    rw [hs, hquarter, hninety]

/-- Witness of C12: the identity orientation and its rotation by 90 degrees about the Y
axis are 90 degrees apart. -/
theorem SkeletonMetrics.computeJointAngle_degrees_witness :
    SkeletonMetrics.computeJointAngle
        ⟨Real.sqrt, Real.arccos, Real.pi, fun q => ⟨q.x, q.y, q.z⟩⟩ (⟨1, 0, 0, 0⟩ : QQuaternion ℝ)
        (QQuaternion.mul ⟨1, 0, 0, 0⟩ ⟨Real.cos (Real.pi / 4), Real.sin (Real.pi / 4) * 0,
          Real.sin (Real.pi / 4) * 1, Real.sin (Real.pi / 4) * 0⟩) = 90 :=
  (SkeletonMetrics.computeJointAngle_degrees (fun q => ⟨q.x, q.y, q.z⟩) ⟨1, 0, 0, 0⟩
    ⟨1, 0, 0, 0⟩ 0 1 0 (by norm_num [QQuaternion.lengthSquared])
    (by norm_num [QQuaternion.lengthSquared]) (by norm_num)).2.2.2.2.1

end Angles
/-! ## Emissions of the data processor -/

section Emissions

variable {K : Type} [LinearOrderedField K]

/-- A delivery to a processor that lacks one of the two earlier frames emits nothing and
stores the frame. -/
theorem DataProcessor.onFramesUpdated_short_history (m : QtMath K) (self : DataProcessor K)
    (frame : FrameData K)
    (h : self.m_previousFrame = none ∨ self.m_secondPreviousFrame = none) :
    self.onFramesUpdated m frame =
      .ok ({ self with m_secondPreviousFrame := self.m_previousFrame
                       m_previousFrame := some frame }, none) := by
  unfold DataProcessor.onFramesUpdated
  rcases h with h | h
  · simp [h, pure, Except.pure]
  · cases hp : self.m_previousFrame <;> simp [h, pure, Except.pure]

/-- A delivery to a processor that holds two earlier frames emits the results of the two
calculators, when both return. -/
theorem DataProcessor.onFramesUpdated_full_history (m : QtMath K) (self : DataProcessor K)
    (frame previous secondPrevious : FrameData K) (rb skel : MetricsData K)
    (hp : self.m_previousFrame = some previous)
    (hs : self.m_secondPreviousFrame = some secondPrevious)
    (hrb : self.rigidBodyMetrics.computeMetricsForFrame m frame previous secondPrevious
      = .ok rb)
    (hskel : self.skeletonMetrics.computeMetricsForFrame m frame = .ok skel) :
    self.onFramesUpdated m frame =
      .ok ({ self with m_secondPreviousFrame := self.m_previousFrame
                       m_previousFrame := some frame }, some (rb, skel)) := by
  unfold DataProcessor.onFramesUpdated
  simp [hp, hs, hrb, hskel, bind, Except.bind, pure, Except.pure]

/-- A run of deliveries to a processor that holds two earlier frames emits one value per
frame, when no calculator faults. -/
theorem DataProcessor.deliver_length_full (m : QtMath K) (frames : List (FrameData K)) :
    ∀ (self final : DataProcessor K) (out : List (MetricsData K × MetricsData K)),
      self.m_previousFrame ≠ none → self.m_secondPreviousFrame ≠ none →
      self.deliver m frames = .ok (final, out) → out.length = frames.length := by
  induction frames with
  | nil =>
    intro self final out _ _ h
    simp only [DataProcessor.deliver, pure, Except.pure, Except.ok.injEq, Prod.mk.injEq] at h
    rw [← h.2]
    rfl
  | cons frame rest ih =>
    intro self final out hp hs h
    obtain ⟨previous, hp'⟩ := Option.ne_none_iff_exists'.mp hp
    obtain ⟨secondPrevious, hs'⟩ := Option.ne_none_iff_exists'.mp hs
    unfold DataProcessor.deliver at h
    cases h1 : self.onFramesUpdated m frame with
    | error e => simp [h1, bind, Except.bind] at h
    | ok r1 =>
      obtain ⟨next, emitted⟩ := r1
      cases h2 : DataProcessor.deliver m next rest with
      | error e => simp [h1, h2, bind, Except.bind] at h
      | ok r2 =>
        obtain ⟨last, later⟩ := r2
        simp only [h1, h2, bind, Except.bind, pure, Except.pure, Except.ok.injEq,
          Prod.mk.injEq] at h
        have hstate := DataProcessor.onFramesUpdated_state m self next frame emitted h1
        have hlater := ih next last later (by rw [hstate]; simp)
          (by rw [hstate]; simp [hp']) h2
        have hem : ∃ v, emitted = some v := by
          unfold DataProcessor.onFramesUpdated at h1
          simp only [hp', hs'] at h1
          cases hrb : self.rigidBodyMetrics.computeMetricsForFrame m frame previous
              secondPrevious with
          | error e => simp [hrb, bind, Except.bind] at h1
          | ok rb =>
            cases hsk : self.skeletonMetrics.computeMetricsForFrame m frame with
            | error e => simp [hrb, hsk, bind, Except.bind] at h1
            | ok sk =>
              simp only [hrb, hsk, bind, Except.bind, pure, Except.pure, Except.ok.injEq,
                Prod.mk.injEq] at h1
              exact ⟨_, h1.2.symm⟩
        obtain ⟨v, rfl⟩ := hem
        rw [← h.2]
        simp [hlater]

/-- C15, as amended: a delivery to a processor that lacks one of the two earlier frames
emits nothing; a delivery to a processor that holds two earlier frames emits exactly one
`metricsComputed` result, the pair of the two calculator results, when both calculators
return; so a run of `n` deliveries that starts without frame history and does not fault
emits `n - 2` results. -/
theorem DataProcessor.emissions_per_delivery (m : QtMath K) (self : DataProcessor K)
    (frame : FrameData K) (frames : List (FrameData K)) :
    ((self.m_previousFrame = none ∨ self.m_secondPreviousFrame = none) →
      self.onFramesUpdated m frame =
        .ok ({ self with m_secondPreviousFrame := self.m_previousFrame
                         m_previousFrame := some frame }, none)) ∧
    (∀ (previous secondPrevious : FrameData K) (rb skel : MetricsData K),
      self.m_previousFrame = some previous →
      self.m_secondPreviousFrame = some secondPrevious →
      self.rigidBodyMetrics.computeMetricsForFrame m frame previous secondPrevious = .ok rb →
      self.skeletonMetrics.computeMetricsForFrame m frame = .ok skel →
      self.onFramesUpdated m frame =
        .ok ({ self with m_secondPreviousFrame := self.m_previousFrame
                         m_previousFrame := some frame }, some (rb, skel))) ∧
    (∀ (final : DataProcessor K) (out : List (MetricsData K × MetricsData K)),
      self.m_previousFrame = none → self.m_secondPreviousFrame = none →
      self.deliver m frames = .ok (final, out) → out.length = frames.length - 2) := by
  refine ⟨DataProcessor.onFramesUpdated_short_history m self frame, ?_, ?_⟩
  · intro previous secondPrevious rb skel hp hs hrb hskel
    exact DataProcessor.onFramesUpdated_full_history m self frame previous secondPrevious
      rb skel hp hs hrb hskel
  · intro final out hp hs h
    match frames, h with
    | [], h =>
      simp only [DataProcessor.deliver, pure, Except.pure, Except.ok.injEq,
        Prod.mk.injEq] at h
      rw [← h.2]; rfl
    | [f1], h =>
      rw [DataProcessor.deliver,
        DataProcessor.onFramesUpdated_short_history m self f1 (Or.inl hp)] at h
      simp only [DataProcessor.deliver, bind, Except.bind, pure, Except.pure,
        Except.ok.injEq, Prod.mk.injEq] at h
      rw [← h.2]; rfl
    | f1 :: f2 :: rest, h =>
      have g1 := DataProcessor.onFramesUpdated_short_history m self f1 (Or.inl hp)
      have g2 := DataProcessor.onFramesUpdated_short_history m
        ({ self with m_secondPreviousFrame := self.m_previousFrame
                     m_previousFrame := some f1 } : DataProcessor K) f2
        (Or.inr (by simpa using hp))
      rw [DataProcessor.deliver_two m self _ _ f1 f2 rest none none g1 g2] at h
      cases hd : DataProcessor.deliver m
          ({ self with m_secondPreviousFrame := some f1, m_previousFrame := some f2 }
            : DataProcessor K) rest with
      | error e => rw [hd] at h; simp [Except.map] at h
      | ok r =>
        rw [hd] at h
        simp only [Except.map, Option.toList, List.nil_append, Except.ok.injEq,
          Prod.mk.injEq] at h
        have hl := DataProcessor.deliver_length_full m rest _ r.1 r.2 (by simp) (by simp) hd
        rw [← h.2, hl]
        simp

end Emissions

/-- Witness of C15 as amended: the three-frame session emits `3 - 2 = 1` result. -/
theorem DataProcessor.emissions_per_delivery_witness :
    ([emission 3 3] : List (MetricsData ℚ × MetricsData ℚ)).length = sessionFrames.length - 2 :=
  (DataProcessor.emissions_per_delivery ratMath sessionProcessor (sessionFrame 1 1)
    sessionFrames).2.2 liveProcessor [emission 3 3] rfl rfl rfl

/-- Counterexample to C15 as stated: the first and the second delivery to a processor
without frame history emit no `metricsComputed` result. -/
theorem DataProcessor.first_deliveries_emit_nothing :
    DataProcessor.onFramesUpdated ratMath sessionProcessor (sessionFrame 1 1)
      = .ok ({ sessionProcessor with m_previousFrame := some (sessionFrame 1 1) }, none) ∧
    DataProcessor.onFramesUpdated ratMath
        { sessionProcessor with m_previousFrame := some (sessionFrame 1 1) }
        (sessionFrame 2 2)
      = .ok ({ sessionProcessor with
                m_previousFrame := some (sessionFrame 2 2)
                m_secondPreviousFrame := some (sessionFrame 1 1) }, none) :=
  ⟨rfl, rfl⟩

/-! ## Take files: frames -/

section TakeFrames

variable {K : Type} [LinearOrderedField K] [FloorRing K]

/-- An `int` written as a JSON number is read back by `toInt`. -/
theorem QJsonValue.toInt_intCast (n : Int) (h : isInt32 n) :
    (QJsonValue.double (n : K)).toInt = n := by
  simp only [QJsonValue.toInt, Int.floor_intCast, true_and]
  rw [if_pos h]

/-- A rigid body written by `saveTake` is read back by `parseFrames`. -/
theorem ReplayController.rigidBodyFromJson_toJson (rb : RigidBodyData K)
    (h : rb.IntFields) :
    ReplayController.rigidBodyFromJson (ReplayController.rigidBodyToJson rb) = rb := by
  obtain ⟨id, parentId, ⟨px, py, pz⟩, ⟨qs, qx, qy, qz⟩⟩ := rb
  have hid : (QJsonValue.double (id : K)).toInt = id := QJsonValue.toInt_intCast id h.1
  have hpid : (QJsonValue.double (parentId : K)).toInt = parentId :=
    QJsonValue.toInt_intCast parentId h.2
  simp [ReplayController.rigidBodyFromJson, ReplayController.rigidBodyToJson, assocInsert,
    QJsonObject.value, assocLookup, QJsonValue.toObject, QJsonValue.toArray,
    QJsonValue.toDouble, QJsonArray.at, hid, hpid]

/-- A skeleton written by `saveTake` is read back by `parseFrames`. -/
theorem ReplayController.skeletonFromJson_toJson (skeleton : SkeletonData K)
    (h : skeleton.IntFields) :
    ReplayController.skeletonFromJson (ReplayController.skeletonToJson skeleton)
      = skeleton := by
  obtain ⟨id, bones⟩ := skeleton
  have hid : (QJsonValue.double (id : K)).toInt = id := QJsonValue.toInt_intCast id h.1
  have hbones : (bones.map ReplayController.rigidBodyToJson).map
      ReplayController.rigidBodyFromJson = bones := by
    rw [List.map_map]
    conv_rhs => rw [← List.map_id bones]
    exact List.map_congr_left
      (fun b hb => ReplayController.rigidBodyFromJson_toJson b (h.2 b hb))
  simp [ReplayController.skeletonFromJson, ReplayController.skeletonToJson, assocInsert,
    QJsonObject.value, assocLookup, QJsonValue.toObject, QJsonValue.toArray, hid, hbones]

/-- A frame written by `saveTake` is read back by `parseFrames`. -/
theorem ReplayController.frameFromJson_toJson (frame : FrameData K) (h : frame.IntFields) :
    ReplayController.frameFromJson (ReplayController.frameToJson frame) = frame := by
  obtain ⟨frameNumber, timestamp, rigidBodies, skeletons⟩ := frame
  have hn : (QJsonValue.double (frameNumber : K)).toInt = frameNumber :=
    QJsonValue.toInt_intCast frameNumber h.1
  have hrb : (rigidBodies.map ReplayController.rigidBodyToJson).map
      ReplayController.rigidBodyFromJson = rigidBodies := by
    rw [List.map_map]
    conv_rhs => rw [← List.map_id rigidBodies]
    exact List.map_congr_left
      (fun b hb => ReplayController.rigidBodyFromJson_toJson b (h.2.1 b hb))
  have hsk : (skeletons.map ReplayController.skeletonToJson).map
      ReplayController.skeletonFromJson = skeletons := by
    rw [List.map_map]
    conv_rhs => rw [← List.map_id skeletons]
    exact List.map_congr_left
      (fun s hs => ReplayController.skeletonFromJson_toJson s (h.2.2 s hs))
  simp [ReplayController.frameFromJson, ReplayController.frameToJson, assocInsert,
    QJsonObject.value, assocLookup, QJsonValue.toObject, QJsonValue.toArray,
    QJsonValue.toDouble, hn, hrb, hsk]

/-- C16: for every list of frames whose `int` members are in the range of `int`, reading
with `parseFrames` the JSON array that `saveTake` writes for the list gives the list back,
frame for frame in the same order; a controller whose index covers its saved frames (as
`saveStream` leaves it) writes an array from which any controller loads exactly those
frames; and the orientation of a rigid body is written as the array `[x, y, z, w]`. -/
theorem ReplayController.parseFrames_saveTake (frames : List (FrameData K))
    (self loader : ReplayController K) (rb : RigidBodyData K)
    (hframes : ∀ frame ∈ frames, frame.IntFields)
    (hsaved : ∀ frame ∈ self.m_savedFrames, frame.IntFields)
    (hindex : self.m_savedFrames.length ≤ self.m_currentIndex) :
    (frames.map ReplayController.frameToJson).map ReplayController.frameFromJson = frames ∧
    (loader.parseFramesJson self.framesToJson).m_savedFrames = self.m_savedFrames ∧
    QJsonObject.value (ReplayController.rigidBodyToJson rb).toObject "orientation"
      = .array [.double rb.orientation.x, .double rb.orientation.y,
          .double rb.orientation.z, .double rb.orientation.scalar] := by
  have hmap : ∀ l : List (FrameData K), (∀ frame ∈ l, frame.IntFields) →
      (l.map ReplayController.frameToJson).map ReplayController.frameFromJson = l := by
    intro l hl
    rw [List.map_map]
    conv_rhs => rw [← List.map_id l]
    exact List.map_congr_left (fun f hf => ReplayController.frameFromJson_toJson f (hl f hf))
  refine ⟨hmap frames hframes, ?_, ?_⟩
  · simp only [ReplayController.parseFramesJson, ReplayController.parseFrames,
      ReplayController.framesToJson, ReplayController.saveTake, List.take_of_length_le hindex]
    exact hmap _ hsaved
  · simp [ReplayController.rigidBodyToJson, assocInsert, QJsonObject.value, assocLookup,
      QJsonValue.toObject]

end TakeFrames
/-! ## Take files: id maps -/

section Strings

/-- A decimal digit character is read back as its digit. -/
theorem QString.digitValue_digitChar (d : Nat) (h : d < 10) :
    QString.digitValue (QString.digitChar d) = some d := by
  interval_cases d <;> rfl

/-- A decimal digit character is not the minus sign. -/
theorem QString.digitChar_ne_minus (d : Nat) (h : d < 10) : QString.digitChar d ≠ '-' := by
  interval_cases d <;> decide

/-- Reading the characters of a list of decimal digits continues the number read so far. -/
theorem QString.readDigits_map (digits : List Nat) :
    ∀ acc : Nat, (∀ d ∈ digits, d < 10) →
      QString.readDigits (digits.map QString.digitChar) acc
        = some (acc * 10 ^ digits.length + Nat.ofDigits 10 digits.reverse) := by
  induction digits with
  | nil => intro acc _; simp [QString.readDigits]
  | cons d rest ih =>
    intro acc h
    have hd : d < 10 := h d (List.mem_cons_self _ _)
    have hrest : ∀ x ∈ rest, x < 10 := fun x hx => h x (List.mem_cons_of_mem _ hx)
    simp only [List.map_cons, QString.readDigits, QString.digitValue_digitChar d hd,
      ih (acc * 10 + d) hrest, List.length_cons, List.reverse_cons, Nat.ofDigits_append,
      Nat.ofDigits_singleton, List.length_reverse, Option.some.injEq]
    ring

/-- The decimal digits of a number are digits, there is at least one, and they read back
as the number. -/
theorem QString.decimalDigits_spec (k : Nat) :
    (∀ d ∈ QString.decimalDigits k, d < 10) ∧ QString.decimalDigits k ≠ [] ∧
      Nat.ofDigits 10 (QString.decimalDigits k).reverse = k := by
  unfold QString.decimalDigits
  by_cases hk : k = 0
  · subst hk; simp
  · simp only [hk, if_false, List.mem_reverse, List.reverse_reverse, ne_eq,
      List.reverse_eq_nil_iff]
    refine ⟨fun d hd => Nat.digits_lt_base (by norm_num) hd, ?_, Nat.ofDigits_digits 10 k⟩
    exact fun h => hk (Nat.digits_eq_nil_iff_eq_zero.mp h)

/-- The digits of a number are read back as the number. -/
theorem QString.readDigits_decimalDigits (k : Nat) :
    QString.readDigits ((QString.decimalDigits k).map QString.digitChar) 0 = some k := by
  have h := QString.decimalDigits_spec k
  rw [QString.readDigits_map _ 0 h.1, h.2.2]
  simp

/-- An `int` written by `QString::number` is read back by `QString::toInt`. -/
theorem QString.toInt_number (n : Int) (h : isInt32 n) :
    QString.toInt (QString.number n) = n := by
  have hspec := QString.decimalDigits_spec n.natAbs
  have hread := QString.readDigits_decimalDigits n.natAbs
  obtain ⟨d, rest, hdr⟩ : ∃ d rest, QString.decimalDigits n.natAbs = d :: rest := by
    cases hl : QString.decimalDigits n.natAbs with
    | nil => exact absurd hl hspec.2.1
    | cons d rest => exact ⟨d, rest, rfl⟩
  have hd : d < 10 := hspec.1 d (by rw [hdr]; exact List.mem_cons_self _ _)
  rw [hdr, List.map_cons] at hread
  by_cases hneg : n < 0
  · have hval : -((n.natAbs : Nat) : Int) = n := by omega
    have hne : ¬ (QString.digitChar d :: rest.map QString.digitChar = []) := by simp
    simp only [QString.toInt, QString.number, hneg, if_true, hdr, List.map_cons,
      List.singleton_append, hne, if_false, hread, Option.map_some', hval]
    rw [if_pos h]
  · have hval : ((n.natAbs : Nat) : Int) = n := by omega
    simp only [QString.toInt, QString.number, hneg, if_false, hdr, List.map_cons,
      List.nil_append, QString.digitChar_ne_minus d hd, hread, Option.map_some', hval]
    rw [if_pos h]

end Strings
section Maps

variable {α β : Type} [DecidableEq α]

/-- The entries after `container[key] = value`: the new entry, and the old entries of the
other keys. -/
theorem mem_assocInsert (entries : List (α × β)) (key : α) (value : β) (p : α × β) :
    p ∈ assocInsert entries key value ↔ p = (key, value) ∨ (p.1 ≠ key ∧ p ∈ entries) := by
  simp only [assocInsert, List.mem_cons, List.mem_filter, decide_eq_true_eq]
  tauto

/-- Assignment keeps the keys pairwise distinct. -/
theorem assocInsert_nodup (entries : List (α × β)) (key : α) (value : β)
    (h : (entries.map Prod.fst).Nodup) :
    ((assocInsert entries key value).map Prod.fst).Nodup := by
  simp only [assocInsert, List.map_cons, List.nodup_cons, List.mem_map, List.mem_filter,
    decide_eq_true_eq, not_exists, not_and]
  refine ⟨fun p hp hk => hp.2 hk, ?_⟩
  exact (List.Nodup.sublist (List.Sublist.map _ (List.filter_sublist _)) h)

/-- Assigning the entries of a list with pairwise distinct keys one after the other: the
result holds these entries, and the initial entries whose key is not assigned. -/
theorem mem_foldl_assocInsert (entries : List (α × β)) :
    ∀ (init : List (α × β)) (q : α × β), (entries.map Prod.fst).Nodup →
      (q ∈ entries.foldl (fun acc p => assocInsert acc p.1 p.2) init ↔
        q ∈ entries ∨ (q ∈ init ∧ ∀ p ∈ entries, p.1 ≠ q.1)) := by
  induction entries with
  | nil => intro init q _; simp
  | cons p rest ih =>
    intro init q hnd
    have hnd' : p.1 ∉ rest.map Prod.fst ∧ (rest.map Prod.fst).Nodup :=
      List.nodup_cons.mp hnd
    rw [List.foldl_cons, ih _ q hnd'.2, mem_assocInsert]
    constructor
    · rintro (h | ⟨h | ⟨hk, hi⟩, hall⟩)
      · exact Or.inl (List.mem_cons_of_mem _ h)
      · exact Or.inl (by rw [h]; exact List.mem_cons_self _ _)
      · refine Or.inr ⟨hi, fun r hr => ?_⟩
        rcases List.mem_cons.mp hr with rfl | hr
        · exact fun h => hk h.symm
        · exact hall r hr
    · rintro (h | ⟨hi, hall⟩)
      · rcases List.mem_cons.mp h with rfl | h
        · refine Or.inr ⟨Or.inl rfl, fun r hr hk => hnd'.1 ?_⟩
          exact List.mem_map.mpr ⟨r, hr, hk⟩
        · exact Or.inl h
      · refine Or.inr ⟨Or.inr ⟨fun h => hall p (List.mem_cons_self _ _) h.symm, hi⟩, ?_⟩
        exact fun r hr => hall r (List.mem_cons_of_mem _ hr)

/-- Assigning entries one after the other into an empty container gives pairwise distinct
keys. -/
theorem foldl_assocInsert_nodup (entries : List (α × β)) :
    ∀ init : List (α × β), (init.map Prod.fst).Nodup →
      ((entries.foldl (fun acc p => assocInsert acc p.1 p.2) init).map Prod.fst).Nodup := by
  induction entries with
  | nil => intro init h; simpa using h
  | cons p rest ih =>
    intro init h
    rw [List.foldl_cons]
    exact ih _ (assocInsert_nodup init p.1 p.2 h)

/-- In a list with pairwise distinct keys the value found under the key of an entry is the
value of that entry. -/
theorem assocLookup_of_mem (entries : List (α × β)) (key : α) (value : β)
    (hnd : (entries.map Prod.fst).Nodup) (h : (key, value) ∈ entries) :
    assocLookup entries key = some value := by
  induction entries with
  | nil => simp at h
  | cons p rest ih =>
    have hnd' : p.1 ∉ rest.map Prod.fst ∧ (rest.map Prod.fst).Nodup :=
      List.nodup_cons.mp hnd
    rcases List.mem_cons.mp h with rfl | h
    · simp [assocLookup]
    · have hne : p.1 ≠ key := fun hk => hnd'.1 (List.mem_map.mpr ⟨(key, value), h, hk.symm⟩)
      have := ih hnd'.2 h
      simpa [assocLookup, List.find?_cons, hne] using this

end Maps

section IdMaps

variable {K : Type} {β γ : Type}

/-- Writing a map with `int` keys as a JSON object (member `QString::number(key)` holds the
encoded value) and reading the object back (entry `key.toInt()` holds the decoded member):
the result has pairwise distinct keys and holds exactly the entries of the map, each value
encoded and decoded. -/
theorem idMap_codec (source : List (Int × β)) (enc : β → QJsonValue K)
    (dec : QJsonValue K → γ) (hnd : (source.map Prod.fst).Nodup)
    (hrange : ∀ e ∈ source, isInt32 e.1) (o : QJsonObject K)
    (ho : o = source.foldl (fun o e => assocInsert o (QString.number e.1) (enc e.2)) []) :
    (((QJsonObject.keys o).foldl
        (fun m key => assocInsert m (QString.toInt key) (dec (QJsonObject.value o key)))
        []).map Prod.fst).Nodup ∧
    ∀ (id : Int) (c : γ),
      (id, c) ∈ (QJsonObject.keys o).foldl
          (fun m key => assocInsert m (QString.toInt key) (dec (QJsonObject.value o key))) []
        ↔ ∃ b, (id, b) ∈ source ∧ c = dec (enc b) := by
  -- the written object, as a list of assignments
  have hsrc : o = (source.map (fun e => (QString.number e.1, enc e.2))).foldl
      (fun acc p => assocInsert acc p.1 p.2) [] := by
    rw [ho, List.foldl_map]
  have hinj : ∀ a ∈ source, ∀ b ∈ source,
      QString.number a.1 = QString.number b.1 → a.1 = b.1 := by
    intro a ha b hb h
    rw [← QString.toInt_number a.1 (hrange a ha), h, QString.toInt_number b.1 (hrange b hb)]
  have hkeys : ((source.map (fun e => (QString.number e.1, enc e.2))).map Prod.fst).Nodup := by
    rw [List.map_map]
    have : (Prod.fst ∘ fun e : Int × β => (QString.number e.1, enc e.2))
        = fun e => QString.number e.1 := rfl
    rw [this]
    have hn : source.Nodup := List.Nodup.of_map _ hnd
    refine List.Nodup.map_on ?_ hn
    intro a ha b hb h
    have hab := hinj a ha b hb h
    exact (List.inj_on_of_nodup_map hnd) ha hb hab
  have hmem : ∀ q : String × QJsonValue K,
      q ∈ o ↔ ∃ e ∈ source, q = (QString.number e.1, enc e.2) := by
    intro q
    rw [hsrc, mem_foldl_assocInsert _ [] q hkeys]
    simp only [List.mem_map, List.not_mem_nil, false_and, or_false]
    constructor
    · rintro ⟨e, he, rfl⟩; exact ⟨e, he, rfl⟩
    · rintro ⟨e, he, rfl⟩; exact ⟨e, he, rfl⟩
  have honodup : (o.map Prod.fst).Nodup := by
    rw [hsrc]
    exact foldl_assocInsert_nodup _ [] (by simp)
  -- the read map, as a list of assignments
  have hparse : (QJsonObject.keys o).foldl
      (fun m key => assocInsert m (QString.toInt key) (dec (QJsonObject.value o key))) []
      = (o.map (fun p => (QString.toInt p.1, dec p.2))).foldl
          (fun acc p => assocInsert acc p.1 p.2) [] := by
    have hval : o.map (fun p => (QString.toInt p.1, dec (QJsonObject.value o p.1)))
        = o.map (fun p => (QString.toInt p.1, dec p.2)) := by
      refine List.map_congr_left (fun p hp => ?_)
      have := assocLookup_of_mem o p.1 p.2 honodup hp
      simp [QJsonObject.value, this]
    rw [← hval, List.foldl_map, QJsonObject.keys, List.foldl_map]
  have hpkeys : ((o.map (fun p => (QString.toInt p.1, dec p.2))).map Prod.fst).Nodup := by
    rw [List.map_map]
    have : (Prod.fst ∘ fun p : String × QJsonValue K => (QString.toInt p.1, dec p.2))
        = fun p => QString.toInt p.1 := rfl
    rw [this]
    have hn : o.Nodup := List.Nodup.of_map _ honodup
    refine List.Nodup.map_on ?_ hn
    intro a ha b hb h
    obtain ⟨ea, hea, rfl⟩ := (hmem a).mp ha
    obtain ⟨eb, heb, rfl⟩ := (hmem b).mp hb
    simp only at h
    rw [QString.toInt_number _ (hrange ea hea), QString.toInt_number _ (hrange eb heb)] at h
    have hkey : (QString.number ea.1, enc ea.2).1 = (QString.number eb.1, enc eb.2).1 := by
      simp [h]
    exact (List.inj_on_of_nodup_map honodup) ha hb hkey
  rw [hparse]
  refine ⟨foldl_assocInsert_nodup _ [] (by simp), fun id c => ?_⟩
  rw [mem_foldl_assocInsert _ [] (id, c) hpkeys]
  simp only [List.mem_map, List.not_mem_nil, false_and, or_false, Prod.mk.injEq]
  constructor
  · rintro ⟨p, hp, hid, hc⟩
    obtain ⟨e, he, rfl⟩ := (hmem p).mp hp
    simp only at hid hc
    rw [QString.toInt_number _ (hrange e he)] at hid
    exact ⟨e.2, by rw [← hid]; exact he, hc.symm⟩
  · rintro ⟨b, hb, rfl⟩
    refine ⟨(QString.number id, enc b), (hmem _).mpr ⟨(id, b), hb, rfl⟩, ?_, rfl⟩
    exact QString.toInt_number id (hrange (id, b) hb)

end IdMaps
section TakeMaps

variable {K : Type}

/-- An id-to-name map written by `saveTake` and read by `parseIdMaps` has pairwise distinct
keys and the entries of the original map. -/
theorem ReplayController.idMapFromJson_toJson (map : IdToName)
    (h : IdToName.WellFormed map) :
    ((ReplayController.idMapFromJson
        (ReplayController.idMapToJson map : QJsonObject K)).map Prod.fst).Nodup ∧
    ∀ (id : Int) (name : String),
      (id, name) ∈ ReplayController.idMapFromJson
          (ReplayController.idMapToJson map : QJsonObject K)
        ↔ (id, name) ∈ map := by
  have hc := idMap_codec (K := K) map QJsonValue.string QJsonValue.toString h.1 h.2
    (ReplayController.idMapToJson map) rfl
  refine ⟨hc.1, fun id name => ?_⟩
  have hid : (id, name) ∈ ReplayController.idMapFromJson
      (ReplayController.idMapToJson map : QJsonObject K)
      ↔ ∃ b, (id, b) ∈ map ∧ name = (QJsonValue.string b : QJsonValue K).toString :=
    hc.2 id name
  rw [hid]
  constructor
  · rintro ⟨b, hb, rfl⟩; exact hb
  · intro hm; exact ⟨name, hm, rfl⟩

/-- The bone maps written by `saveTake` and read by `parseIdMaps`: pairwise distinct
skeleton ids, and an entry for exactly the skeleton ids of the original, holding the bone
map of that skeleton written and read. -/
theorem ReplayController.boneMapFromJson_toJson (bones : BoneIdToName)
    (h : BoneIdToName.WellFormed bones) :
    ((ReplayController.boneMapFromJson
        (ReplayController.boneMapToJson bones : QJsonObject K)).map Prod.fst).Nodup ∧
    ∀ (id : Int) (sub : IdToName),
      (id, sub) ∈ ReplayController.boneMapFromJson
          (ReplayController.boneMapToJson bones : QJsonObject K)
        ↔ ∃ original, (id, original) ∈ bones ∧
            sub = ReplayController.idMapFromJson
              (ReplayController.idMapToJson original : QJsonObject K) := by
  have hc := idMap_codec (K := K) bones
    (fun sub => QJsonValue.object (ReplayController.idMapToJson sub))
    (fun v => ReplayController.idMapFromJson v.toObject) h.1 (fun e he => (h.2 e he).1)
    (ReplayController.boneMapToJson bones) rfl
  exact ⟨hc.1, fun id sub => hc.2 id sub⟩

end TakeMaps

section TakeMapsDocument

variable {K : Type} [LinearOrderedField K]

/-- C17: for well-formed maps (pairwise distinct ids in the range of `int`, negative ones
included), the maps that `parseIdMaps` reads from the root object written by `saveTake`
are maps again (pairwise distinct keys) and hold exactly the entries of the original
maps: the same (id, name) pairs for rigid bodies and for skeletons, the same skeleton ids
in the bone map, and for every skeleton the same (bone id, name) pairs. -/
theorem ReplayController.parseIdMaps_saveTake (self : ReplayController K)
    (rigidBodies skeletons : IdToName) (bones : BoneIdToName)
    (hr : IdToName.WellFormed rigidBodies) (hs : IdToName.WellFormed skeletons)
    (hb : BoneIdToName.WellFormed bones) :
    (((ReplayController.parseIdMaps
        (self.takeDocument rigidBodies skeletons bones)).rigidBodyMap.map Prod.fst).Nodup ∧
      ∀ (id : Int) (name : String),
        (id, name) ∈ (ReplayController.parseIdMaps
            (self.takeDocument rigidBodies skeletons bones)).rigidBodyMap
          ↔ (id, name) ∈ rigidBodies) ∧
    (((ReplayController.parseIdMaps
        (self.takeDocument rigidBodies skeletons bones)).skeletonMap.map Prod.fst).Nodup ∧
      ∀ (id : Int) (name : String),
        (id, name) ∈ (ReplayController.parseIdMaps
            (self.takeDocument rigidBodies skeletons bones)).skeletonMap
          ↔ (id, name) ∈ skeletons) ∧
    ((ReplayController.parseIdMaps
        (self.takeDocument rigidBodies skeletons bones)).boneMap.map Prod.fst).Nodup ∧
    (∀ skeletonId : Int,
      (∃ sub, (skeletonId, sub) ∈ (ReplayController.parseIdMaps
          (self.takeDocument rigidBodies skeletons bones)).boneMap)
        ↔ ∃ original, (skeletonId, original) ∈ bones) ∧
    (∀ (skeletonId : Int) (sub : IdToName),
      (skeletonId, sub) ∈ (ReplayController.parseIdMaps
          (self.takeDocument rigidBodies skeletons bones)).boneMap →
      (sub.map Prod.fst).Nodup ∧
        ∃ original, (skeletonId, original) ∈ bones ∧
          ∀ (boneId : Int) (name : String),
            (boneId, name) ∈ sub ↔ (boneId, name) ∈ original) := by
  have e1 : (ReplayController.parseIdMaps
      (self.takeDocument rigidBodies skeletons bones)).rigidBodyMap
      = ReplayController.idMapFromJson
          (ReplayController.idMapToJson rigidBodies : QJsonObject K) := by
    simp [ReplayController.parseIdMaps, ReplayController.takeDocument, assocInsert,
      QJsonObject.value, assocLookup, QJsonValue.toObject]
  have e2 : (ReplayController.parseIdMaps
      (self.takeDocument rigidBodies skeletons bones)).skeletonMap
      = ReplayController.idMapFromJson
          (ReplayController.idMapToJson skeletons : QJsonObject K) := by
    simp [ReplayController.parseIdMaps, ReplayController.takeDocument, assocInsert,
      QJsonObject.value, assocLookup, QJsonValue.toObject]
  have e3 : (ReplayController.parseIdMaps
      (self.takeDocument rigidBodies skeletons bones)).boneMap
      = ReplayController.boneMapFromJson
          (ReplayController.boneMapToJson bones : QJsonObject K) := by
    simp [ReplayController.parseIdMaps, ReplayController.takeDocument, assocInsert,
      QJsonObject.value, assocLookup, QJsonValue.toObject]
  have hbm := ReplayController.boneMapFromJson_toJson (K := K) bones hb
  rw [e1, e2, e3]
  refine ⟨ReplayController.idMapFromJson_toJson rigidBodies hr,
    ReplayController.idMapFromJson_toJson skeletons hs, hbm.1, ?_, ?_⟩
  · intro skeletonId
    constructor
    · rintro ⟨sub, hsub⟩
      obtain ⟨original, ho, _⟩ := (hbm.2 skeletonId sub).mp hsub
      exact ⟨original, ho⟩
    · rintro ⟨original, ho⟩
      exact ⟨_, (hbm.2 skeletonId _).mpr ⟨original, ho, rfl⟩⟩
  · intro skeletonId sub hsub
    obtain ⟨original, ho, rfl⟩ := (hbm.2 skeletonId sub).mp hsub
    have hsubmap := ReplayController.idMapFromJson_toJson (K := K) original (hb.2 _ ho).2
    exact ⟨hsubmap.1, original, ho, hsubmap.2⟩

end TakeMapsDocument
/-- Witness of C16: the three session frames are written and read back. -/
theorem ReplayController.parseFrames_saveTake_witness :
    (sessionFrames.map ReplayController.frameToJson).map ReplayController.frameFromJson
      = sessionFrames ∧
    (ReplayController.parseFramesJson ({} : ReplayController ℚ)
      sessionTake.framesToJson).m_savedFrames = sessionTake.m_savedFrames ∧
    QJsonObject.value (ReplayController.rigidBodyToJson (body 5 1 0 0)).toObject "orientation"
      = .array [.double (body 5 1 0 0).orientation.x, .double (body 5 1 0 0).orientation.y,
          .double (body 5 1 0 0).orientation.z, .double (body 5 1 0 0).orientation.scalar] :=
  ReplayController.parseFrames_saveTake sessionFrames sessionTake {} (body 5 1 0 0)
    (by norm_num [sessionFrames, sessionFrame, shortSkeleton, body, FrameData.IntFields,
      RigidBodyData.IntFields, SkeletonData.IntFields, isInt32])
    (by norm_num [sessionTake, sessionFrames, sessionFrame, shortSkeleton, body,
      FrameData.IntFields, RigidBodyData.IntFields, SkeletonData.IntFields, isInt32])
    (by decide)

/-- Witness of C17: the maps with the ids 5 and -3 are written and read back. -/
theorem ReplayController.parseIdMaps_saveTake_witness :
    (-3, "bat") ∈ (ReplayController.parseIdMaps
      (sessionTake.takeDocument exampleRigidBodyMap exampleSkeletonMap
        exampleBoneMap)).rigidBodyMap :=
  ((ReplayController.parseIdMaps_saveTake sessionTake exampleRigidBodyMap exampleSkeletonMap
    exampleBoneMap
    (by norm_num [IdToName.WellFormed, exampleRigidBodyMap, isInt32])
    (by norm_num [IdToName.WellFormed, exampleSkeletonMap, isInt32])
    (by
      norm_num [BoneIdToName.WellFormed, IdToName.WellFormed, exampleBoneMap, isInt32]
      rintro a b (⟨rfl, _⟩ | ⟨rfl, _⟩) <;> norm_num)).1.2
      (-3) "bat").mpr (by simp [exampleRigidBodyMap])

/-! ## Double arithmetic of the play speed -/

section Rounding

variable {K : Type} [LinearOrderedField K] [FloorRing K]

/-- The binade of a positive number, from its two bounds. -/
theorem log_two_eq (x : K) (e : Int) (hlo : (2 : K) ^ e ≤ x) (hhi : x < (2 : K) ^ (e + 1)) :
    Int.log 2 x = e := by
  have hx : 0 < x := lt_of_lt_of_le (by positivity) hlo
  have h1 : e ≤ Int.log 2 x := by
    rw [← Int.zpow_le_iff_le_log (by norm_num) hx]
    simpa using hlo
  have h2 : Int.log 2 x < e + 1 := by
    rw [← Int.lt_zpow_iff_log_lt (by norm_num) hx]
    simpa using hhi
  omega

/-- Evaluation of the rounding: in the binade `2 ^ e ≤ x < 2 ^ (e + 1)` above the
subnormal range, a grid point `n * 2 ^ (e - 52)` less than half a spacing from `x` is the
result. -/
theorem roundToDouble_of_near (x : K) (e n : Int) (he : -1022 ≤ e)
    (hlo : (2 : K) ^ e ≤ x) (hhi : x < (2 : K) ^ (e + 1))
    (hn : |x / 2 ^ (e - 52) - n| < 1 / 2) (hfin : (n : K) * 2 ^ (e - 52) < 2 ^ 1024) :
    roundToDouble x = some ((n : K) * 2 ^ (e - 52)) := by
  have hx : 0 < x := lt_of_lt_of_le (by positivity) hlo
  have hlog := log_two_eq x e hlo hhi
  have hne : x ≠ 0 := ne_of_gt hx
  obtain ⟨h1, h2⟩ := abs_lt.mp hn
  unfold roundToDouble
  simp only [if_neg hne, abs_of_pos hx, hlog, max_eq_left he]
  have hnear : (if x / 2 ^ (e - 52) - (⌊x / (2 : K) ^ (e - 52)⌋ : K) < 1 / 2 then
        ⌊x / (2 : K) ^ (e - 52)⌋
      else if 1 / 2 < x / 2 ^ (e - 52) - (⌊x / (2 : K) ^ (e - 52)⌋ : K) then
        ⌊x / (2 : K) ^ (e - 52)⌋ + 1
      else if ⌊x / (2 : K) ^ (e - 52)⌋ % 2 = 0 then ⌊x / (2 : K) ^ (e - 52)⌋
      else ⌊x / (2 : K) ^ (e - 52)⌋ + 1) = n := by
    by_cases hle : (n : K) ≤ x / 2 ^ (e - 52)
    · have hf : ⌊x / (2 : K) ^ (e - 52)⌋ = n := by
        rw [Int.floor_eq_iff]
        constructor
        · exact hle
        · linarith
      rw [hf, if_pos (by linarith)]
    · push_neg at hle
      have hf : ⌊x / (2 : K) ^ (e - 52)⌋ = n - 1 := by
        rw [Int.floor_eq_iff]
        push_cast
        constructor <;> linarith
      rw [hf]
      push_cast
      rw [if_neg (by linarith), if_pos (by linarith)]
      ring
  rw [hnear, if_neg (not_le.mpr hfin), if_pos (le_of_lt hx)]

/-- In the normal range the rounding returns a `double` within relative error `2 ^ -53`. -/
theorem roundToDouble_normal (x : K) (hlo : (1 : K) / 2 ^ 1022 ≤ x) (hhi : x < 2 ^ 1023) :
    ∃ r : K, roundToDouble x = some r ∧ |r - x| ≤ x / 2 ^ 53 := by
  have hx : 0 < x := lt_of_lt_of_le (by positivity) hlo
  have hne : x ≠ 0 := ne_of_gt hx
  have he1 : -1022 ≤ Int.log 2 x := by
    rw [← Int.zpow_le_iff_le_log (by norm_num) hx]
    have : ((2 : ℕ) : K) ^ (-1022 : Int) = 1 / 2 ^ 1022 := by
      rw [zpow_neg]; norm_num
    rw [this]; exact hlo
  have hle : (2 : K) ^ Int.log 2 x ≤ x := by
    simpa using Int.zpow_log_le_self (b := 2) (by norm_num) hx
  have hulp : (0 : K) < 2 ^ (Int.log 2 x - 52) := by positivity
  have hhalf : (2 : K) ^ (Int.log 2 x - 52) / 2 ≤ x / 2 ^ 53 := by
    have h : (2 : K) ^ (Int.log 2 x - 52) = 2 ^ Int.log 2 x / 2 ^ 52 := by
      rw [zpow_sub₀ (two_ne_zero)]; norm_num
    rw [h, div_div]
    have h53 : (2 : K) ^ 52 * 2 = 2 ^ 53 := by norm_num
    rw [h53]
    exact div_le_div_of_nonneg_right hle (by positivity)
  unfold roundToDouble
  simp only [if_neg hne, abs_of_pos hx, max_eq_left he1, if_pos (le_of_lt hx)]
  set ulp : K := 2 ^ (Int.log 2 x - 52) with hulpdef
  set scaled : K := x / ulp with hscaled
  have hfl := Int.floor_le scaled
  have hfl2 := Int.lt_floor_add_one scaled
  have hxs : x = scaled * ulp := by
    rw [hscaled, div_mul_cancel₀ _ (ne_of_gt hulp)]
  have key : ∀ n : Int, |(n : K) - scaled| ≤ 1 / 2 →
      ∃ r : K, (if (2 : K) ^ 1024 ≤ (n : K) * ulp then none else some ((n : K) * ulp)) = some r ∧
        |r - x| ≤ x / 2 ^ 53 := by
    intro n hn
    have herr : |(n : K) * ulp - x| ≤ x / 2 ^ 53 := by
      have : (n : K) * ulp - x = ((n : K) - scaled) * ulp := by rw [hxs]; ring
      rw [this, abs_mul, abs_of_pos hulp]
      calc |(n : K) - scaled| * ulp ≤ 1 / 2 * ulp :=
            mul_le_mul_of_nonneg_right hn (le_of_lt hulp)
        _ = ulp / 2 := by ring
        _ ≤ x / 2 ^ 53 := hhalf
    have hfin : ¬ (2 : K) ^ 1024 ≤ (n : K) * ulp := by
      rw [not_le]
      have h1 := (abs_le.mp herr).2
      have h2 : x / 2 ^ 53 ≤ x := div_le_self (le_of_lt hx) (by norm_num)
      have h3 : (2 : K) ^ 1024 = 2 ^ 1023 + 2 ^ 1023 := by norm_num
      linarith
    exact ⟨_, if_neg hfin, herr⟩
  by_cases h1 : scaled - (⌊scaled⌋ : K) < 1 / 2
  · rw [if_pos h1]
    exact key _ (by rw [abs_le]; constructor <;> linarith)
  · rw [if_neg h1]
    by_cases h2 : 1 / 2 < scaled - (⌊scaled⌋ : K)
    · rw [if_pos h2]
      exact key _ (by push_cast; rw [abs_le]; constructor <;> linarith)
    · rw [if_neg h2]
      by_cases h3 : ⌊scaled⌋ % 2 = 0
      · rw [if_pos h3]
        exact key _ (by rw [abs_le]; constructor <;> linarith)
      · rw [if_neg h3]
        exact key _ (by push_cast; rw [abs_le]; constructor <;> linarith)

/-- The `double` of a positive percentage and the scale factor computed from it: the
scale factor is within two roundings of `p / 100`. -/
theorem scaleFactor_near (p : K) (hmax : p ≤ 2 ^ 1000)
    (hplo : (100 : K) / (2 ^ 31 - 1) ≤ p) :
    ∃ d s : K, roundToDouble p = some d ∧ roundToDouble (d / 100) = some s ∧
      p * ((1 - 1 / 2 ^ 53) * (1 - 1 / 2 ^ 53) / 100) ≤ s ∧
      s ≤ p * ((1 + 1 / 2 ^ 53) * (1 + 1 / 2 ^ 53) / 100) := by
  obtain ⟨d, hd, hderr⟩ := roundToDouble_normal p
    (le_trans (by norm_num) hplo) (lt_of_le_of_lt hmax (by norm_num))
  obtain ⟨hd1, hd2⟩ := abs_le.mp hderr
  have hdlo : p * (1 - 1 / 2 ^ 53) ≤ d := by linarith
  have hdhi : d ≤ p * (1 + 1 / 2 ^ 53) := by linarith
  have hx2lo : (1 : K) / 2 ^ 1022 ≤ d / 100 := by
    have h2 : (100 : K) / (2 ^ 31 - 1) * (1 - 1 / 2 ^ 53) ≤ p * (1 - 1 / 2 ^ 53) :=
      mul_le_mul_of_nonneg_right hplo (by norm_num)
    rw [le_div_iff₀ (by norm_num)]
    refine le_trans ?_ (le_trans h2 hdlo)
    norm_num
  have hx2hi : d / 100 < 2 ^ 1023 := by
    rw [div_lt_iff₀ (by norm_num)]
    have h2 : p * (1 + 1 / 2 ^ 53) ≤ 2 ^ 1000 * (1 + 1 / 2 ^ 53) :=
      mul_le_mul_of_nonneg_right hmax (by norm_num)
    refine lt_of_le_of_lt (le_trans hdhi h2) ?_
    norm_num
  obtain ⟨s, hs, hserr⟩ := roundToDouble_normal (d / 100) hx2lo hx2hi
  obtain ⟨hs1, hs2⟩ := abs_le.mp hserr
  refine ⟨d, s, hd, hs, ?_, ?_⟩
  · have h1 : d / 100 * (1 - 1 / 2 ^ 53) ≤ s := by linarith
    have h3 : p * (1 - 1 / 2 ^ 53) / 100 * (1 - 1 / 2 ^ 53) ≤ d / 100 * (1 - 1 / 2 ^ 53) :=
      mul_le_mul_of_nonneg_right (div_le_div_of_nonneg_right hdlo (by norm_num)) (by norm_num)
    calc p * ((1 - 1 / 2 ^ 53) * (1 - 1 / 2 ^ 53) / 100)
        = p * (1 - 1 / 2 ^ 53) / 100 * (1 - 1 / 2 ^ 53) := by ring
      _ ≤ d / 100 * (1 - 1 / 2 ^ 53) := h3
      _ ≤ s := h1
  · have h1 : s ≤ d / 100 * (1 + 1 / 2 ^ 53) := by linarith
    have h3 : d / 100 * (1 + 1 / 2 ^ 53) ≤ p * (1 + 1 / 2 ^ 53) / 100 * (1 + 1 / 2 ^ 53) :=
      mul_le_mul_of_nonneg_right (div_le_div_of_nonneg_right hdhi (by norm_num)) (by norm_num)
    calc s ≤ d / 100 * (1 + 1 / 2 ^ 53) := h1
      _ ≤ p * (1 + 1 / 2 ^ 53) / 100 * (1 + 1 / 2 ^ 53) := h3
      _ = p * ((1 + 1 / 2 ^ 53) * (1 + 1 / 2 ^ 53) / 100) := by ring

/-- The quotient `1 / scaleFactor` as a `double`: its product with the scale factor is
within one rounding of 1. -/
theorem quotient_near (p s : K) (hp : 0 < p) (hmax : p ≤ 2 ^ 1000)
    (hplo : (100 : K) / (2 ^ 31 - 1) ≤ p)
    (hslo : p * ((1 - 1 / 2 ^ 53) * (1 - 1 / 2 ^ 53) / 100) ≤ s)
    (hshi : s ≤ p * ((1 + 1 / 2 ^ 53) * (1 + 1 / 2 ^ 53) / 100)) :
    ∃ q : K, roundToDouble (1 / s) = some q ∧ 0 ≤ q ∧ 0 < s ∧
      1 - 1 / 2 ^ 53 ≤ q * s ∧ q * s ≤ 1 + 1 / 2 ^ 53 := by
  have hspos : 0 < s := lt_of_lt_of_le (mul_pos hp (by norm_num)) hslo
  have hsne : s ≠ 0 := ne_of_gt hspos
  have hx3lo : (1 : K) / 2 ^ 1022 ≤ 1 / s := by
    rw [div_le_div_iff₀ (by positivity) hspos]
    have h2 : p * ((1 + 1 / 2 ^ 53) * (1 + 1 / 2 ^ 53) / 100) ≤
        2 ^ 1000 * ((1 + 1 / 2 ^ 53) * (1 + 1 / 2 ^ 53) / 100) :=
      mul_le_mul_of_nonneg_right hmax (by norm_num)
    have h3 : (2 : K) ^ 1000 * ((1 + 1 / 2 ^ 53) * (1 + 1 / 2 ^ 53) / 100) ≤ 2 ^ 1022 := by
      norm_num
    linarith
  have hx3hi : 1 / s < 2 ^ 1023 := by
    rw [div_lt_iff₀ hspos]
    have h2 : (100 : K) / (2 ^ 31 - 1) * ((1 - 1 / 2 ^ 53) * (1 - 1 / 2 ^ 53) / 100) ≤
        p * ((1 - 1 / 2 ^ 53) * (1 - 1 / 2 ^ 53) / 100) :=
      mul_le_mul_of_nonneg_right hplo (by norm_num)
    have h3 : (1 : K) / 2 ^ 1023 <
        100 / (2 ^ 31 - 1) * ((1 - 1 / 2 ^ 53) * (1 - 1 / 2 ^ 53) / 100) := by norm_num
    have h4 : (1 : K) / 2 ^ 1023 < s := by linarith
    rw [div_lt_iff₀ (by positivity)] at h4
    linarith
  obtain ⟨q, hq, hqerr⟩ := roundToDouble_normal (1 / s) hx3lo hx3hi
  obtain ⟨hq1, hq2⟩ := abs_le.mp hqerr
  have hinv : 0 < 1 / s := by positivity
  have hcancel : ∀ c : K, 1 / s * c * s = c := by
    intro c
    rw [mul_comm (1 / s) c, mul_assoc, one_div, inv_mul_cancel₀ hsne, mul_one]
  refine ⟨q, hq, ?_, hspos, ?_, ?_⟩
  · have : 1 / s / 2 ^ 53 ≤ 1 / s := div_le_self (le_of_lt hinv) (by norm_num)
    linarith
  · have h : 1 / s * (1 - 1 / 2 ^ 53) ≤ q := by linarith
    calc 1 - 1 / 2 ^ 53 = 1 / s * (1 - 1 / 2 ^ 53) * s := (hcancel _).symm
      _ ≤ q * s := mul_le_mul_of_nonneg_right h (le_of_lt hspos)
  · have h : q ≤ 1 / s * (1 + 1 / 2 ^ 53) := by linarith
    calc q * s ≤ 1 / s * (1 + 1 / 2 ^ 53) * s := mul_le_mul_of_nonneg_right h (le_of_lt hspos)
      _ = 1 + 1 / 2 ^ 53 := hcancel _

/-- The interval computed for the `double` of a positive percentage in the range where the
result fits an `int`: the integer part of a quotient within relative error `2 ^ -50` of
`100 / p`. -/
theorem ReplayController.intervalFromPlaySpeed_near (p : K) (hp : 0 < p) (hmax : p ≤ 2 ^ 1000)
    (hint : 100 / p ≤ 2 ^ 31 - 1) :
    ∃ q : K, 0 ≤ q ∧ |q - 100 / p| ≤ 100 / p / 2 ^ 50 ∧
      ReplayController.intervalFromPlaySpeed p = .ok ⌊q⌋ := by
  have hplo : (100 : K) / (2 ^ 31 - 1) ≤ p := by
    rw [div_le_iff₀ (by norm_num)]
    rw [div_le_iff₀ hp] at hint
    linarith
  obtain ⟨d, s, hd, hs, hslo, hshi⟩ := scaleFactor_near p hmax hplo
  obtain ⟨q, hq, hqpos, hspos, hqs_lo, hqs_hi⟩ := quotient_near p s hp hmax hplo hslo hshi
  have hsne : s ≠ 0 := ne_of_gt hspos
  have hpne : p ≠ 0 := ne_of_gt hp
  have hupper : q ≤ 100 / p * (1 + 1 / 2 ^ 50) := by
    have h1 : q * (p * ((1 - 1 / 2 ^ 53) * (1 - 1 / 2 ^ 53) / 100)) ≤ 1 + 1 / 2 ^ 53 :=
      le_trans (mul_le_mul_of_nonneg_left hslo hqpos) hqs_hi
    have hc : (0 : K) < (1 - 1 / 2 ^ 53) * (1 - 1 / 2 ^ 53) / 100 := by norm_num
    have h2 : q * p ≤ (1 + 1 / 2 ^ 53) / ((1 - 1 / 2 ^ 53) * (1 - 1 / 2 ^ 53) / 100) := by
      rw [le_div_iff₀ hc]
      calc q * p * ((1 - 1 / 2 ^ 53) * (1 - 1 / 2 ^ 53) / 100)
          = q * (p * ((1 - 1 / 2 ^ 53) * (1 - 1 / 2 ^ 53) / 100)) := by ring
        _ ≤ 1 + 1 / 2 ^ 53 := h1
    have h3 : (1 + 1 / 2 ^ 53) / ((1 - 1 / 2 ^ 53) * (1 - 1 / 2 ^ 53) / 100) ≤
        (100 : K) * (1 + 1 / 2 ^ 50) := by norm_num
    have h4 : q * p ≤ 100 * (1 + 1 / 2 ^ 50) := le_trans h2 h3
    calc q = q * p / p := (mul_div_cancel_right₀ q hpne).symm
      _ ≤ 100 * (1 + 1 / 2 ^ 50) / p := div_le_div_of_nonneg_right h4 (le_of_lt hp)
      _ = 100 / p * (1 + 1 / 2 ^ 50) := by ring
  have hlower : 100 / p * (1 - 1 / 2 ^ 50) ≤ q := by
    have h1 : 1 - 1 / 2 ^ 53 ≤ q * (p * ((1 + 1 / 2 ^ 53) * (1 + 1 / 2 ^ 53) / 100)) :=
      le_trans hqs_lo (mul_le_mul_of_nonneg_left hshi hqpos)
    have hc : (0 : K) < (1 + 1 / 2 ^ 53) * (1 + 1 / 2 ^ 53) / 100 := by norm_num
    have h2 : (1 - 1 / 2 ^ 53) / ((1 + 1 / 2 ^ 53) * (1 + 1 / 2 ^ 53) / 100) ≤ q * p := by
      rw [div_le_iff₀ hc]
      calc 1 - 1 / 2 ^ 53 ≤ q * (p * ((1 + 1 / 2 ^ 53) * (1 + 1 / 2 ^ 53) / 100)) := h1
        _ = q * p * ((1 + 1 / 2 ^ 53) * (1 + 1 / 2 ^ 53) / 100) := by ring
    have h3 : (100 : K) * (1 - 1 / 2 ^ 50) ≤
        (1 - 1 / 2 ^ 53) / ((1 + 1 / 2 ^ 53) * (1 + 1 / 2 ^ 53) / 100) := by norm_num
    have h4 : 100 * (1 - 1 / 2 ^ 50) ≤ q * p := le_trans h3 h2
    calc 100 / p * (1 - 1 / 2 ^ 50) = 100 * (1 - 1 / 2 ^ 50) / p := by ring
      _ ≤ q * p / p := div_le_div_of_nonneg_right h4 (le_of_lt hp)
      _ = q := mul_div_cancel_right₀ q hpne
  have hrange : isInt32 ⌊q⌋ := by
    constructor
    · have : (0 : Int) ≤ ⌊q⌋ := Int.floor_nonneg.mpr hqpos
      omega
    · rw [Int.floor_lt]
      have h1 : 100 / p * (1 + 1 / 2 ^ 50) ≤ (2 ^ 31 - 1) * (1 + 1 / 2 ^ 50) :=
        mul_le_mul_of_nonneg_right hint (by norm_num)
      have h2 : ((2 : K) ^ 31 - 1) * (1 + 1 / 2 ^ 50) < 2 ^ 31 := by norm_num
      push_cast
      linarith
  refine ⟨q, hqpos, ?_, ?_⟩
  · rw [abs_le]
    constructor
    · have : 100 / p * (1 - 1 / 2 ^ 50) = 100 / p - 100 / p / 2 ^ 50 := by ring
      linarith
    · have : 100 / p * (1 + 1 / 2 ^ 50) = 100 / p + 100 / p / 2 ^ 50 := by ring
      linarith
  · simp only [ReplayController.intervalFromPlaySpeed, hd, hs, hq, if_neg hsne, staticCastInt, if_pos hqpos,
      if_pos hrange]

/-- The interval computed from the three roundings of the play-speed computation. -/
theorem ReplayController.intervalFromPlaySpeed_of_roundings (p d s q : K) (n : Int)
    (hd : roundToDouble p = some d) (hs : roundToDouble (d / 100) = some s) (hs0 : s ≠ 0)
    (hq : roundToDouble (1 / s) = some q) (hq0 : 0 ≤ q) (hn : ⌊q⌋ = n) (hr : isInt32 n) :
    ReplayController.intervalFromPlaySpeed p = .ok n := by
  simp only [ReplayController.intervalFromPlaySpeed, hd, hs, hq, if_neg hs0, staticCastInt,
    if_pos hq0, hn, if_pos hr]

/-- The interval computed for the play speed text `100%` is 1. -/
theorem ReplayController.intervalFromPlaySpeed_hundred :
    ReplayController.intervalFromPlaySpeed (100 : K) = .ok 1 := by
  have hd : roundToDouble (100 : K) =
      some (100) := by
    rw [roundToDouble_of_near
      (100 : K) (6) 7036874417766400
     
      (by norm_num) (by norm_num) (by norm_num)
      (by rw [abs_lt]; constructor <;> norm_num) (by norm_num)]
    norm_num
  have hs : roundToDouble ((100 : K) / 100) =
      some (1) := by
    rw [roundToDouble_of_near
      ((100) / 100 : K) (0) 4503599627370496
     
      (by norm_num) (by norm_num) (by norm_num)
      (by rw [abs_lt]; constructor <;> norm_num) (by norm_num)]
    norm_num
  have hq : roundToDouble (1 / (1 : K)) =
      some (1) := by
    rw [roundToDouble_of_near
      (1 / (1) : K) (0) 4503599627370496
     
      (by norm_num) (by norm_num) (by norm_num)
      (by rw [abs_lt]; constructor <;> norm_num) (by norm_num)]
    norm_num
  exact ReplayController.intervalFromPlaySpeed_of_roundings _ _ _ _ 1 hd hs (by norm_num) hq
    (by norm_num) (by rw [Int.floor_eq_iff]; constructor <;> norm_num)
    (by constructor <;> norm_num)

/-- The interval computed for the play speed text `50%` is 2. -/
theorem ReplayController.intervalFromPlaySpeed_fifty :
    ReplayController.intervalFromPlaySpeed (50 : K) = .ok 2 := by
  have hd : roundToDouble (50 : K) =
      some (50) := by
    rw [roundToDouble_of_near
      (50 : K) (5) 7036874417766400
     
      (by norm_num) (by norm_num) (by norm_num)
      (by rw [abs_lt]; constructor <;> norm_num) (by norm_num)]
    norm_num
  have hs : roundToDouble ((50 : K) / 100) =
      some (1 / 2) := by
    rw [roundToDouble_of_near
      ((50) / 100 : K) (-1) 4503599627370496
     
      (by norm_num) (by norm_num) (by norm_num)
      (by rw [abs_lt]; constructor <;> norm_num) (by norm_num)]
    norm_num
  have hq : roundToDouble (1 / (1 / 2 : K)) =
      some (2) := by
    rw [roundToDouble_of_near
      (1 / (1 / 2) : K) (1) 4503599627370496
     
      (by norm_num) (by norm_num) (by norm_num)
      (by rw [abs_lt]; constructor <;> norm_num) (by norm_num)]
    norm_num
  exact ReplayController.intervalFromPlaySpeed_of_roundings _ _ _ _ 2 hd hs (by norm_num) hq
    (by norm_num) (by rw [Int.floor_eq_iff]; constructor <;> norm_num)
    (by constructor <;> norm_num)

/-- The interval computed for the play speed text `25%` is 4. -/
theorem ReplayController.intervalFromPlaySpeed_twenty_five :
    ReplayController.intervalFromPlaySpeed (25 : K) = .ok 4 := by
  have hd : roundToDouble (25 : K) =
      some (25) := by
    rw [roundToDouble_of_near
      (25 : K) (4) 7036874417766400
     
      (by norm_num) (by norm_num) (by norm_num)
      (by rw [abs_lt]; constructor <;> norm_num) (by norm_num)]
    norm_num
  have hs : roundToDouble ((25 : K) / 100) =
      some (1 / 4) := by
    rw [roundToDouble_of_near
      ((25) / 100 : K) (-2) 4503599627370496
     
      (by norm_num) (by norm_num) (by norm_num)
      (by rw [abs_lt]; constructor <;> norm_num) (by norm_num)]
    norm_num
  have hq : roundToDouble (1 / (1 / 4 : K)) =
      some (4) := by
    rw [roundToDouble_of_near
      (1 / (1 / 4) : K) (2) 4503599627370496
     
      (by norm_num) (by norm_num) (by norm_num)
      (by rw [abs_lt]; constructor <;> norm_num) (by norm_num)]
    norm_num
  exact ReplayController.intervalFromPlaySpeed_of_roundings _ _ _ _ 4 hd hs (by norm_num) hq
    (by norm_num) (by rw [Int.floor_eq_iff]; constructor <;> norm_num)
    (by constructor <;> norm_num)

/-- The interval computed for the play speed text `12.5%` is 8. -/
theorem ReplayController.intervalFromPlaySpeed_twelve_and_half :
    ReplayController.intervalFromPlaySpeed (25 / 2 : K) = .ok 8 := by
  have hd : roundToDouble (25 / 2 : K) =
      some (25 / 2) := by
    rw [roundToDouble_of_near
      (25 / 2 : K) (3) 7036874417766400
     
      (by norm_num) (by norm_num) (by norm_num)
      (by rw [abs_lt]; constructor <;> norm_num) (by norm_num)]
    norm_num
  have hs : roundToDouble ((25 / 2 : K) / 100) =
      some (1 / 8) := by
    rw [roundToDouble_of_near
      ((25 / 2) / 100 : K) (-3) 4503599627370496
     
      (by norm_num) (by norm_num) (by norm_num)
      (by rw [abs_lt]; constructor <;> norm_num) (by norm_num)]
    norm_num
  have hq : roundToDouble (1 / (1 / 8 : K)) =
      some (8) := by
    rw [roundToDouble_of_near
      (1 / (1 / 8) : K) (3) 4503599627370496
     
      (by norm_num) (by norm_num) (by norm_num)
      (by rw [abs_lt]; constructor <;> norm_num) (by norm_num)]
    norm_num
  exact ReplayController.intervalFromPlaySpeed_of_roundings _ _ _ _ 8 hd hs (by norm_num) hq
    (by norm_num) (by rw [Int.floor_eq_iff]; constructor <;> norm_num)
    (by constructor <;> norm_num)

/-- The interval computed for the play speed text `10%` is 10. -/
theorem ReplayController.intervalFromPlaySpeed_ten :
    ReplayController.intervalFromPlaySpeed (10 : K) = .ok 10 := by
  have hd : roundToDouble (10 : K) =
      some (10) := by
    rw [roundToDouble_of_near
      (10 : K) (3) 5629499534213120
     
      (by norm_num) (by norm_num) (by norm_num)
      (by rw [abs_lt]; constructor <;> norm_num) (by norm_num)]
    norm_num
  have hs : roundToDouble ((10 : K) / 100) =
      some (3602879701896397 / 36028797018963968) := by
    rw [roundToDouble_of_near
      ((10) / 100 : K) (-4) 7205759403792794
     
      (by norm_num) (by norm_num) (by norm_num)
      (by rw [abs_lt]; constructor <;> norm_num) (by norm_num)]
    norm_num
  have hq : roundToDouble (1 / (3602879701896397 / 36028797018963968 : K)) =
      some (10) := by
    rw [roundToDouble_of_near
      (1 / (3602879701896397 / 36028797018963968) : K) (3) 5629499534213120
     
      (by norm_num) (by norm_num) (by norm_num)
      (by rw [abs_lt]; constructor <;> norm_num) (by norm_num)]
    norm_num
  exact ReplayController.intervalFromPlaySpeed_of_roundings _ _ _ _ 10 hd hs (by norm_num) hq
    (by norm_num) (by rw [Int.floor_eq_iff]; constructor <;> norm_num)
    (by constructor <;> norm_num)

/-- The interval computed for the play speed text `5%` is 20. -/
theorem ReplayController.intervalFromPlaySpeed_five :
    ReplayController.intervalFromPlaySpeed (5 : K) = .ok 20 := by
  have hd : roundToDouble (5 : K) =
      some (5) := by
    rw [roundToDouble_of_near
      (5 : K) (2) 5629499534213120
     
      (by norm_num) (by norm_num) (by norm_num)
      (by rw [abs_lt]; constructor <;> norm_num) (by norm_num)]
    norm_num
  have hs : roundToDouble ((5 : K) / 100) =
      some (3602879701896397 / 72057594037927936) := by
    rw [roundToDouble_of_near
      ((5) / 100 : K) (-5) 7205759403792794
     
      (by norm_num) (by norm_num) (by norm_num)
      (by rw [abs_lt]; constructor <;> norm_num) (by norm_num)]
    norm_num
  have hq : roundToDouble (1 / (3602879701896397 / 72057594037927936 : K)) =
      some (20) := by
    rw [roundToDouble_of_near
      (1 / (3602879701896397 / 72057594037927936) : K) (4) 5629499534213120
     
      (by norm_num) (by norm_num) (by norm_num)
      (by rw [abs_lt]; constructor <;> norm_num) (by norm_num)]
    norm_num
  exact ReplayController.intervalFromPlaySpeed_of_roundings _ _ _ _ 20 hd hs (by norm_num) hq
    (by norm_num) (by rw [Int.floor_eq_iff]; constructor <;> norm_num)
    (by constructor <;> norm_num)

/-- The interval computed for the play speed text `75%` is 1. -/
theorem ReplayController.intervalFromPlaySpeed_seventy_five :
    ReplayController.intervalFromPlaySpeed (75 : K) = .ok 1 := by
  have hd : roundToDouble (75 : K) =
      some (75) := by
    rw [roundToDouble_of_near
      (75 : K) (6) 5277655813324800
     
      (by norm_num) (by norm_num) (by norm_num)
      (by rw [abs_lt]; constructor <;> norm_num) (by norm_num)]
    norm_num
  have hs : roundToDouble ((75 : K) / 100) =
      some (3 / 4) := by
    rw [roundToDouble_of_near
      ((75) / 100 : K) (-1) 6755399441055744
     
      (by norm_num) (by norm_num) (by norm_num)
      (by rw [abs_lt]; constructor <;> norm_num) (by norm_num)]
    norm_num
  have hq : roundToDouble (1 / (3 / 4 : K)) =
      some (6004799503160661 / 4503599627370496) := by
    rw [roundToDouble_of_near
      (1 / (3 / 4) : K) (0) 6004799503160661
     
      (by norm_num) (by norm_num) (by norm_num)
      (by rw [abs_lt]; constructor <;> norm_num) (by norm_num)]
    norm_num
  exact ReplayController.intervalFromPlaySpeed_of_roundings _ _ _ _ 1 hd hs (by norm_num) hq
    (by norm_num) (by rw [Int.floor_eq_iff]; constructor <;> norm_num)
    (by constructor <;> norm_num)

/-- The interval computed for the play speed text `200%` is 0. -/
theorem ReplayController.intervalFromPlaySpeed_two_hundred :
    ReplayController.intervalFromPlaySpeed (200 : K) = .ok 0 := by
  have hd : roundToDouble (200 : K) =
      some (200) := by
    rw [roundToDouble_of_near
      (200 : K) (7) 7036874417766400
     
      (by norm_num) (by norm_num) (by norm_num)
      (by rw [abs_lt]; constructor <;> norm_num) (by norm_num)]
    norm_num
  have hs : roundToDouble ((200 : K) / 100) =
      some (2) := by
    rw [roundToDouble_of_near
      ((200) / 100 : K) (1) 4503599627370496
     
      (by norm_num) (by norm_num) (by norm_num)
      (by rw [abs_lt]; constructor <;> norm_num) (by norm_num)]
    norm_num
  have hq : roundToDouble (1 / (2 : K)) =
      some (1 / 2) := by
    rw [roundToDouble_of_near
      (1 / (2) : K) (-1) 4503599627370496
     
      (by norm_num) (by norm_num) (by norm_num)
      (by rw [abs_lt]; constructor <;> norm_num) (by norm_num)]
    norm_num
  exact ReplayController.intervalFromPlaySpeed_of_roundings _ _ _ _ 0 hd hs (by norm_num) hq
    (by norm_num) (by rw [Int.floor_eq_iff]; constructor <;> norm_num)
    (by constructor <;> norm_num)

/-- The interval computed for the play speed text `0.032%` is 3124. -/
theorem ReplayController.intervalFromPlaySpeed_thirty_two_thousandths :
    ReplayController.intervalFromPlaySpeed (4 / 125 : K) = .ok 3124 := by
  have hd : roundToDouble (4 / 125 : K) =
      some (1152921504606847 / 36028797018963968) := by
    rw [roundToDouble_of_near
      (4 / 125 : K) (-5) 4611686018427388
     
      (by norm_num) (by norm_num) (by norm_num)
      (by rw [abs_lt]; constructor <;> norm_num) (by norm_num)]
    norm_num
  have hs : roundToDouble ((1152921504606847 / 36028797018963968 : K) / 100) =
      some (5902958103587057 / 18446744073709551616) := by
    rw [roundToDouble_of_near
      ((1152921504606847 / 36028797018963968) / 100 : K) (-12) 5902958103587057
     
      (by norm_num) (by norm_num) (by norm_num)
      (by rw [abs_lt]; constructor <;> norm_num) (by norm_num)]
    norm_num
  have hq : roundToDouble (1 / (5902958103587057 / 18446744073709551616 : K)) =
      some (6871947673599999 / 2199023255552) := by
    rw [roundToDouble_of_near
      (1 / (5902958103587057 / 18446744073709551616) : K) (11) 6871947673599999
     
      (by norm_num) (by norm_num) (by norm_num)
      (by rw [abs_lt]; constructor <;> norm_num) (by norm_num)]
    norm_num
  exact ReplayController.intervalFromPlaySpeed_of_roundings _ _ _ _ 3124 hd hs (by norm_num) hq
    (by norm_num) (by rw [Int.floor_eq_iff]; constructor <;> norm_num)
    (by constructor <;> norm_num)

/-- The interval computed for the play speed text `0.001%` is 99999. -/
theorem ReplayController.intervalFromPlaySpeed_thousandth :
    ReplayController.intervalFromPlaySpeed (1 / 1000 : K) = .ok 99999 := by
  have hd : roundToDouble (1 / 1000 : K) =
      some (1152921504606847 / 1152921504606846976) := by
    rw [roundToDouble_of_near
      (1 / 1000 : K) (-10) 4611686018427388
     
      (by norm_num) (by norm_num) (by norm_num)
      (by rw [abs_lt]; constructor <;> norm_num) (by norm_num)]
    norm_num
  have hs : roundToDouble ((1152921504606847 / 1152921504606846976 : K) / 100) =
      some (5902958103587057 / 590295810358705651712) := by
    rw [roundToDouble_of_near
      ((1152921504606847 / 1152921504606846976) / 100 : K) (-17) 5902958103587057
     
      (by norm_num) (by norm_num) (by norm_num)
      (by rw [abs_lt]; constructor <;> norm_num) (by norm_num)]
    norm_num
  have hq : roundToDouble (1 / (5902958103587057 / 590295810358705651712 : K)) =
      some (6871947673599999 / 68719476736) := by
    rw [roundToDouble_of_near
      (1 / (5902958103587057 / 590295810358705651712) : K) (16) 6871947673599999
     
      (by norm_num) (by norm_num) (by norm_num)
      (by rw [abs_lt]; constructor <;> norm_num) (by norm_num)]
    norm_num
  exact ReplayController.intervalFromPlaySpeed_of_roundings _ _ _ _ 99999 hd hs (by norm_num) hq
    (by norm_num) (by rw [Int.floor_eq_iff]; constructor <;> norm_num)
    (by constructor <;> norm_num)

end Rounding

/-! ## Loading a take -/

section Loading

variable {K : Type} [LinearOrderedField K] [FloorRing K]

/-- What a failed load leaves behind: when the take file cannot be opened or is not a JSON
object, `loadSavedTake` and `loadCommonTake` keep the saved frames, the current index and
the replaying and recording flags, and set the inter-frame interval to the value computed
from the play speed (the call is undefined when that value is no `int`). -/
theorem ReplayController.failed_load_keeps_frames (self : ReplayController K)
    (file : TakeFile K) (playspeed : K) (hfile : ReplayController.loadJsonFile file = none) :
    self.loadSavedTake file playspeed =
      (ReplayController.intervalFromPlaySpeed playspeed).map
        (fun interval => { state := { self with m_intervalMs := interval } }) ∧
    self.loadCommonTake file playspeed =
      (ReplayController.intervalFromPlaySpeed playspeed).map
        (fun interval => { state := { self with m_intervalMs := interval } }) := by
  constructor
  · unfold ReplayController.loadSavedTake
    cases ReplayController.intervalFromPlaySpeed playspeed with
    | error e => rfl
    | ok interval => simp [hfile, bind, Except.bind, pure, Except.pure, Except.map]
  · unfold ReplayController.loadCommonTake
    cases ReplayController.intervalFromPlaySpeed playspeed with
    | error e => rfl
    | ok interval => simp [hfile, bind, Except.bind, pure, Except.pure, Except.map]

end Loading

/-- A failed load on a concrete input: a take file that cannot be opened, play speed 50. -/
theorem ReplayController.failed_load_keeps_frames_witness :
    ReplayController.loadJsonFile (TakeFile.cannotOpen : TakeFile ℚ) = none ∧
    sessionTake.loadSavedTake TakeFile.cannotOpen 50 =
      (ReplayController.intervalFromPlaySpeed (50 : ℚ)).map
        (fun interval => { state := { sessionTake with m_intervalMs := interval } }) :=
  ⟨rfl, (ReplayController.failed_load_keeps_frames sessionTake TakeFile.cannotOpen 50 rfl).1⟩

/-- C18: the controller holds the interval 1; after `loadSavedTake`, and after
`loadCommonTake`, with a take file that cannot be opened and the play speed 50% it holds
the interval 2: the load fails and the state has changed. -/
theorem ReplayController.failed_load_changes_interval :
    sessionTake.m_intervalMs = 1 ∧
    (sessionTake.loadSavedTake TakeFile.cannotOpen 50).map (fun r => r.state.m_intervalMs)
      = .ok 2 ∧
    (sessionTake.loadCommonTake TakeFile.cannotOpen 50).map (fun r => r.state.m_intervalMs)
      = .ok 2 := by
  refine ⟨rfl, ?_, ?_⟩
  · simp [ReplayController.loadSavedTake, ReplayController.intervalFromPlaySpeed_fifty,
      ReplayController.loadJsonFile, bind, Except.bind, pure, Except.pure, Except.map]
  · simp [ReplayController.loadCommonTake, ReplayController.intervalFromPlaySpeed_fifty,
      ReplayController.loadJsonFile, bind, Except.bind, pure, Except.pure, Except.map]

/-- C19: with a take file that cannot be opened, that is not JSON, or whose document is
not an object, `loadSavedTake` emits no `savedTakeReady` signal and `loadCommonTake` no
`commonTakeReady` signal (the value `false` is not sent); with a JSON object they emit
`true`. -/
theorem ReplayController.failed_load_emits_no_signal :
    (sessionTake.loadSavedTake TakeFile.cannotOpen 50).map (fun r => r.savedTakeReady)
      = .ok none ∧
    (sessionTake.loadSavedTake TakeFile.parseError 50).map (fun r => r.savedTakeReady)
      = .ok none ∧
    (sessionTake.loadSavedTake (TakeFile.document (.array [])) 50).map
      (fun r => r.savedTakeReady) = .ok none ∧
    (sessionTake.loadCommonTake TakeFile.cannotOpen 50).map (fun r => r.commonTakeReady)
      = .ok none ∧
    (sessionTake.loadSavedTake (TakeFile.document (.object [])) 50).map
      (fun r => r.savedTakeReady) = .ok (some true) ∧
    (sessionTake.loadCommonTake (TakeFile.document (.object [])) 50).map
      (fun r => r.commonTakeReady) = .ok (some true) := by
  refine ⟨?_, ?_, ?_, ?_, ?_, ?_⟩ <;>
    simp [ReplayController.loadSavedTake, ReplayController.loadCommonTake,
      ReplayController.intervalFromPlaySpeed_fifty, ReplayController.loadJsonFile, bind,
      Except.bind, pure, Except.pure, Except.map]
/-! ## Streaming sessions -/

section Sessions

variable {K : Type}

/-- The buffer after `processFrameData` depends on the buffer only. -/
theorem NatNetConnection.processFrameData_frames_congr (a b : NatNetConnection K)
    (data : sFrameOfMocapData K) (h : a.frames = b.frames) :
    (a.processFrameData data).1.frames = (b.processFrameData data).1.frames := by
  have hd : a.isDuplicate data = b.isDuplicate data := by
    simp [NatNetConnection.isDuplicate, h]
  unfold NatNetConnection.processFrameData
  rw [hd]
  cases b.isDuplicate data <;> simp [h]

/-- The buffer after a sequence of deliveries depends on the buffer only. -/
theorem NatNetConnection.processAll_frames_congr (datas : List (sFrameOfMocapData K)) :
    ∀ a b : NatNetConnection K, a.frames = b.frames →
      (a.processAll datas).frames = (b.processAll datas).frames := by
  induction datas with
  | nil => intro a b h; simpa [NatNetConnection.processAll] using h
  | cons data rest ih =>
    intro a b h
    have := ih _ _ (NatNetConnection.processFrameData_frames_congr a b data h)
    simpa [NatNetConnection.processAll] using this

/-- One event: connecting and disconnecting keep the buffer, a delivery runs
`processFrameData` on it. -/
theorem Session.step_frames (s : Session K) (event : SessionEvent K) :
    (s.step event).1.connection.frames
      = (s.connection.processAll (SessionEvent.delivered [event])).frames := by
  cases event with
  | streamingConnect isRecording sdk =>
    simp only [Session.step, ConnectionController.startConnection, NatNetConnection.connect,
      SessionEvent.delivered, NatNetConnection.processAll, List.foldl_nil]
    split_ifs <;> rfl
  | frame data =>
    simp [Session.step, SessionEvent.delivered, NatNetConnection.processAll]
  | streamingDisconnect =>
    simp [Session.step, ConnectionController.stopConnection, NatNetConnection.disconnect,
      SessionEvent.delivered, NatNetConnection.processAll]

/-- The buffer after a history holds the deliveries of the whole history, whatever the
connect and disconnect events between them. -/
theorem Session.run_frames (events : List (SessionEvent K)) :
    ∀ s : Session K, (s.run events).1.connection.frames
      = (s.connection.processAll (SessionEvent.delivered events)).frames := by
  induction events with
  | nil => intro s; rfl
  | cons event rest ih =>
    intro s
    simp only [Session.run]
    rw [ih (s.step event).1]
    cases event with
    | frame data =>
      simp [Session.step, SessionEvent.delivered, NatNetConnection.processAll]
    | streamingConnect isRecording sdk =>
      exact NatNetConnection.processAll_frames_congr _ _ _
        (by simpa [SessionEvent.delivered, NatNetConnection.processAll]
          using Session.step_frames s (.streamingConnect isRecording sdk))
    | streamingDisconnect =>
      exact NatNetConnection.processAll_frames_congr _ _ _
        (by simpa [SessionEvent.delivered, NatNetConnection.processAll]
          using Session.step_frames s .streamingDisconnect)

/-- A history followed by further events. -/
theorem Session.run_append (events later : List (SessionEvent K)) :
    ∀ s : Session K, s.run (events ++ later)
      = (((s.run events).1.run later).1, (s.run events).2 ++ ((s.run events).1.run later).2) := by
  induction events with
  | nil => intro s; simp [Session.run]
  | cons event rest ih =>
    intro s
    have h : (s.step event).1.run (rest.append later) = _ := ih (s.step event).1
    simp only [List.cons_append, Session.run, List.append_assoc]
    rw [h]

/-- C20, as amended: `streamingConnect` sets the recording flag to its argument and does
not clear the frame buffer; at `streamingDisconnect` with the recording flag set
`saveStream` writes a take that holds the whole frame buffer of the connection; so the
take written at the end of a history holds the frames buffered before the history and
every buffered (non-duplicate) delivery of the whole history, in delivery order, also
those of earlier connections and those made before the recording was switched on. -/
theorem Session.take_holds_whole_buffer (s : Session K) (events : List (SessionEvent K))
    (isRecording : Bool) (sdk : SdkOutcome) :
    ((s.step (.streamingConnect isRecording sdk)).1.recorder.m_isRecording = isRecording ∧
      (s.step (.streamingConnect isRecording sdk)).1.connection.frames
        = s.connection.frames) ∧
    (s.recorder.m_isRecording = true →
      (s.step .streamingDisconnect).2 = some s.connection.frames) ∧
    (s.recorder.m_isRecording = false → (s.step .streamingDisconnect).2 = none) ∧
    ((s.run events).1.recorder.m_isRecording = true →
      (s.run (events ++ [.streamingDisconnect])).2
        = (s.run events).2
            ++ [(s.connection.processAll (SessionEvent.delivered events)).frames]) := by
  refine ⟨⟨rfl, ?_⟩, ?_, ?_, ?_⟩
  · simpa [SessionEvent.delivered, NatNetConnection.processAll]
      using Session.step_frames s (.streamingConnect isRecording sdk)
  · intro h
    simp [Session.step, ReplayController.saveStream, ReplayController.saveTake, h,
      ConnectionController.stopConnection, NatNetConnection.disconnect]
  · intro h
    simp [Session.step, ReplayController.saveStream, h]
  · intro h
    rw [Session.run_append]
    simp only [Session.run, List.append_nil, List.append_cancel_left_eq]
    have hstep : ((s.run events).1.step .streamingDisconnect).2
        = some (s.run events).1.connection.frames := by
      simp [Session.step, ReplayController.saveStream, ReplayController.saveTake, h,
        ConnectionController.stopConnection, NatNetConnection.disconnect]
    rw [hstep, Session.run_frames]
    rfl

end Sessions

/-- Witness of C20 as amended: after a connection without recording that delivered frame 1
and a connection with recording that delivered frame 2, the take written at the
disconnect holds both frames. -/
theorem Session.take_holds_whole_buffer_witness :
    (Session.run ({} : Session ℚ) (twoConnections.take 5)).1.recorder.m_isRecording = true ∧
    (Session.run ({} : Session ℚ) (twoConnections.take 5 ++ [.streamingDisconnect])).2
      = (Session.run ({} : Session ℚ) (twoConnections.take 5)).2
          ++ [(NatNetConnection.processAll ({} : NatNetConnection ℚ)
            (SessionEvent.delivered (twoConnections.take 5))).frames] :=
  ⟨rfl, (Session.take_holds_whole_buffer ({} : Session ℚ) (twoConnections.take 5) true
    sdkAllOk).2.2.2 rfl⟩

/-- Counterexample to C20 as stated: frame 1 is delivered during a connection without
recording, frame 2 after the recording was started with the next connection; the take
written when that recording stops holds frame 1 and frame 2, not frame 2 alone. -/
theorem Session.take_holds_earlier_frames :
    (Session.run ({} : Session ℚ) twoConnections).2
      = [[(sdkFrame 1).toFrameData, (sdkFrame 2).toFrameData]] ∧
    [(sdkFrame 1).toFrameData, (sdkFrame 2).toFrameData] ≠ [(sdkFrame 2).toFrameData] :=
  ⟨rfl, by decide⟩

/-! ## Replay interval and tick delay -/

section Interval

variable {K : Type} [LinearOrderedField K] [FloorRing K]

/-- Both load methods store the interval computed from the play speed, whatever the take
file holds. -/
theorem ReplayController.load_interval (self : ReplayController K) (file : TakeFile K)
    (playspeed : K) :
    (self.loadSavedTake file playspeed).map (fun r => r.state.m_intervalMs) =
      ReplayController.intervalFromPlaySpeed playspeed ∧
    (self.loadCommonTake file playspeed).map (fun r => r.state.m_intervalMs) =
      ReplayController.intervalFromPlaySpeed playspeed := by
  constructor
  · unfold ReplayController.loadSavedTake
    cases ReplayController.intervalFromPlaySpeed playspeed with
    | error e => rfl
    | ok interval =>
      cases hfile : ReplayController.loadJsonFile file <;>
        simp [hfile, bind, Except.bind, pure, Except.pure, Except.map,
          ReplayController.parseFramesJson, ReplayController.parseFrames]
  · unfold ReplayController.loadCommonTake
    cases ReplayController.intervalFromPlaySpeed playspeed with
    | error e => rfl
    | ok interval =>
      cases hfile : ReplayController.loadJsonFile file <;>
        simp [hfile, bind, Except.bind, pure, Except.pure, Except.map,
          ReplayController.parseFramesJson, ReplayController.parseFrames]

/-- C21, as amended: for every play speed text with a positive decimal value `p` with
`p ≤ 2^1000` and `100 / p ≤ 2^31 - 1`, `loadSavedTake` and `loadCommonTake` return and
store as inter-frame interval the integer part of the `double` quotient `q` they compute,
which differs from `100 / p` by at most `100 / p / 2^50`; so the stored interval is at
most `100 / p + 100 / p / 2^50` and more than `100 / p - 100 / p / 2^50 - 1`. For the
play speeds 100, 50, 25, 12.5, 10 and 5 the stored interval is `100 / p`, that is 1, 2, 4,
8, 10 and 20; the one for 50 is twice the one for 100. -/
theorem ReplayController.stored_interval_double_quotient (self : ReplayController K)
    (file : TakeFile K) (p : K) (hp : 0 < p) (hmax : p ≤ 2 ^ 1000)
    (hint : 100 / p ≤ 2 ^ 31 - 1) :
    (∃ q : K, 0 ≤ q ∧ |q - 100 / p| ≤ 100 / p / 2 ^ 50 ∧
      (self.loadSavedTake file p).map (fun r => r.state.m_intervalMs) = .ok ⌊q⌋ ∧
      (self.loadCommonTake file p).map (fun r => r.state.m_intervalMs) = .ok ⌊q⌋ ∧
      ((⌊q⌋ : Int) : K) ≤ 100 / p + 100 / p / 2 ^ 50 ∧
      100 / p - 100 / p / 2 ^ 50 - 1 < ((⌊q⌋ : Int) : K)) ∧
    (∀ speed : K × Int,
      speed ∈ [((100 : K), (1 : Int)), (50, 2), (25, 4), (25 / 2, 8), (10, 10), (5, 20)] →
      (self.loadSavedTake file speed.1).map (fun r => r.state.m_intervalMs) = .ok speed.2 ∧
      (self.loadCommonTake file speed.1).map (fun r => r.state.m_intervalMs) = .ok speed.2 ∧
      (speed.2 : K) = 100 / speed.1) := by
  constructor
  · obtain ⟨q, hq0, hq, hval⟩ := ReplayController.intervalFromPlaySpeed_near p hp hmax hint
    obtain ⟨hq1, hq2⟩ := abs_le.mp hq
    refine ⟨q, hq0, hq, ?_, ?_, ?_, ?_⟩
    · rw [(ReplayController.load_interval self file p).1, hval]
    · rw [(ReplayController.load_interval self file p).2, hval]
    · have := Int.floor_le q
      linarith
    · have := Int.lt_floor_add_one q
      linarith
  · intro speed hspeed
    simp only [List.mem_cons, List.mem_singleton, List.not_mem_nil, or_false] at hspeed
    rcases hspeed with h | h | h | h | h | h <;> subst h <;>
      refine ⟨?_, ?_, by norm_num⟩
    · rw [(ReplayController.load_interval self file _).1,
        ReplayController.intervalFromPlaySpeed_hundred]
    · rw [(ReplayController.load_interval self file _).2,
        ReplayController.intervalFromPlaySpeed_hundred]
    · rw [(ReplayController.load_interval self file _).1,
        ReplayController.intervalFromPlaySpeed_fifty]
    · rw [(ReplayController.load_interval self file _).2,
        ReplayController.intervalFromPlaySpeed_fifty]
    · rw [(ReplayController.load_interval self file _).1,
        ReplayController.intervalFromPlaySpeed_twenty_five]
    · rw [(ReplayController.load_interval self file _).2,
        ReplayController.intervalFromPlaySpeed_twenty_five]
    · rw [(ReplayController.load_interval self file _).1,
        ReplayController.intervalFromPlaySpeed_twelve_and_half]
    · rw [(ReplayController.load_interval self file _).2,
        ReplayController.intervalFromPlaySpeed_twelve_and_half]
    · rw [(ReplayController.load_interval self file _).1,
        ReplayController.intervalFromPlaySpeed_ten]
    · rw [(ReplayController.load_interval self file _).2,
        ReplayController.intervalFromPlaySpeed_ten]
    · rw [(ReplayController.load_interval self file _).1,
        ReplayController.intervalFromPlaySpeed_five]
    · rw [(ReplayController.load_interval self file _).2,
        ReplayController.intervalFromPlaySpeed_five]

end Interval

/-- Witness of C21 as amended: play speed 12.5, a take file that holds an empty object;
the stored interval is 8. -/
theorem ReplayController.stored_interval_double_quotient_witness :
    (0 : ℚ) < 25 / 2 ∧ (25 / 2 : ℚ) ≤ 2 ^ 1000 ∧ (100 : ℚ) / (25 / 2) ≤ 2 ^ 31 - 1 ∧
    (sessionTake.loadSavedTake (TakeFile.document (.object [])) (25 / 2)).map
      (fun r => r.state.m_intervalMs) = .ok 8 :=
  ⟨by norm_num, by norm_num, by norm_num,
    ((ReplayController.stored_interval_double_quotient sessionTake
      (TakeFile.document (.object [])) (25 / 2) (by norm_num) (by norm_num)
      (by norm_num)).2 (25 / 2, 8) (by simp)).1⟩

/-- Counterexample to C21 as stated: for the play speed 75% the stored interval is 1, which
is not `100 / 75`; for 200% it is 0, which is not `100 / 200`; for 0.032% it is 3124,
which is not `100 / 0.032 = 3125`. -/
theorem ReplayController.stored_interval_seventy_five :
    (sessionTake.loadSavedTake (TakeFile.document (.object [])) 75).map
      (fun r => r.state.m_intervalMs) = .ok 1 ∧
    ((1 : Int) : ℚ) ≠ 100 / 75 ∧
    (sessionTake.loadCommonTake (TakeFile.document (.object [])) 200).map
      (fun r => r.state.m_intervalMs) = .ok 0 ∧
    ((0 : Int) : ℚ) ≠ 100 / 200 ∧
    (sessionTake.loadSavedTake (TakeFile.document (.object [])) (32 / 1000)).map
      (fun r => r.state.m_intervalMs) = .ok 3124 ∧
    (100 : ℚ) / (32 / 1000) = 3125 := by
  refine ⟨?_, by norm_num, ?_, by norm_num, ?_, by norm_num⟩
  · rw [(ReplayController.load_interval _ _ _).1,
      ReplayController.intervalFromPlaySpeed_seventy_five]
  · rw [(ReplayController.load_interval _ _ _).2,
      ReplayController.intervalFromPlaySpeed_two_hundred]
  · rw [(ReplayController.load_interval _ _ _).1]
    have h := ReplayController.intervalFromPlaySpeed_thirty_two_thousandths (K := ℚ)
    norm_num at h ⊢
    exact h

section Delay

variable {K : Type}

/-- The conversion to 32 bits keeps a value of the 32-bit signed range. -/
theorem toInt32_of_range (v : Int) (h : isInt32 v) : toInt32 v = v := by
  obtain ⟨h1, h2⟩ := h
  unfold toInt32
  omega

/-- C22, as amended: when `emitNextFrame` emits a frame during a replay, with a nominal
interval `n` with `0 ≤ n < 2^31` and an elapsed time `e` with `0 ≤ e < 2^31` milliseconds,
it schedules the next tick with the delay `max(0, n - e)`, which is not negative and not
larger than `n`. -/
theorem ReplayController.delay_wall_clock_corrected (self : ReplayController K)
    (elapsed : Int) (hrep : self.m_isReplaying = true)
    (hlt : self.m_currentIndex < self.m_savedFrames.length)
    (hn : 0 ≤ self.m_intervalMs) (hn2 : self.m_intervalMs < 2 ^ 31)
    (he : 0 ≤ elapsed) (he2 : elapsed < 2 ^ 31) :
    (self.emitNextFrame elapsed).scheduled = some (max 0 (self.m_intervalMs - elapsed)) ∧
    0 ≤ max 0 (self.m_intervalMs - elapsed) ∧
    max 0 (self.m_intervalMs - elapsed) ≤ self.m_intervalMs := by
  have h1 : toInt32 elapsed = elapsed := toInt32_of_range elapsed ⟨by omega, he2⟩
  have h2 : toInt32 (self.m_intervalMs - elapsed) = self.m_intervalMs - elapsed :=
    toInt32_of_range _ ⟨by omega, by omega⟩
  rw [ReplayController.emitNextFrame_emit self elapsed hrep hlt, h1, h2]
  refine ⟨rfl, le_max_left _ _, ?_⟩
  exact max_le hn (by omega)

end Delay

/-- Witness of C22 as amended: the controller that holds the three session frames, after
`startReplay`, with interval 1 and 0 ms elapsed. -/
theorem ReplayController.delay_wall_clock_corrected_witness :
    (sessionTake.startReplay.state.emitNextFrame 0).scheduled =
      some (max 0 (sessionTake.startReplay.state.m_intervalMs - 0)) :=
  (ReplayController.delay_wall_clock_corrected sessionTake.startReplay.state 0 rfl
    (by decide) (by decide) (by decide) (by decide) (by decide)).1

/-- Counterexample to C22 as stated: with the nominal interval 1 and the elapsed time
`2^32 - 1` ms the scheduled delay is 2, which is larger than the nominal interval and is
not `max(0, 1 - (2^32 - 1)) = 0`. -/
theorem ReplayController.delay_exceeds_interval :
    sessionTake.startReplay.state.m_intervalMs = 1 ∧
    (sessionTake.startReplay.state.emitNextFrame (2 ^ 32 - 1)).scheduled = some 2 ∧
    max 0 (sessionTake.startReplay.state.m_intervalMs - (2 ^ 32 - 1)) = 0 := by
  refine ⟨rfl, ?_, by decide⟩
  rw [ReplayController.emitNextFrame_emit _ _ rfl (by decide)]
  decide
/-! ## Replay runs -/

section ReplayRuns

variable {K : Type}

/-- Stopping a controller that is not replaying changes nothing. -/
theorem ReplayController.stopReplay_idle (self : ReplayController K)
    (h : self.m_isReplaying = false) : self.stopReplay = self := by
  cases self
  simp only [ReplayController.stopReplay] at h ⊢
  simp [h]

/-- While the replay runs, the first `i` ticks move the index by `i` and change nothing
else, as long as the index stays within the saved frames. -/
theorem ReplayController.afterTicks_emitting (self : ReplayController K)
    (elapsed : Nat → Int) (hrep : self.m_isReplaying = true) (i : Nat)
    (h : self.m_currentIndex + i ≤ self.m_savedFrames.length) :
    self.afterTicks elapsed i = { self with m_currentIndex := self.m_currentIndex + i } := by
  induction i with
  | zero => rfl
  | succ i ih =>
    rw [ReplayController.afterTicks, ih (by omega),
      ReplayController.emitNextFrame_emit
        ({ self with m_currentIndex := self.m_currentIndex + i } : ReplayController K)
        (elapsed i) hrep (by simp only; omega)]
    rfl

/-- Ticks on a controller that is not replaying, or whose index is at the end of the saved
frames, emit nothing, schedule nothing and leave the controller stopped. -/
theorem ReplayController.afterTicks_exhausted (self : ReplayController K)
    (elapsed : Nat → Int)
    (h : self.m_isReplaying = false ∨ self.m_savedFrames.length ≤ self.m_currentIndex)
    (k : Nat) :
    self.afterTicks elapsed (k + 1) = self.stopReplay ∧
    (self.afterTicks elapsed k).emitNextFrame (elapsed k) = { state := self.stopReplay } := by
  induction k with
  | zero =>
    have h0 := ReplayController.emitNextFrame_stop self (elapsed 0) h
    exact ⟨by rw [ReplayController.afterTicks, ReplayController.afterTicks, h0], h0⟩
  | succ k ih =>
    have hs : self.stopReplay.emitNextFrame (elapsed (k + 1)) =
        { state := self.stopReplay } := by
      rw [ReplayController.emitNextFrame_stop _ _ (Or.inl rfl),
        ReplayController.stopReplay_idle self.stopReplay rfl]
    refine ⟨?_, ?_⟩
    · rw [ReplayController.afterTicks, ih.1, hs]
    · rw [ih.1, hs]

/-- The state reached by the ticks after `startReplay` on a controller that holds frames:
the index counts the ticks up to the number of frames, and one tick later the replay is
stopped for good. -/
theorem ReplayController.afterTicks_started (self : ReplayController K)
    (elapsed : Nat → Int) (hne : self.m_savedFrames.isEmpty = false) :
    (∀ i, i ≤ self.m_savedFrames.length →
      self.startReplay.state.afterTicks elapsed i =
        { self with m_currentIndex := i, m_isReplaying := true }) ∧
    (∀ k, self.startReplay.state.afterTicks elapsed (self.m_savedFrames.length + 1 + k) =
      { self with m_currentIndex := self.m_savedFrames.length, m_isReplaying := false }) ∧
    (∀ k, (self.startReplay.state.afterTicks elapsed
        (self.m_savedFrames.length + k)).emitNextFrame
          (elapsed (self.m_savedFrames.length + k)) =
      { state := { self with m_currentIndex := self.m_savedFrames.length
                             m_isReplaying := false } }) := by
  have hstart : self.startReplay.state =
      { self with m_currentIndex := 0, m_isReplaying := true } := by
    simp [ReplayController.startReplay, hne]
  have hemit : ∀ i, i ≤ self.m_savedFrames.length →
      self.startReplay.state.afterTicks elapsed i =
        { self with m_currentIndex := i, m_isReplaying := true } := by
    intro i hi
    rw [hstart, ReplayController.afterTicks_emitting _ elapsed rfl i (by simpa using hi)]
    simp
  have hend := hemit self.m_savedFrames.length le_rfl
  have hsplit : ∀ n k, (self.startReplay.state.afterTicks elapsed (n + k)) =
      (self.startReplay.state.afterTicks elapsed n).afterTicks
        (fun j => elapsed (n + j)) k := by
    intro n k
    induction k with
    | zero => rfl
    | succ k ih =>
      rw [← Nat.add_assoc, ReplayController.afterTicks, ih, ReplayController.afterTicks]
  have hdone := ReplayController.afterTicks_exhausted
    ({ self with m_currentIndex := self.m_savedFrames.length, m_isReplaying := true } :
      ReplayController K)
    (fun j => elapsed (self.m_savedFrames.length + j)) (Or.inr le_rfl)
  refine ⟨hemit, ?_, ?_⟩
  · intro k
    rw [Nat.add_assoc, hsplit, hend, Nat.add_comm 1 k]
    exact (hdone k).1
  · intro k
    rw [hsplit, hend]
    exact (hdone k).2

/-- C23: after `startReplay`, tick number `i + 1` emits frame `i` of the saved frames, for
every `i` below their number `N`, and every later tick emits nothing; exactly the first `N`
ticks schedule a further tick; from tick `N + 1` on the controller is not replaying. The
event loop that fires the scheduled ticks ends, with the saved frames replayed once in
order. With no saved frames `startReplay` emits nothing, schedules nothing and leaves the
state as it is. -/
theorem ReplayController.replay_once_in_order (self : ReplayController K)
    (elapsed : Nat → Int) :
    (∀ i, ((self.startReplay.state.afterTicks elapsed i).emitNextFrame (elapsed i)).emitted
      = self.m_savedFrames[i]?) ∧
    (∀ i, ((self.startReplay.state.afterTicks elapsed i).emitNextFrame
      (elapsed i)).scheduled.isSome = decide (i < self.m_savedFrames.length)) ∧
    (∀ k, (self.startReplay.state.afterTicks elapsed
      (self.m_savedFrames.length + 1 + k)).m_isReplaying = false) ∧
    (∀ extra, self.replay elapsed (self.m_savedFrames.length + 1 + extra) =
      some (self.m_savedFrames,
        if self.m_savedFrames.isEmpty then self
        else { self with m_currentIndex := self.m_savedFrames.length
                         m_isReplaying := false })) ∧
    self.startReplay.emitted = none ∧
    self.startReplay.scheduled.isSome = !self.m_savedFrames.isEmpty ∧
    (self.m_savedFrames.isEmpty = true → self.startReplay.state = self) := by
  cases hne : self.m_savedFrames.isEmpty with
  | true =>
    have hnil : self.m_savedFrames = [] := List.isEmpty_iff.mp hne
    have hstart : self.startReplay = { state := self } := by
      simp [ReplayController.startReplay, hne]
    have hdone := ReplayController.afterTicks_exhausted self elapsed
      (Or.inr (by simp [hnil]))
    refine ⟨?_, ?_, ?_, ?_, ?_, ?_, ?_⟩
    · intro i
      rw [hstart, (hdone i).2, hnil]
      rfl
    · intro i
      rw [hstart, (hdone i).2, hnil]
      rfl
    · intro k
      have hk : self.m_savedFrames.length + 1 + k = k + 1 := by simp [hnil]; omega
      rw [hstart, hk, (hdone k).1]
      rfl
    · intro extra
      simp [ReplayController.replay, hstart, hnil]
    · rw [hstart]
    · rw [hstart]; rfl
    · intro _; rw [hstart]
  | false =>
    obtain ⟨hemit, hstopped, hlate⟩ := ReplayController.afterTicks_started self elapsed hne
    have hstart : self.startReplay =
        { state := { self with m_currentIndex := 0, m_isReplaying := true }
          scheduled := some 0 } := by
      simp [ReplayController.startReplay, hne]
    have htick : ∀ i, (self.startReplay.state.afterTicks elapsed i).emitNextFrame (elapsed i)
        = if h : i < self.m_savedFrames.length then
            { state := { self with m_currentIndex := i + 1, m_isReplaying := true }
              emitted := some (self.m_savedFrames.get ⟨i, h⟩)
              scheduled := some (max 0 (toInt32 (self.m_intervalMs - toInt32 (elapsed i)))) }
          else { state := { self with m_currentIndex := self.m_savedFrames.length
                                      m_isReplaying := false } } := by
      intro i
      by_cases h : i < self.m_savedFrames.length
      · rw [dif_pos h, hemit i (le_of_lt h),
          ReplayController.emitNextFrame_emit _ _ rfl (by simpa using h)]
      · obtain ⟨k, rfl⟩ : ∃ k, i = self.m_savedFrames.length + k :=
          ⟨i - self.m_savedFrames.length, by omega⟩
        rw [dif_neg h, hlate k]
    refine ⟨?_, ?_, ?_, ?_, ?_, ?_, ?_⟩
    · intro i
      rw [htick i]
      by_cases h : i < self.m_savedFrames.length
      · rw [dif_pos h, List.getElem?_eq_getElem h]; rfl
      · rw [dif_neg h, List.getElem?_eq_none (by omega)]
    · intro i
      rw [htick i]
      by_cases h : i < self.m_savedFrames.length
      · rw [dif_pos h]; simp [h]
      · rw [dif_neg h]; simp [h]
    · intro k
      rw [hstopped k]
    · intro extra
      have hrun := ReplayController.fireTicks_replaying elapsed self.m_savedFrames.length
        ({ self with m_currentIndex := 0, m_isReplaying := true } : ReplayController K) 0
        (self.m_savedFrames.length + 1 + extra) rfl (by simp) (by omega)
      simp only [ReplayController.replay, hstart, hrun]
      simp
    · rw [hstart]
    · rw [hstart]; rfl
    · intro h; simp at h

/-- C24: on a controller on which `stopReplay` has run, every later `emitNextFrame` emits
no frame, schedules no tick and leaves the whole state, saved frames and current index
included, as `stopReplay` left it, however many ticks fire; the same holds in every state
that is not replaying. `stopReplay` itself keeps the saved frames and the index. -/
theorem ReplayController.tick_after_stop_is_noop (self : ReplayController K)
    (elapsed : Nat → Int) :
    (∀ k, (self.stopReplay.afterTicks elapsed k).emitNextFrame (elapsed k) =
      { state := self.stopReplay, emitted := none, scheduled := none }) ∧
    (∀ k, self.stopReplay.afterTicks elapsed k = self.stopReplay) ∧
    self.stopReplay.m_savedFrames = self.m_savedFrames ∧
    self.stopReplay.m_currentIndex = self.m_currentIndex ∧
    (∀ (idle : ReplayController K) (e : Int), idle.m_isReplaying = false →
      idle.emitNextFrame e = { state := idle, emitted := none, scheduled := none }) := by
  have hdone := ReplayController.afterTicks_exhausted self.stopReplay elapsed (Or.inl rfl)
  have hidle := ReplayController.stopReplay_idle self.stopReplay rfl
  refine ⟨?_, ?_, rfl, rfl, ?_⟩
  · intro k
    rw [(hdone k).2, hidle]
  · intro k
    cases k with
    | zero => rfl
    | succ k => rw [(hdone k).1, hidle]
  · intro idle e h
    rw [ReplayController.emitNextFrame_stop idle e (Or.inl h),
      ReplayController.stopReplay_idle idle h]

end ReplayRuns

/-- C25: on the loop of a controller that holds the three session frames, `startReplay`
called twice leaves two ticks outstanding, and so does `startReplay`, `stopReplay`,
`startReplay` with no timeout in between; two timeouts later two frames are replayed and
two ticks are outstanding again. After one `startReplay` one tick is outstanding. -/
theorem ReplayLoop.two_ticks_outstanding :
    (sessionLoop.run [.startReplay]).pending = 1 ∧
    (sessionLoop.run [.startReplay, .startReplay]).pending = 2 ∧
    (sessionLoop.run [.startReplay, .stopReplay, .startReplay]).pending = 2 ∧
    (sessionLoop.run [.startReplay, .stopReplay, .startReplay, .timeout 0, .timeout 0]).pending
      = 2 ∧
    (sessionLoop.run
      [.startReplay, .stopReplay, .startReplay, .timeout 0, .timeout 0]).replayed
      = [sessionFrame 1 1, sessionFrame 2 2] := by
  refine ⟨rfl, rfl, rfl, ?_, ?_⟩ <;> rfl
/-! ## Connection life cycle -/

section Connecting

variable {K : Type}

/-- C26: `NatNetConnection::connect` returns `true` exactly when one of the SDK calls
failed or the host is absent, and `false` when the connection succeeded; with all calls
successful it returns `false`, with a failed client connect it returns `true`. -/
theorem NatNetConnection.connect_returns_failure_flag (self : NatNetConnection K)
    (sdk : SdkOutcome) :
    (self.connect sdk).2 =
      !(sdk.connectOk && sdk.serverDescriptionOk && sdk.hostPresent &&
        sdk.dataDescriptionsOk) ∧
    (self.connect sdkAllOk).2 = false ∧
    (self.connect { sdkAllOk with connectOk := false }).2 = true := by
  refine ⟨?_, rfl, rfl⟩
  obtain ⟨c, s, h, d⟩ := sdk
  cases c <;> cases s <;> cases h <;> cases d <;> rfl

/-- C27: after `NatNetConnection::connect` the status is `false` when the client connect
failed, the status from before the call when the server description could not be
retrieved or the host is absent, and `true` otherwise, also when the data-description
list could not be retrieved; `ConnectionController::startConnection` then reports
`true`. -/
theorem NatNetConnection.connected_despite_failed_retrieval (self : NatNetConnection K)
    (sdk : SdkOutcome) :
    (self.connect sdk).1.connected =
      (if !sdk.connectOk then false
       else if !sdk.serverDescriptionOk || !sdk.hostPresent then self.connected
       else true) ∧
    (self.connect { sdkAllOk with dataDescriptionsOk := false }).1.connected = true ∧
    (ConnectionController.startConnection self
      { sdkAllOk with dataDescriptionsOk := false }).2 = true ∧
    (({ self with connected := true } : NatNetConnection K).connect
      { sdkAllOk with serverDescriptionOk := false }).1.connected = true ∧
    (({ self with connected := true } : NatNetConnection K).connect
      { sdkAllOk with connectOk := false }).1.connected = false := by
  refine ⟨?_, rfl, rfl, rfl, rfl⟩
  obtain ⟨c, s, h, d⟩ := sdk
  cases c <;> cases s <;> cases h <;> cases d <;> rfl

end Connecting

/-! ## Name maps -/

/-- C28: after `receiveMaps` with rigid body 1 "ball", skeleton 7 "anna" and its bone map,
and then `receiveMaps` with rigid body 2 "bat", skeleton 8 "bob" and its bone map, the
forward maps hold the second call's entries only, but the name-to-id maps still hold
"ball" and "anna" and the bone map of skeleton 7; the second `sendAssets` signal carries
the stale names, and `receiveAssets` with "anna" and "ball" selects the ids 7 and 1. -/
theorem DataProcessor.stale_names_stay_resolvable :
    remappedProcessor.rigidBodyMetrics.m_rigidBodies = [(2, "bat")] ∧
    remappedProcessor.skeletonMetrics.m_skeletons = [(8, "bob")] ∧
    remappedProcessor.skeletonMetrics.m_bones = [(8, [(1, "hip")])] ∧
    remappedProcessor.rigidBodyMetrics.m_rigidBodyNameToId = [("bat", 2), ("ball", 1)] ∧
    remappedProcessor.skeletonMetrics.m_skeletonNameToId = [("bob", 8), ("anna", 7)] ∧
    remappedProcessor.skeletonMetrics.m_boneNameToId =
      [(8, [("hip", 1)]), (7, [("hip", 1)])] ∧
    ((({} : DataProcessor ℚ).receiveMaps [(1, "ball")] [(7, "anna")]
        [(7, [(1, "hip")])]).1.receiveMaps [(2, "bat")] [(8, "bob")] [(8, [(1, "hip")])]).2
      = ([("bob", 8), ("anna", 7)], [("bat", 2), ("ball", 1)]) ∧
    (remappedProcessor.receiveAssets "anna" "ball").rigidBodyMetrics.selectedAsset = 1 ∧
    (remappedProcessor.receiveAssets "anna" "ball").skeletonMetrics.selectedAsset = 7 := by
  refine ⟨?_, ?_, ?_, ?_, ?_, ?_, ?_, ?_, ?_⟩ <;> decide

/-! ## Earlier frames in another order -/

/-- C30: rigid body 5 is selected and moves from `(0,0,0)` over `(1,0,0)` to `(2,0,0)` in
steps of one second, next to rigid body 1 at rest at the origin. With the rigid bodies of
all three frames in the same order the calculator returns the velocity 1 and the
acceleration 0; with the two rigid bodies of the previous frame listed in the other order
it returns the velocity 2 and the acceleration 2, computed from the position of rigid
body 1. -/
theorem RigidBodyMetrics.velocity_follows_array_position :
    motionSelected.computeMetricsForFrame ratMath
        (rigidFrame 3 2 [body 1 0 0 0, body 5 2 0 0])
        (rigidFrame 2 1 [body 1 0 0 0, body 5 1 0 0])
        (rigidFrame 1 0 [body 1 0 0 0, body 5 0 0 0])
      = .ok { id := 3, metrics := ⟨[("a", 0), ("v", 1)]⟩ } ∧
    motionSelected.computeMetricsForFrame ratMath
        (rigidFrame 3 2 [body 1 0 0 0, body 5 2 0 0])
        (rigidFrame 2 1 [body 5 1 0 0, body 1 0 0 0])
        (rigidFrame 1 0 [body 1 0 0 0, body 5 0 0 0])
      = .ok { id := 3, metrics := ⟨[("a", 2), ("v", 2)]⟩ } := by
  have h0 : ratMath.sqrt 0 = 0 := by simpa using ratMath_sqrt_mul_self 0
  have h1 : ratMath.sqrt 1 = 1 := by simpa using ratMath_sqrt_mul_self 1
  have h4 : ratMath.sqrt 4 = 2 := by
    rw [show (4 : ℚ) = 2 * 2 by norm_num, ratMath_sqrt_mul_self]; norm_num
  constructor
  · simp [RigidBodyMetrics.computeMetricsForFrame, RigidBodyMetrics.scan, motionSelected,
      rigidFrame, body, RigidBodyMetrics.applyMetric, RigidBodyMetrics.computeVelocity,
      RigidBodyMetrics.computeAcceleration, QVector3D.sub, QVector3D.length, QHash.insert,
      h0, h1, h4]
    norm_num [h0, h1, h4]
  · simp [RigidBodyMetrics.computeMetricsForFrame, RigidBodyMetrics.scan, motionSelected,
      rigidFrame, body, RigidBodyMetrics.applyMetric, RigidBodyMetrics.computeVelocity,
      RigidBodyMetrics.computeAcceleration, QVector3D.sub, QVector3D.length, QHash.insert,
      h0, h1, h4]
    norm_num [h0, h1, h4]

/-! ## The three-frame window of the processor -/

section Window

variable {K : Type} [LinearOrderedField K]

/-- Deliveries to a processor that holds the earlier frames `s` and `p`: the outcome is the
one the three-frame window over `s`, `p` and the delivered frames prescribes, and the
processor ends with the last two of these frames. -/
theorem DataProcessor.deliver_window (m : QtMath K) (frames : List (FrameData K)) :
    ∀ (self : DataProcessor K) (p s : FrameData K),
      self.m_previousFrame = some p → self.m_secondPreviousFrame = some s →
      self.deliver m frames =
        (slidingWindowEmissions m self.rigidBodyMetrics self.skeletonMetrics
            (s :: p :: frames)).map
          (fun out => ({ self with
              m_previousFrame := (s :: p :: frames).getLast?
              m_secondPreviousFrame := (s :: p :: frames).dropLast.getLast? }, out)) := by
  induction frames with
  | nil =>
    intro self p s hp hs
    cases self
    simp only at hp hs
    subst hp hs
    rfl
  | cons f rest ih =>
    intro self p s hp hs
    have hnext := ih
      ({ self with m_secondPreviousFrame := self.m_previousFrame
                   m_previousFrame := some f } : DataProcessor K) f p rfl hp
    unfold DataProcessor.deliver
    rw [slidingWindowEmissions]
    cases hrb : self.rigidBodyMetrics.computeMetricsForFrame m f p s with
    | error e =>
      simp [DataProcessor.onFramesUpdated, hp, hs, hrb, bind, Except.bind, Except.map]
    | ok rb =>
      cases hsk : self.skeletonMetrics.computeMetricsForFrame m f with
      | error e =>
        simp [DataProcessor.onFramesUpdated, hp, hs, hrb, hsk, bind, Except.bind, Except.map]
      | ok sk =>
        rw [DataProcessor.onFramesUpdated_full_history m self f p s rb sk hp hs hrb hsk]
        simp only [bind, Except.bind, hnext]
        cases slidingWindowEmissions m self.rigidBodyMetrics self.skeletonMetrics
            (p :: f :: rest) with
        | error e => rfl
        | ok later =>
          simp [Except.map, pure, Except.pure, List.dropLast_cons₂]

/-- C29: for a processor with no frame history, a run of deliveries has the outcome the
three-frame window over the delivered frames prescribes: nothing for the first two frames
and then, for each frame, the results of the rigid-body calculator on that frame, the
frame before it and the frame before that one, and of the skeleton calculator on that
frame; a calculator that faults ends both alike. After the run the stored previous frame
is the last delivered frame and the stored second previous frame the one before it, none
where there is no such frame. -/
theorem DataProcessor.sliding_three_frame_window (m : QtMath K) (self : DataProcessor K)
    (frames : List (FrameData K)) (hp : self.m_previousFrame = none)
    (hs : self.m_secondPreviousFrame = none) :
    self.deliver m frames =
      (slidingWindowEmissions m self.rigidBodyMetrics self.skeletonMetrics frames).map
        (fun out => ({ self with
            m_previousFrame := frames.getLast?
            m_secondPreviousFrame := frames.dropLast.getLast? }, out)) := by
  match frames with
  | [] =>
    cases self
    simp only at hp hs
    subst hp hs
    rfl
  | [f1] =>
    unfold DataProcessor.deliver
    rw [DataProcessor.onFramesUpdated_short_history m self f1 (Or.inl hp), hp]
    rfl
  | f1 :: f2 :: rest =>
    have hwin := DataProcessor.deliver_window m rest
      ({ self with m_secondPreviousFrame := some f1
                   m_previousFrame := some f2 } : DataProcessor K) f2 f1 rfl rfl
    unfold DataProcessor.deliver
    rw [DataProcessor.onFramesUpdated_short_history m self f1 (Or.inl hp), hp]
    simp only [bind, Except.bind]
    unfold DataProcessor.deliver
    rw [DataProcessor.onFramesUpdated_short_history m _ f2 (Or.inr rfl)]
    simp only [bind, Except.bind, hwin]
    cases slidingWindowEmissions m self.rigidBodyMetrics self.skeletonMetrics
        (f1 :: f2 :: rest) with
    | error e => rfl
    | ok later =>
      simp [Except.map, pure, Except.pure, List.dropLast_cons₂]

end Window

/-- Witness of C29: the session processor, which has no history, and the three session
frames; the one emission is that of frame 3. -/
theorem DataProcessor.sliding_three_frame_window_witness :
    sessionProcessor.m_previousFrame = none ∧ sessionProcessor.m_secondPreviousFrame = none ∧
    sessionProcessor.deliver ratMath sessionFrames =
      (slidingWindowEmissions ratMath sessionProcessor.rigidBodyMetrics
          sessionProcessor.skeletonMetrics sessionFrames).map
        (fun out => ({ sessionProcessor with
            m_previousFrame := sessionFrames.getLast?
            m_secondPreviousFrame := sessionFrames.dropLast.getLast? }, out)) :=
  ⟨rfl, rfl, DataProcessor.sliding_three_frame_window ratMath sessionProcessor sessionFrames
    rfl rfl⟩

/-! ## Record and replay against the live run -/

section LiveRun

variable {K : Type} [LinearOrderedField K]

end LiveRun
section PromptRun

variable {K : Type} [LinearOrderedField K]

variable [FloorRing K]

end PromptRun
section RecordReplay

variable {K : Type} [LinearOrderedField K] [FloorRing K]

end RecordReplay

end MetricsClient
